import Mathlib

/-!
Verification of the CMOS mission runtime (mission lifecycle engine, context
snapshot/dedup manager, and offline reconciliation/merge engine) against its
natural-language specification.

The Lean definitions below are shallow embeddings of the Python source:

* `src/context/db_client.py` — the SQLite client (`add_context_snapshot`,
  `set_context`, `transaction`);
* `src/context/mission_runtime.py` — the mission lifecycle engine
  (`start_mission`, `complete_mission`, `block_mission`, the context-document
  mutation helpers);
* `src/scripts/migrate_cmos_memory.py` — the reconciliation/merge engine
  (`_merge_sessions`, `_parse_timestamp`, `_should_replace`,
  `_merge_project_context`, `_merge_master_context`).

Database tables are modelled as Lean lists (list order = rowid/insertion
order).  Machine-level concerns that are opaque to every claim are abstracted
as explicit function parameters: the SHA-256 digest (`hash`), the canonical
JSON serialisation of a payload (`canon`), the serialised size computation of
`_update_context_health` (`sizeKbOf`), and the ISO-8601 parser inside
`_parse_timestamp` (`parseIso`).  All claims proved below hold for every
instantiation of these parameters (except where a theorem explicitly assumes
two digests differ, mirroring SHA-256 collision-freedom).
-/

namespace Cmos

/-- Byte-wise (character-wise) strict comparison of strings, mirroring how
SQLite compares TEXT values in `ORDER BY created_at DESC`.  Defined over the
character lists so that it evaluates inside the kernel. -/
def charListLt : List Char → List Char → Bool
  | [], [] => false
  | [], _ :: _ => true
  | _ :: _, [] => false
  | c :: cs, d :: ds => if c < d then true else if d < c then false else charListLt cs ds

/-- Strict string comparison used for `created_at` ordering. -/
def strLt (a b : String) : Bool := charListLt a.data b.data

/-- Python truthiness of an optional string (`None` and `""` are falsy). -/
def optStrTruthy : Option String → Bool
  | none => false
  | some s => s ≠ ""

/-- Python `a or b` for an optional string `a` and a plain-string default `b`:
`a` is kept only when it is present and non-empty. -/
def orDefault (a : Option String) (b : String) : String :=
  match a with
  | some s => if s = "" then b else s
  | none => b

/-! ## Durable store: contexts table and context_snapshots table

Embeds `SQLiteClient.get_context`, `SQLiteClient.add_context_snapshot` and
`SQLiteClient.set_context` from `src/context/db_client.py`.  A row of the
`contexts` table stores the JSON payload; in the database the `content`
column holds `json.dumps(payload, ensure_ascii=False, indent=2)` and
`get_context` parses it back, so the round-trip is the identity and the model
keeps the payload value itself.  The payload type is a parameter `α`. -/

/-- Row of the `contexts` table (the mutable "current" pointer). -/
structure ContextRow (α : Type) where
  id : String
  source_path : String
  content : α
  updated_at : String
deriving Repr, DecidableEq

/-- Row of the `context_snapshots` table (append-only history). -/
structure SnapshotRow (α : Type) where
  context_id : String
  session_id : Option String
  source : String
  content_hash : String
  content : α
  created_at : String
deriving Repr, DecidableEq

/-- State of the two context-related tables.  Lists grow at the end, so list
order is insertion (rowid) order. -/
structure CtxStore (α : Type) where
  contexts : List (ContextRow α) := []
  snapshots : List (SnapshotRow α) := []
deriving Repr, DecidableEq

/-- Single step of the maximum-`created_at` selection: keep the incumbent only
when it is strictly later than the candidate (so the later-inserted row wins
ties). -/
def pickStep {α : Type} (acc : Option (SnapshotRow α)) (r : SnapshotRow α) :
    Option (SnapshotRow α) :=
  match acc with
  | none => some r
  | some b => if strLt r.created_at b.created_at then some b else some r

/-- Fold selecting the row with the greatest `created_at` (later-inserted row
wins ties), embedding `ORDER BY created_at DESC LIMIT 1`. -/
def pickLatest {α : Type} (rows : List (SnapshotRow α)) : Option (SnapshotRow α) :=
  rows.foldl pickStep none

/-- Embeds the query
`SELECT content_hash FROM context_snapshots WHERE context_id = :id ORDER BY created_at DESC LIMIT 1`. -/
def lastSnapshotHash {α : Type} (rows : List (SnapshotRow α)) (cid : String) : Option String :=
  (pickLatest (rows.filter (fun r => r.context_id = cid))).map (fun r => r.content_hash)

/-- Embeds `SQLiteClient.get_context`: look up the `contexts` row and return
its (parsed) payload. -/
def getContext {α : Type} (st : CtxStore α) (cid : String) : Option α :=
  (st.contexts.find? (fun r => r.id = cid)).map (fun r => r.content)

/-- Embeds `SQLiteClient.add_context_snapshot`.  `canon` is
`_canonical_json` (deterministic key order, no whitespace) and `hash` is the
SHA-256 hex digest; both are abstract parameters.  Returns the updated store
and the Python return value (`True` iff a new snapshot row was written).
The stored `content` column holds the pretty-printed payload; the model keeps
the payload value itself. -/
def addContextSnapshot {α : Type} (canon : α → String) (hash : String → String)
    (st : CtxStore α) (context_id : String) (payload : α)
    (session_id : Option String) (source : Option String)
    (created_at : Option String) (now : String) : CtxStore α × Bool :=
  let canonical := canon payload
  let digest := hash canonical
  let last := lastSnapshotHash st.snapshots context_id
  if last = some digest then (st, false)
  else
    let timestamp := created_at.getD now
    let row : SnapshotRow α :=
      { context_id := context_id
        session_id := session_id
        source := source.getD ""
        content_hash := digest
        content := payload
        created_at := timestamp }
    ({ st with snapshots := st.snapshots ++ [row] }, true)

/-- Resolution of the pointer row's `source_path`: the explicit argument when
present (`source_path is not None` in the source, so the empty string is
kept), else the existing row's value, else `""`. -/
def resolvedSourcePath {α : Type} (st : CtxStore α) (context_id : String)
    (source_path : Option String) : String :=
  match source_path with
  | some sp => sp
  | none =>
    match st.contexts.find? (fun r => r.id = context_id) with
    | some r => r.source_path
    | none => ""

/-- Effect of `INSERT OR REPLACE INTO contexts`: drop any row with the same
id and insert the new row. -/
def replacePointer {α : Type} (rows : List (ContextRow α)) (row : ContextRow α) :
    List (ContextRow α) :=
  rows.filter (fun r => r.id ≠ row.id) ++ [row]

/-- Embeds `SQLiteClient.set_context`: resolve the `source_path` from the
existing pointer row when none is supplied, unconditionally rewrite the
pointer row (`INSERT OR REPLACE`), and, when `snapshot` is set, delegate to
`add_context_snapshot` with the same timestamp.  `now` stands for the
`_utc_now()` reading.  The returned boolean is `add_context_snapshot`'s
return value (`false` when the snapshot step is skipped); the Python method
discards it, but the spec's `persist` contract reads it. -/
def setContext {α : Type} (canon : α → String) (hash : String → String)
    (st : CtxStore α) (context_id : String) (payload : α)
    (source_path : Option String) (session_id : Option String)
    (snapshot : Bool) (snapshot_source : Option String) (now : String) :
    CtxStore α × Bool :=
  let resolved_source := resolvedSourcePath st context_id source_path
  let timestamp := now
  let newRow : ContextRow α :=
    { id := context_id, source_path := resolved_source
      content := payload, updated_at := timestamp }
  let st1 : CtxStore α := { st with contexts := replacePointer st.contexts newRow }
  if snapshot then
    addContextSnapshot canon hash st1 context_id payload session_id
      (some (orDefault snapshot_source resolved_source)) (some timestamp) now
  else (st1, false)

/-- Per-context list of snapshot content hashes, in insertion order. -/
def snapshotHashes {α : Type} (st : CtxStore α) (cid : String) : List String :=
  (st.snapshots.filter (fun r => r.context_id = cid)).map (fun r => r.content_hash)

/-- Per-context list of snapshot rows, in insertion order. -/
def snapshotsFor {α : Type} (st : CtxStore α) (cid : String) : List (SnapshotRow α) :=
  st.snapshots.filter (fun r => r.context_id = cid)

theorem charListLt_asymm : ∀ {a b : List Char}, charListLt a b = true → charListLt b a = false
  | [], [] => by simp [charListLt]
  | [], _ :: _ => by simp [charListLt]
  | _ :: _, [] => by simp [charListLt]
  | c :: cs, d :: ds => by
    simp only [charListLt]
    rcases lt_trichotomy c d with hcd | hcd | hcd
    · simp [hcd, not_lt_of_gt hcd]
    · subst hcd
      simp only [lt_irrefl, if_false]
      exact charListLt_asymm
    · simp [hcd, not_lt_of_gt hcd]

theorem strLt_asymm {a b : String} (h : strLt a b = true) : strLt b a = false :=
  charListLt_asymm h

theorem pickLatest_aux_mem {α : Type} :
    ∀ (rows : List (SnapshotRow α)) (acc : Option (SnapshotRow α)) (b : SnapshotRow α),
      rows.foldl pickStep acc = some b → b ∈ rows ∨ acc = some b := by
  intro rows
  induction rows with
  | nil => intro acc b h; exact Or.inr h
  | cons r rest ih =>
    intro acc b h
    rw [List.foldl_cons] at h
    rcases ih _ b h with hmem | hacc
    · exact Or.inl (List.mem_cons_of_mem _ hmem)
    · cases acc with
      | none =>
        have : r = b := by simpa [pickStep] using hacc
        exact Or.inl (by simp [this])
      | some a =>
        by_cases hlt : strLt r.created_at a.created_at = true
        · right
          simpa [pickStep, hlt] using hacc
        · left
          rw [Bool.not_eq_true] at hlt
          have : r = b := by simpa [pickStep, hlt] using hacc
          simp [this]

theorem pickLatest_mem {α : Type} {rows : List (SnapshotRow α)} {b : SnapshotRow α}
    (h : pickLatest rows = some b) : b ∈ rows := by
  rcases pickLatest_aux_mem rows none b h with hm | hacc
  · exact hm
  · exact absurd hacc (by simp)

theorem pickLatest_append {α : Type} (l : List (SnapshotRow α)) (r : SnapshotRow α) :
    pickLatest (l ++ [r]) = pickStep (pickLatest l) r := by
  unfold pickLatest
  rw [List.foldl_append]
  rfl

/-- When some strictly later row `r` for `cid` is appended, the
`ORDER BY created_at DESC LIMIT 1` query returns `r`'s hash. -/
theorem lastSnapshotHash_append_new {α : Type} (rows : List (SnapshotRow α)) (cid : String)
    (r : SnapshotRow α) (hcid : r.context_id = cid)
    (hmono : ∀ x ∈ rows, x.context_id = cid → strLt x.created_at r.created_at = true) :
    lastSnapshotHash (rows ++ [r]) cid = some r.content_hash := by
  unfold lastSnapshotHash
  rw [List.filter_append]
  have hone : List.filter (fun x => decide (x.context_id = cid)) [r] = [r] := by
    simp [hcid]
  rw [hone, pickLatest_append]
  cases hp : pickLatest (List.filter (fun x => decide (x.context_id = cid)) rows) with
  | none => rfl
  | some b =>
    have hb := pickLatest_mem hp
    rw [List.mem_filter] at hb
    have hlt := hmono b hb.1 (by simpa using hb.2)
    simp [pickStep, strLt_asymm hlt]

theorem find?_append_last {α : Type} (p : α → Bool) (l : List α) (x : α)
    (hl : ∀ y ∈ l, p y = false) (hx : p x = true) : (l ++ [x]).find? p = some x := by
  induction l with
  | nil => simp [List.find?, hx]
  | cons a rest ih =>
    have ha : p a = false := hl a (by simp)
    simp only [List.cons_append, List.find?, ha]
    exact ih (fun y hy => hl y (by simp [hy]))

/-- Pointer-row lookup after the `INSERT OR REPLACE` performed by
`set_context` returns the freshly written row. -/
theorem find?_replacePointer {α : Type} (l : List (ContextRow α)) (row : ContextRow α)
    (cid : String) (hrow : row.id = cid) :
    (replacePointer l row).find? (fun r => r.id = cid) = some row := by
  apply find?_append_last
  · intro y hy
    rw [List.mem_filter] at hy
    have : y.id ≠ row.id := by simpa using hy.2
    rw [hrow] at this
    simpa using this
  · simpa using hrow

/-- Snapshot row written by a hash-gated `set_context` call that inserts. -/
def writtenSnapshotRow {α : Type} (canon : α → String) (hash : String → String)
    (st : CtxStore α) (cid : String) (p : α) (sp sid ss : Option String)
    (now : String) : SnapshotRow α :=
  { context_id := cid, session_id := sid
    source := orDefault ss (resolvedSourcePath st cid sp)
    content_hash := hash (canon p), content := p, created_at := now }

/-- Pointer row written by a `set_context` call. -/
def writtenPointerRow {α : Type} (st : CtxStore α) (cid : String) (p : α)
    (sp : Option String) (now : String) : ContextRow α :=
  { id := cid, source_path := resolvedSourcePath st cid sp
    content := p, updated_at := now }

/-- Behaviour of `set_context` when the payload's digest differs from the most
recent stored snapshot: the pointer row is replaced and one snapshot row is
appended, returning `true`. -/
theorem setContext_fresh {α : Type} (canon : α → String) (hash : String → String)
    (st : CtxStore α) (cid : String) (p : α) (sp sid ss : Option String) (now : String)
    (h : lastSnapshotHash st.snapshots cid ≠ some (hash (canon p))) :
    setContext canon hash st cid p sp sid true ss now =
      ({ contexts := replacePointer st.contexts (writtenPointerRow st cid p sp now)
         snapshots := st.snapshots ++ [writtenSnapshotRow canon hash st cid p sp sid ss now] },
        true) := by
  simp [setContext, addContextSnapshot, writtenPointerRow, writtenSnapshotRow, h]

/-- Behaviour of `set_context` when the payload's digest equals the most
recent stored snapshot's hash: the pointer row is still replaced, but the
history append is skipped and `false` is returned. -/
theorem setContext_stale {α : Type} (canon : α → String) (hash : String → String)
    (st : CtxStore α) (cid : String) (p : α) (sp sid ss : Option String) (now : String)
    (h : lastSnapshotHash st.snapshots cid = some (hash (canon p))) :
    setContext canon hash st cid p sp sid true ss now =
      ({ contexts := replacePointer st.contexts (writtenPointerRow st cid p sp now)
         snapshots := st.snapshots }, false) := by
  simp [setContext, addContextSnapshot, writtenPointerRow, h]

/-- Claim C1 (one theorem): calling `set_context` (with `snapshot=True`, the
spec's `persist`) twice in succession on the same `context_id` with payloads
whose canonical JSON serialisations coincide (`canon p1 = canon p2`) appends
exactly one new `context_snapshots` row, the delegated
`add_context_snapshot` returns `true` on the first call and `false` on the
second, and on both calls the `contexts` pointer row is rewritten with the
call's payload and timestamp.  Hypotheses: the most recent existing snapshot
for the context (if any) does not already carry the payload's digest, and all
existing snapshots for the context are dated strictly before the first call's
timestamp (the wall clock moves forward). -/
theorem C1_persist_twice_dedup {α : Type} (canon : α → String) (hash : String → String)
    (st : CtxStore α) (cid : String) (p1 p2 : α)
    (sp1 sp2 sid1 sid2 ss1 ss2 : Option String) (now1 now2 : String)
    (hcanon : canon p1 = canon p2)
    (hfresh : lastSnapshotHash st.snapshots cid ≠ some (hash (canon p1)))
    (hmono : ∀ r ∈ st.snapshots, r.context_id = cid → strLt r.created_at now1 = true) :
    (setContext canon hash st cid p1 sp1 sid1 true ss1 now1).2 = true ∧
    (setContext canon hash
        (setContext canon hash st cid p1 sp1 sid1 true ss1 now1).1
        cid p2 sp2 sid2 true ss2 now2).2 = false ∧
    (∃ row : SnapshotRow α,
      (setContext canon hash
          (setContext canon hash st cid p1 sp1 sid1 true ss1 now1).1
          cid p2 sp2 sid2 true ss2 now2).1.snapshots = st.snapshots ++ [row] ∧
      row.context_id = cid ∧ row.content = p1 ∧
      row.content_hash = hash (canon p1) ∧ row.created_at = now1) ∧
    (∃ src1 : String,
      (setContext canon hash st cid p1 sp1 sid1 true ss1 now1).1.contexts.find?
          (fun r => r.id = cid) =
        some { id := cid, source_path := src1, content := p1, updated_at := now1 }) ∧
    (∃ src2 : String,
      (setContext canon hash
          (setContext canon hash st cid p1 sp1 sid1 true ss1 now1).1
          cid p2 sp2 sid2 true ss2 now2).1.contexts.find?
          (fun r => r.id = cid) =
        some { id := cid, source_path := src2, content := p2, updated_at := now2 }) := by
  have h1 := setContext_fresh canon hash st cid p1 sp1 sid1 ss1 now1 hfresh
  have hlast2 :
      lastSnapshotHash
        (st.snapshots ++ [writtenSnapshotRow canon hash st cid p1 sp1 sid1 ss1 now1]) cid =
        some (hash (canon p2)) := by
    rw [← hcanon]
    exact lastSnapshotHash_append_new st.snapshots cid _ rfl hmono
  have h2 := setContext_stale canon hash
    ({ contexts := replacePointer st.contexts (writtenPointerRow st cid p1 sp1 now1)
       snapshots := st.snapshots ++ [writtenSnapshotRow canon hash st cid p1 sp1 sid1 ss1 now1] })
    cid p2 sp2 sid2 ss2 now2 hlast2
  simp only [h1, h2]
  refine ⟨trivial, trivial,
    ⟨writtenSnapshotRow canon hash st cid p1 sp1 sid1 ss1 now1, rfl, rfl, rfl, rfl, rfl⟩,
    ⟨resolvedSourcePath st cid sp1, find?_replacePointer st.contexts _ cid rfl⟩,
    ⟨_, find?_replacePointer _ _ cid rfl⟩⟩

/-- Witness for C1 at a concrete input: an empty store, `cid = "master"`,
identical payloads `"x"` persisted at timestamps `"1"` then `"2"`, with the
serialiser and digest instantiated to the identity. -/
theorem C1_persist_twice_dedup_witness :
    (lastSnapshotHash (CtxStore.snapshots (α := String) {}) "master" ≠ some "x") ∧
    ((setContext id id ({} : CtxStore String) "master" "x" none none true none "1").2 = true ∧
      (setContext id id
          (setContext id id ({} : CtxStore String) "master" "x" none none true none "1").1
          "master" "x" none none true none "2").2 = false ∧
      (∃ row : SnapshotRow String,
        (setContext id id
            (setContext id id ({} : CtxStore String) "master" "x" none none true none "1").1
            "master" "x" none none true none "2").1.snapshots =
          CtxStore.snapshots (α := String) {} ++ [row] ∧
        row.context_id = "master" ∧ row.content = "x" ∧
        row.content_hash = id (id "x") ∧ row.created_at = "1") ∧
      (∃ src1 : String,
        (setContext id id ({} : CtxStore String) "master" "x" none none true none "1").1.contexts.find?
            (fun r => r.id = "master") =
          some { id := "master", source_path := src1, content := "x", updated_at := "1" }) ∧
      (∃ src2 : String,
        (setContext id id
            (setContext id id ({} : CtxStore String) "master" "x" none none true none "1").1
            "master" "x" none none true none "2").1.contexts.find?
            (fun r => r.id = "master") =
          some { id := "master", source_path := src2, content := "x", updated_at := "2" })) :=
  ⟨by decide,
    C1_persist_twice_dedup id id {} "master" "x" "x" none none none none none none "1" "2"
      rfl (by decide) (by decide)⟩

theorem getLast?_mem {α : Type} {l : List α} {a : α} (h : l.getLast? = some a) : a ∈ l := by
  induction l using List.reverseRecOn with
  | nil => simp at h
  | append_singleton l b _ =>
    rw [List.getLast?_concat] at h
    simp [Option.some_inj.mp h]

/-- On a per-context snapshot list whose `created_at` values strictly increase
in insertion order, the `ORDER BY created_at DESC LIMIT 1` query returns the
most recently inserted row. -/
theorem pickLatest_sorted {α : Type} (l : List (SnapshotRow α))
    (hs : List.Pairwise (fun a b => strLt a.created_at b.created_at = true) l) :
    pickLatest l = l.getLast? := by
  induction l using List.reverseRecOn with
  | nil => rfl
  | append_singleton l r ih =>
    rw [pickLatest_append, List.getLast?_concat]
    have hl := List.pairwise_append.mp hs
    rw [ih hl.1]
    cases hgl : l.getLast? with
    | none => rfl
    | some b =>
      have hb : b ∈ l := getLast?_mem hgl
      have hR := hl.2.2 b hb r (by simp)
      simp [pickStep, strLt_asymm hR]

theorem lastSnapshotHash_eq_getLast {α : Type} (st : CtxStore α) (cid : String)
    (hs : List.Pairwise (fun a b => strLt a.created_at b.created_at = true)
      (snapshotsFor st cid)) :
    lastSnapshotHash st.snapshots cid = (snapshotHashes st cid).getLast? := by
  show (pickLatest (snapshotsFor st cid)).map (fun r => r.content_hash) =
    ((snapshotsFor st cid).map (fun r => r.content_hash)).getLast?
  rw [pickLatest_sorted _ hs, List.getLast?_map]

theorem snapshotHashes_of_append {α : Type} (st st' : CtxStore α) (row : SnapshotRow α)
    (cid : String) (hc : row.context_id = cid)
    (hs : st'.snapshots = st.snapshots ++ [row]) :
    snapshotHashes st' cid = snapshotHashes st cid ++ [row.content_hash] := by
  unfold snapshotHashes
  rw [hs, List.filter_append]
  simp [hc]

theorem snapshotsFor_of_append {α : Type} (st st' : CtxStore α) (row : SnapshotRow α)
    (cid : String) (hc : row.context_id = cid)
    (hs : st'.snapshots = st.snapshots ++ [row]) :
    snapshotsFor st' cid = snapshotsFor st cid ++ [row] := by
  unfold snapshotsFor
  rw [hs, List.filter_append]
  simp [hc]

/-- Claim C2 counterexample: persisting payloads whose canonical forms are
`"a"`, `"b"`, `"a"` in succession (digest instantiated to an injective
stand-in for SHA-256) leaves two snapshot rows for context `"ctx"` with the
same content hash, because `add_context_snapshot` deduplicates only against
the most recent snapshot, not against the whole history. -/
theorem C2_counterexample :
    snapshotHashes
      (setContext id id
        (setContext id id
          (setContext id id ({} : CtxStore String) "ctx" "a" none none true none "1").1
          "ctx" "b" none none true none "2").1
        "ctx" "a" none none true none "3").1 "ctx" = ["a", "b", "a"] ∧
    ¬ List.Nodup
      (snapshotHashes
        (setContext id id
          (setContext id id
            (setContext id id ({} : CtxStore String) "ctx" "a" none none true none "1").1
            "ctx" "b" none none true none "2").1
          "ctx" "a" none none true none "3").1 "ctx") := by
  constructor
  · decide
  · decide

/-- Claim C2 amended: the snapshot history is deduplicated only against the
most recent snapshot row, so no two ADJACENT rows (per context, in creation
order) carry the same content hash, while a hash may recur in non-adjacent
rows; a `set_context` call appends a snapshot row iff the payload's digest
differs from the most recent stored hash.  Stated as preservation of the
adjacent-distinctness invariant (together with the strictly-increasing
`created_at` invariant) by every `set_context` call made at a timestamp later
than all existing snapshots for the context. -/
theorem C2_adjacent_dedup {α : Type} (canon : α → String) (hash : String → String)
    (st : CtxStore α) (cid : String) (p : α) (sp sid ss : Option String) (now : String)
    (hsorted : List.Pairwise (fun a b => strLt a.created_at b.created_at = true)
      (snapshotsFor st cid))
    (hmono : ∀ r ∈ st.snapshots, r.context_id = cid → strLt r.created_at now = true)
    (hchain : List.Chain' (fun h1 h2 => h1 ≠ h2) (snapshotHashes st cid)) :
    List.Chain' (fun h1 h2 => h1 ≠ h2)
      (snapshotHashes (setContext canon hash st cid p sp sid true ss now).1 cid) ∧
    List.Pairwise (fun a b => strLt a.created_at b.created_at = true)
      (snapshotsFor (setContext canon hash st cid p sp sid true ss now).1 cid) ∧
    ((setContext canon hash st cid p sp sid true ss now).2 = true ↔
      lastSnapshotHash st.snapshots cid ≠ some (hash (canon p))) := by
  by_cases hlast : lastSnapshotHash st.snapshots cid = some (hash (canon p))
  · rw [setContext_stale canon hash st cid p sp sid ss now hlast]
    refine ⟨hchain, hsorted, ?_⟩
    simp [hlast]
  · have hsnap :
        (setContext canon hash st cid p sp sid true ss now).1.snapshots =
          st.snapshots ++ [writtenSnapshotRow canon hash st cid p sp sid ss now] := by
      rw [setContext_fresh canon hash st cid p sp sid ss now hlast]
    have hH := snapshotHashes_of_append st _ _ cid rfl hsnap
    have hF := snapshotsFor_of_append st _ _ cid rfl hsnap
    have hmono' : ∀ x ∈ snapshotsFor st cid, strLt x.created_at now = true := by
      intro x hx
      rw [snapshotsFor, List.mem_filter] at hx
      exact hmono x hx.1 (by simpa using hx.2)
    refine ⟨?_, ?_, ?_⟩
    · rw [hH, List.chain'_append]
      refine ⟨hchain, by simp, ?_⟩
      intro x hx y hy
      rw [← lastSnapshotHash_eq_getLast st cid hsorted] at hx
      simp only [List.head?_cons, Option.mem_def, Option.some_inj] at hy
      subst hy
      intro hxy
      rw [Option.mem_def] at hx
      exact hlast (by rw [hx, hxy]; rfl)
    · rw [hF, List.pairwise_append]
      refine ⟨hsorted, by simp, ?_⟩
      intro a ha b hb
      rw [List.mem_singleton] at hb
      subst hb
      exact hmono' a ha
    · rw [setContext_fresh canon hash st cid p sp sid ss now hlast]
      simp [hlast]

/-- Witness for the amended C2 at a concrete input: an empty per-context
history, payload `"a"` persisted at timestamp `"1"`. -/
theorem C2_adjacent_dedup_witness :
    (List.Pairwise
        (fun a b => strLt a.created_at b.created_at = true)
        (snapshotsFor ({} : CtxStore String) "ctx") ∧
      (∀ r ∈ CtxStore.snapshots (α := String) {}, r.context_id = "ctx" →
        strLt r.created_at "1" = true) ∧
      List.Chain' (fun h1 h2 => h1 ≠ h2) (snapshotHashes ({} : CtxStore String) "ctx")) ∧
    (List.Chain' (fun h1 h2 => h1 ≠ h2)
        (snapshotHashes (setContext id id ({} : CtxStore String) "ctx" "a" none none true none "1").1
          "ctx") ∧
      List.Pairwise (fun a b => strLt a.created_at b.created_at = true)
        (snapshotsFor (setContext id id ({} : CtxStore String) "ctx" "a" none none true none "1").1
          "ctx") ∧
      ((setContext id id ({} : CtxStore String) "ctx" "a" none none true none "1").2 = true ↔
        lastSnapshotHash (CtxStore.snapshots (α := String) {}) "ctx" ≠ some (id (id "a")))) :=
  ⟨⟨by decide, by decide, by decide⟩,
    C2_adjacent_dedup id id {} "ctx" "a" none none none "1"
      (by decide) (by decide) (by decide)⟩

/-! ## Context documents

Embeds the context-document structure mutated by `MissionRuntime` in
`src/context/mission_runtime.py`.  The documents are open JSON objects; the
model types exactly the substructures the runtime reads and writes
(`working_memory`, `context_health`, `next_session_context`).  A key that the
source creates on demand with `setdefault`/`_ensure_list` behaves identically
whether it is absent or holds its empty default, so such keys are modelled by
their content type directly; keys that the source can `pop` (the three
`next_session_context` lists) are modelled as `Option` to keep the
absent/present distinction observable. -/

/-- Entry appended to `working_memory.session_history` by
`_touch_working_memory`. -/
structure HistEntry where
  mission : String
  agent : String
  summary : String
  action : String
  ts : String
deriving Repr, DecidableEq

/-- Item of a stored `session_history` list: either a well-formed entry
(dict) or a non-dict JSON value, which `_touch_working_memory` discards
(`isinstance(item, dict)` filter).  The non-dict payload is carried opaquely
as its serialised text. -/
inductive HistItem where
  | dict (e : HistEntry)
  | nonDict (s : String)
deriving Repr, DecidableEq

/-- `working_memory` substructure. -/
structure WorkingMemory where
  active_mission : Option String := none
  last_session : Option String := none
  session_count : Option Int := none
  session_history : List HistItem := []
  blocked_missions : List String := []
  last_completed_mission : Option String := none
  last_blocked_mission : Option String := none
deriving Repr, DecidableEq

/-- `context_health` substructure.  `size_kb` stores the result of the
serialised-size computation, which is abstracted by the `sizeKbOf`
parameter. -/
structure ContextHealth where
  sessions_since_reset : Option Int := none
  last_update : Option String := none
  size_kb : Option Int := none
  size_limit_kb : Option Int := none
deriving Repr, DecidableEq

/-- Blocker entry written to `next_session_context.blockers` by
`_record_blocker`. -/
structure Blocker where
  mission : String
  recorded_at : String
  summary : String
  reason : String
  needs : List String
deriving Repr, DecidableEq

/-- `next_session_context` substructure (master context only).  The three
keys may be absent (`none`): `_remove_blocker` pops a key whose filtered list
becomes empty. -/
structure NextSession where
  blockers : Option (List Blocker) := none
  important_reminders : Option (List String) := none
  when_we_resume : Option (List String) := none
deriving Repr, DecidableEq

/-- One context document ("project" or "master"). -/
structure CtxDoc where
  working_memory : WorkingMemory := {}
  context_health : ContextHealth := {}
  next_session_context : NextSession := {}
deriving Repr, DecidableEq

/-- Hex digit used by the JSON string escaper. -/
def hexDigit (n : Nat) : Char :=
  if n < 10 then Char.ofNat (48 + n) else Char.ofNat (87 + n)

/-- Escaping of one character as performed by `json.dumps` with
`ensure_ascii=False`. -/
def escapeChar (c : Char) : List Char :=
  if c = '"' then ['\\', '"']
  else if c = '\\' then ['\\', '\\']
  else if c.toNat = 8 then ['\\', 'b']
  else if c.toNat = 9 then ['\\', 't']
  else if c.toNat = 10 then ['\\', 'n']
  else if c.toNat = 12 then ['\\', 'f']
  else if c.toNat = 13 then ['\\', 'r']
  else if c.toNat < 32 then ['\\', 'u', '0', '0', hexDigit (c.toNat / 16), hexDigit (c.toNat % 16)]
  else [c]

/-- `json.dumps(item, ensure_ascii=False)` for a string item: the quoted,
escaped form.  Reminder and resume-note items are strings, so this is the
serialisation `_remove_blocker` substring-matches against. -/
def jsonDumpStr (s : String) : String :=
  String.mk ('"' :: (s.data.map escapeChar).flatten ++ ['"'])

/-- Python `needle in hay` on strings (substring containment). -/
def containsSub (needle hay : String) : Bool :=
  decide (needle.data <:+: hay.data)

/-- Embeds `MissionRuntime._remove_blocker`: drop every blocker entry whose
`mission` field equals `mission_id` exactly (popping the key when the result
is empty), and drop every reminder and resume note whose JSON serialisation
contains `mission_id` as a substring (again popping emptied keys). -/
def removeBlocker (ns : NextSession) (mission_id : String) : NextSession :=
  let blockers := ns.blockers.getD []
  let filtered := blockers.filter (fun b => b.mission ≠ mission_id)
  let textFilter : Option (List String) → Option (List String) := fun items =>
    match items with
    | some xs =>
      let updated := xs.filter (fun item => ¬ containsSub mission_id (jsonDumpStr item))
      if updated.isEmpty then none else some updated
    | none => none
  { blockers := if filtered.isEmpty then none else some filtered
    important_reminders := textFilter ns.important_reminders
    when_we_resume := textFilter ns.when_we_resume }

/-- Embeds `MissionRuntime._record_blocker`: replace any existing blocker
entry for the mission with a fresh one, add the deduplicated reminder
`"<id>: <reason>"`, and (when `needs` is truthy) one deduplicated
`"<id> -> <need>"` resume note per need. -/
def recordBlocker (ns : NextSession) (mission_id ts summary reason : String)
    (needs : Option (List String)) : NextSession :=
  let blockers :=
    (ns.blockers.getD []).filter (fun b => b.mission ≠ mission_id) ++
      [{ mission := mission_id, recorded_at := ts, summary := summary
         reason := reason, needs := needs.getD [] }]
  let reminder := mission_id ++ ": " ++ reason
  let reminders := ns.important_reminders.getD []
  let reminders := if reminder ∈ reminders then reminders else reminders ++ [reminder]
  let resume :=
    match needs with
    | some needList =>
      if needList.isEmpty then ns.when_we_resume
      else
        some (needList.foldl
          (fun acc need =>
            let note := mission_id ++ " -> " ++ need
            if note ∈ acc then acc else acc ++ [note])
          (ns.when_we_resume.getD []))
    | none => ns.when_we_resume
  { blockers := some blockers
    important_reminders := some reminders
    when_we_resume := resume }

/-- Well-formed (dict) entries of a stored `session_history` list — the
`isinstance(item, dict)` filter of `_touch_working_memory`. -/
def dictEntries (items : List HistItem) : List HistEntry :=
  items.filterMap
    (fun item => match item with | HistItem.dict e => some e | HistItem.nonDict _ => none)

/-- Embeds `MissionRuntime._touch_working_memory`: filter non-dict history
items, append the new entry, keep only the newest 50 entries
(`del history[:-50]`), bump `last_session`/`session_count`, update
`active_mission` and the `last_*` markers according to the action, and
maintain `blocked_missions`. -/
def touchWorkingMemory (doc : CtxDoc) (mission_id ts agent summary action : String)
    (next_mission : Option String) : CtxDoc :=
  let working := doc.working_memory
  let history := dictEntries working.session_history
  let entry : HistEntry :=
    { mission := mission_id, agent := agent, summary := summary, action := action, ts := ts }
  let history := history ++ [entry]
  let history := if history.length > 50 then history.drop (history.length - 50) else history
  let working :=
    { working with
      session_history := history.map HistItem.dict
      last_session := some ts
      session_count := some ((working.session_count.getD 0) + 1) }
  let working :=
    if action = "start" then { working with active_mission := some mission_id }
    else if action = "complete" then
      { working with active_mission := next_mission, last_completed_mission := some mission_id }
    else if action = "blocked" then
      { working with active_mission := none, last_blocked_mission := some mission_id }
    else working
  let blocked := working.blocked_missions
  let blocked :=
    if action = "blocked" then
      (if mission_id ∈ blocked then blocked else blocked ++ [mission_id])
    else
      (if mission_id ∈ blocked then blocked.erase mission_id else blocked)
  { doc with working_memory := { working with blocked_missions := blocked } }

/-- Embeds `MissionRuntime._update_context_health`: bump
`sessions_since_reset` when asked, stamp `last_update`, recompute `size_kb`
from the serialised form (the byte-length/rounding computation is the
abstract parameter `sizeKbOf`, applied to the document as it stands at
serialisation time), and default `size_limit_kb` to 100. -/
def updateContextHealth (sizeKbOf : CtxDoc → Int) (doc : CtxDoc) (ts : String)
    (increment_sessions : Bool) : CtxDoc :=
  let health := doc.context_health
  let health :=
    if increment_sessions then
      { health with sessions_since_reset := some ((health.sessions_since_reset.getD 0) + 1) }
    else health
  let health := { health with last_update := some ts }
  let docAtSerialisation := { doc with context_health := health }
  let health := { health with size_kb := some (sizeKbOf docAtSerialisation) }
  let health := { health with size_limit_kb := some (health.size_limit_kb.getD 100) }
  { doc with context_health := health }

/-! ## Missions, session events and the mission runtime

Embeds the `missions` and `session_events` tables and the three lifecycle
operations of `MissionRuntime`.  Mission metadata is stored in the database
as JSON text; the runtime round-trips it through
`_parse_metadata`/`_format_metadata` (`{}` maps to `NULL` and back), so the
model stores the parsed key/value object directly, with `Option` capturing
the `NULL` column. -/

/-- Metadata value.  The fields the runtime itself writes are strings
(`started_at`, `completed_at`, `blocked_at`, `blocked_reason`) and string
lists (`blocked_needs`); any other pre-existing JSON value is carried
opaquely as its serialised text. -/
inductive MVal where
  | str (s : String)
  | strList (xs : List String)
  | other (s : String)
deriving Repr, DecidableEq

/-- Mission metadata object: insertion-ordered key/value pairs with unique
keys, as in a Python dict. -/
abbrev Metadata := List (String × MVal)

/-- Dict assignment `metadata[k] = v`: overwrite in place, else append. -/
def mdSet (m : Metadata) (k : String) (v : MVal) : Metadata :=
  if m.any (fun kv => kv.1 = k) then
    m.map (fun kv => if kv.1 = k then (k, v) else kv)
  else m ++ [(k, v)]

/-- Dict removal `metadata.pop(k, None)`. -/
def mdPop (m : Metadata) (k : String) : Metadata :=
  m.filter (fun kv => kv.1 ≠ k)

/-- Dict lookup `metadata.get(k)`. -/
def mdGet (m : Metadata) (k : String) : Option MVal :=
  (m.find? (fun kv => kv.1 = k)).map (fun kv => kv.2)

/-- Embeds `_parse_metadata`: a `NULL` column parses to the empty dict. -/
def parseMetadata : Option Metadata → Metadata
  | none => []
  | some m => m

/-- Embeds `_format_metadata`: an empty dict is stored as `NULL`. -/
def formatMetadata (m : Metadata) : Option Metadata :=
  if m.isEmpty then none else some m

/-- Row of the `missions` table. -/
structure MissionRow where
  id : String
  sprint_id : Option String := none
  name : Option String := none
  status : String
  completed_at : Option String := none
  notes : Option String := none
  metadata : Option Metadata := none
deriving Repr, DecidableEq

/-- Session event as built by the lifecycle operations.  A `start` event's
dict has no `next_hint`/`needs`/`reason` keys; the `session_events` row
columns are obtained with `.get`, so absent keys are `none` here.  The
`raw_event` column (the JSON dump of this structure) is not modelled; no
claim depends on it. -/
structure SessionEvent where
  ts : String
  agent : String
  mission : String
  action : String
  status : String
  summary : String
  next_hint : Option String := none
  needs : Option (List String) := none
  reason : Option String := none
deriving Repr, DecidableEq

/-- State used by `MissionRuntime`: the missions table, the append-only
session event log, and the contexts/snapshots tables with `CtxDoc`
payloads.  List order is rowid order. -/
structure MStore where
  missions : List MissionRow := []
  events : List SessionEvent := []
  ctx : CtxStore CtxDoc := {}
deriving Repr, DecidableEq

/-- Embeds `MissionRuntime._load_context`: fetch and deep-copy the context
document, defaulting to an empty document (`{}`) when absent. -/
def loadContext (st : MStore) (cid : String) : CtxDoc :=
  (getContext st.ctx cid).getD {}

/-- Embeds `SQLiteClient.transaction` (`BEGIN`/`commit`/`rollback`): run the
body; on success keep the produced state, on any raised error restore the
entry state and re-raise. -/
def transactionRun {σ ε ρ : Type} (st : σ) (body : σ → Except ε (σ × ρ)) :
    σ × Except ε ρ :=
  match body st with
  | Except.ok r => (r.1, Except.ok r.2)
  | Except.error e => (st, Except.error e)

/-- Embeds `MissionRuntime._persist_contexts`: save both documents through
`set_context` with `snapshot=True`, `source_path=""`,
`snapshot_source="mission_runtime"` and the mission id as session hint.
`dbNow` stands for the `_utc_now()` readings inside `set_context`. -/
def persistContexts (canon : CtxDoc → String) (hash : String → String)
    (st : MStore) (project master : CtxDoc) (session_id dbNow : String) : MStore :=
  let c1 := (setContext canon hash st.ctx "project_context" project
    (some "") (some session_id) true (some "mission_runtime") dbNow).1
  let c2 := (setContext canon hash c1 "master_context" master
    (some "") (some session_id) true (some "mission_runtime") dbNow).1
  { st with ctx := c2 }

/-- Row update performed by the `UPDATE` of `_promote_next_queued`. -/
def promoteRowUpdate (new_status : String) (md : Metadata) (m : MissionRow) : MissionRow :=
  { m with status := new_status, metadata := formatMetadata md }

/-- Row update performed by the `UPDATE` of `start_mission`. -/
def startRowUpdate (md : Metadata) (m : MissionRow) : MissionRow :=
  { m with status := "In Progress", metadata := formatMetadata md }

/-- Row update performed by the `UPDATE` of `complete_mission`. -/
def completeRowUpdate (notes ts : String) (md : Metadata) (m : MissionRow) : MissionRow :=
  { m with
    status := "Completed"
    completed_at := some ts
    notes := some notes
    metadata := formatMetadata md }

/-- Row update performed by the `UPDATE` of `block_mission`. -/
def blockRowUpdate (reason : String) (md : Metadata) (m : MissionRow) : MissionRow :=
  { m with
    status := "Blocked"
    completed_at := none
    notes := some reason
    metadata := formatMetadata md }

/-- Embeds `MissionRuntime._promote_next_queued`: select the Queued mission
with the smallest rowid, stamp or clear its `started_at`, set its status to
`In Progress` (immediate) or `Current`, and return its id. -/
def promoteNextQueued (missions : List MissionRow) (immediate : Bool)
    (started_at : Option String) : List MissionRow × Option String :=
  match missions.find? (fun m => m.status = "Queued") with
  | none => (missions, none)
  | some row =>
    let metadata := parseMetadata row.metadata
    let metadata :=
      match started_at with
      | some s =>
        if immediate ∧ s ≠ "" then mdSet metadata "started_at" (MVal.str s)
        else mdPop metadata "started_at"
      | none => mdPop metadata "started_at"
    let new_status := if immediate then "In Progress" else "Current"
    (missions.map (fun m =>
      if m.id = row.id then promoteRowUpdate new_status metadata m else m),
      some row.id)

/-- Deduplicated append of a resume note (`when_we_resume` handling in
`complete_mission`). -/
def addResumeNote (ns : NextSession) (note : String) : NextSession :=
  let resume := ns.when_we_resume.getD []
  { ns with when_we_resume := some (if note ∈ resume then resume else resume ++ [note]) }

/-- Embeds `MissionRuntime.start_mission`.  `ts` is the resolved timestamp
(`ts or utc_now()`).  The mission lookup happens before the transaction; a
missing mission raises without touching the store. -/
def startMission (canon : CtxDoc → String) (hash : String → String)
    (sizeKbOf : CtxDoc → Int) (st : MStore)
    (mission_id agent summary ts dbNow : String) :
    MStore × Except String SessionEvent :=
  match st.missions.find? (fun m => m.id = mission_id) with
  | none => (st, Except.error ("Mission " ++ mission_id ++ " not found in database"))
  | some row =>
    let metadata := mdSet (parseMetadata row.metadata) "started_at" (MVal.str ts)
    transactionRun st (fun st0 =>
      let project := loadContext st0 "project_context"
      let master := loadContext st0 "master_context"
      let project := touchWorkingMemory project mission_id ts agent summary "start" none
      let master := touchWorkingMemory master mission_id ts agent summary "start" none
      let master :=
        { master with
          next_session_context := removeBlocker master.next_session_context mission_id }
      let project := updateContextHealth sizeKbOf project ts true
      let master := updateContextHealth sizeKbOf master ts true
      let missions := st0.missions.map (fun m =>
        if m.id = mission_id then startRowUpdate metadata m else m)
      let event : SessionEvent :=
        { ts := ts, agent := agent, mission := mission_id, action := "start"
          status := "in_progress", summary := summary }
      let st1 := { st0 with missions := missions, events := st0.events ++ [event] }
      let st1 := persistContexts canon hash st1 project master mission_id dbNow
      Except.ok (st1, event))

/-- Embeds `MissionRuntime.complete_mission`.  Returns the event and the
promoted mission id (the `next_mission` field of `MissionEventResult`).
`_update_backlog_entry` is a stub in the source and has no effect. -/
def completeMission (canon : CtxDoc → String) (hash : String → String)
    (sizeKbOf : CtxDoc → Int) (st : MStore)
    (mission_id agent summary notes ts : String) (next_hint : Option String)
    (promote_next immediate : Bool) (dbNow : String) :
    MStore × Except String (SessionEvent × Option String) :=
  match st.missions.find? (fun m => m.id = mission_id) with
  | none => (st, Except.error ("Mission " ++ mission_id ++ " not found in database"))
  | some row =>
    let metadata := mdSet (parseMetadata row.metadata) "completed_at" (MVal.str ts)
    transactionRun st (fun st0 =>
      let project := loadContext st0 "project_context"
      let master := loadContext st0 "master_context"
      let missions1 := st0.missions.map (fun m =>
        if m.id = mission_id then completeRowUpdate notes ts metadata m else m)
      let promoted :=
        if promote_next then
          promoteNextQueued missions1 immediate (if immediate then some ts else none)
        else (missions1, none)
      let missions2 := promoted.1
      let next_mission_id := promoted.2
      let hint :=
        match next_mission_id with
        | some nid =>
          if nid ≠ "" ∧ ¬ optStrTruthy next_hint then
            some (nid ++ " is now " ++ (if immediate then "In Progress" else "Current"))
          else next_hint
        | none => next_hint
      let project := touchWorkingMemory project mission_id ts agent summary "complete"
        (if immediate then next_mission_id else none)
      let master := touchWorkingMemory master mission_id ts agent summary "complete"
        (if immediate then next_mission_id else none)
      let ns := removeBlocker master.next_session_context mission_id
      let ns :=
        match next_mission_id with
        | some nid => if nid = "" then ns else addResumeNote ns ("Pick up " ++ nid)
        | none => ns
      let master := { master with next_session_context := ns }
      let project := updateContextHealth sizeKbOf project ts true
      let master := updateContextHealth sizeKbOf master ts true
      let event : SessionEvent :=
        { ts := ts, agent := agent, mission := mission_id, action := "complete"
          status := "completed", summary := summary, next_hint := hint }
      let st1 := { st0 with missions := missions2, events := st0.events ++ [event] }
      let st1 := persistContexts canon hash st1 project master mission_id dbNow
      Except.ok (st1, (event, next_mission_id)))

/-- Embeds `MissionRuntime.block_mission`. -/
def blockMission (canon : CtxDoc → String) (hash : String → String)
    (sizeKbOf : CtxDoc → Int) (st : MStore)
    (mission_id agent summary reason : String) (needs : Option (List String))
    (ts : String) (next_hint : Option String) (dbNow : String) :
    MStore × Except String SessionEvent :=
  match st.missions.find? (fun m => m.id = mission_id) with
  | none => (st, Except.error ("Mission " ++ mission_id ++ " not found in database"))
  | some row =>
    let metadata := mdSet (mdSet (parseMetadata row.metadata)
      "blocked_at" (MVal.str ts)) "blocked_reason" (MVal.str reason)
    let metadata :=
      match needs with
      | some needList =>
        if needList.isEmpty then mdPop metadata "blocked_needs"
        else mdSet metadata "blocked_needs" (MVal.strList needList)
      | none => mdPop metadata "blocked_needs"
    transactionRun st (fun st0 =>
      let project := loadContext st0 "project_context"
      let master := loadContext st0 "master_context"
      let missions := st0.missions.map (fun m =>
        if m.id = mission_id then blockRowUpdate reason metadata m else m)
      let event : SessionEvent :=
        { ts := ts, agent := agent, mission := mission_id, action := "blocked"
          status := "blocked", summary := summary, next_hint := next_hint
          needs := some (needs.getD []), reason := some reason }
      let project := touchWorkingMemory project mission_id ts agent summary "blocked" none
      let master := touchWorkingMemory master mission_id ts agent summary "blocked" none
      let master :=
        { master with
          next_session_context :=
            recordBlocker master.next_session_context mission_id ts summary reason needs }
      let project := updateContextHealth sizeKbOf project ts true
      let master := updateContextHealth sizeKbOf master ts true
      let st1 := { st0 with missions := missions, events := st0.events ++ [event] }
      let st1 := persistContexts canon hash st1 project master mission_id dbNow
      Except.ok (st1, event))

/-- Stored mission row for an id (the `SELECT ... WHERE id` lookup). -/
def missionRow (st : MStore) (mid : String) : Option MissionRow :=
  st.missions.find? (fun m => m.id = mid)

/-- Stored context document for an id. -/
def persistedDoc (st : MStore) (cid : String) : Option CtxDoc :=
  getContext st.ctx cid

/-! ## Infrastructure lemmas about the store operations -/

theorem find?_filter_of_imp {α : Type} (l : List α) (p q : α → Bool)
    (h : ∀ x, p x = true → q x = true) :
    (l.filter q).find? p = l.find? p := by
  induction l with
  | nil => rfl
  | cons a t ih =>
    by_cases hq : q a = true
    · rw [List.filter_cons_of_pos hq]
      by_cases hp : p a = true
      · simp [List.find?, hp]
      · rw [Bool.not_eq_true] at hp
        simp only [List.find?, hp]
        exact ih
    · rw [Bool.not_eq_true] at hq
      rw [List.filter_cons_of_neg (by simp [hq])]
      have hp : p a = false := by
        cases hpa : p a with
        | false => rfl
        | true => exact absurd (h a hpa) (by simp [hq])
      rw [ih]
      simp only [List.find?, hp]

theorem find?_append_or {α : Type} (l₁ l₂ : List α) (p : α → Bool) :
    (l₁ ++ l₂).find? p = ((l₁.find? p).or (l₂.find? p)) := by
  induction l₁ with
  | nil => simp
  | cons a t ih =>
    by_cases hp : p a = true
    · simp [List.find?, hp]
    · rw [Bool.not_eq_true] at hp
      simp only [List.cons_append, List.find?, hp]
      exact ih

/-- The contexts-table content after any `set_context` call: the pointer row
is replaced regardless of the snapshot decision. -/
theorem setContext_contexts {α : Type} (canon : α → String) (hash : String → String)
    (st : CtxStore α) (cid : String) (p : α) (sp sid : Option String)
    (snap : Bool) (ss : Option String) (now : String) :
    (setContext canon hash st cid p sp sid snap ss now).1.contexts =
      replacePointer st.contexts (writtenPointerRow st cid p sp now) := by
  unfold setContext addContextSnapshot writtenPointerRow
  dsimp only
  split
  · split
    · rfl
    · rfl
  · rfl

/-- Reading back the context just written by `set_context`. -/
theorem getContext_setContext_same {α : Type} (canon : α → String) (hash : String → String)
    (st : CtxStore α) (cid : String) (p : α) (sp sid : Option String)
    (snap : Bool) (ss : Option String) (now : String) :
    getContext (setContext canon hash st cid p sp sid snap ss now).1 cid = some p := by
  unfold getContext
  rw [setContext_contexts, find?_replacePointer _ _ cid rfl]
  rfl

/-- Reading a different context id is unaffected by a `set_context` call. -/
theorem getContext_setContext_other {α : Type} (canon : α → String) (hash : String → String)
    (st : CtxStore α) (cid cid' : String) (p : α) (sp sid : Option String)
    (snap : Bool) (ss : Option String) (now : String) (hne : cid' ≠ cid) :
    getContext (setContext canon hash st cid p sp sid snap ss now).1 cid' =
      getContext st cid' := by
  unfold getContext
  rw [setContext_contexts]
  unfold replacePointer
  rw [find?_append_or]
  have h1 : (st.contexts.filter (fun r => r.id ≠ (writtenPointerRow st cid p sp now).id)).find?
      (fun r => r.id = cid') = st.contexts.find? (fun r => r.id = cid') := by
    apply find?_filter_of_imp
    intro x hx
    have : x.id = cid' := by simpa using hx
    simp [writtenPointerRow, this, hne]
  rw [h1]
  have h2 : ([writtenPointerRow st cid p sp now] : List (ContextRow α)).find?
      (fun r => r.id = cid') = none := by
    simp [List.find?, writtenPointerRow, Ne.symm hne]
  rw [h2]
  cases st.contexts.find? (fun r => r.id = cid') <;> rfl

/-- The project document stored by `_persist_contexts`. -/
theorem persistedDoc_project (canon : CtxDoc → String) (hash : String → String)
    (st : MStore) (project master : CtxDoc) (session_id dbNow : String) :
    persistedDoc (persistContexts canon hash st project master session_id dbNow)
      "project_context" = some project := by
  unfold persistedDoc persistContexts getContext
  set c1 := (setContext canon hash st.ctx "project_context" project (some "") (some session_id)
    true (some "mission_runtime") dbNow).1 with hc1
  rw [setContext_contexts]
  unfold replacePointer
  rw [find?_append_or]
  have h1 : (c1.contexts.filter
      (fun r => r.id ≠ (writtenPointerRow c1 "master_context" master (some "") dbNow).id)).find?
        (fun r => r.id = "project_context") =
      c1.contexts.find? (fun r => r.id = "project_context") := by
    apply find?_filter_of_imp
    intro x hx
    have hxid : x.id = "project_context" := by simpa using hx
    simp [writtenPointerRow, hxid]
  have h2 : (([writtenPointerRow c1 "master_context" master (some "") dbNow]) :
      List (ContextRow CtxDoc)).find? (fun r => r.id = "project_context") = none := by
    simp [List.find?, writtenPointerRow]
  rw [h1, h2]
  have h3 : c1.contexts.find? (fun r => r.id = "project_context") =
      some (writtenPointerRow st.ctx "project_context" project (some "") dbNow) := by
    rw [hc1, setContext_contexts]
    exact find?_replacePointer _ _ _ rfl
  rw [h3]
  rfl

/-- The master document stored by `_persist_contexts`. -/
theorem persistedDoc_master (canon : CtxDoc → String) (hash : String → String)
    (st : MStore) (project master : CtxDoc) (session_id dbNow : String) :
    persistedDoc (persistContexts canon hash st project master session_id dbNow)
      "master_context" = some master := by
  unfold persistedDoc persistContexts
  exact getContext_setContext_same canon hash _ "master_context" master (some "")
    (some session_id) true (some "mission_runtime") dbNow

/-- `UPDATE missions ... WHERE id` modelled as an id-preserving map: looking
up any id afterwards yields the mapped original row. -/
theorem find?_id_map_update (l : List MissionRow) (g : MissionRow → MissionRow)
    (hg : ∀ m, (g m).id = m.id) (mid : String) :
    (l.map g).find? (fun m => m.id = mid) = (l.find? (fun m => m.id = mid)).map g := by
  induction l with
  | nil => rfl
  | cons a t ih =>
    by_cases h : a.id = mid
    · simp [List.find?_cons, hg a, h]
    · simp [List.find?_cons, hg a, h, ih]

theorem mdGet_mdSet_same (m : Metadata) (k : String) (v : MVal) :
    mdGet (mdSet m k v) k = some v := by
  unfold mdGet mdSet
  by_cases h : m.any (fun kv => kv.1 = k) = true
  · rw [if_pos h]
    revert h
    induction m with
    | nil => intro h; simp at h
    | cons a t ih =>
      intro h
      by_cases ha : a.1 = k
      · simp [List.find?_cons, ha]
      · have ht : t.any (fun kv => decide (kv.1 = k)) = true := by
          simpa [List.any_cons, ha] using h
        simp only [List.map_cons, List.find?_cons]
        rw [show (if a.1 = k then (k, v) else a) = a from if_neg ha]
        rw [show decide (a.1 = k) = false from by simp [ha]]
        exact ih ht
  · rw [if_neg h]
    rw [List.any_eq_true] at h
    push_neg at h
    have hn : m.find? (fun kv => decide (kv.1 = k)) = none := by
      rw [List.find?_eq_none]
      intro x hx
      simpa using h x hx
    rw [find?_append_or, hn]
    simp [List.find?_cons]

theorem mdGet_mdSet_ne (m : Metadata) (k k' : String) (v : MVal) (hk : k' ≠ k) :
    mdGet (mdSet m k v) k' = mdGet m k' := by
  unfold mdGet mdSet
  by_cases h : m.any (fun kv => kv.1 = k) = true
  · rw [if_pos h]
    clear h
    induction m with
    | nil => rfl
    | cons a t ih =>
      by_cases ha : a.1 = k
      · simp only [List.map_cons, if_pos ha, List.find?_cons]
        have h1 : decide ((k, v).1 = k') = false := by simp [Ne.symm hk]
        have h2 : decide (a.1 = k') = false := by simp [ha, Ne.symm hk]
        rw [h1, h2]
        exact ih
      · simp only [List.map_cons, if_neg ha, List.find?_cons]
        by_cases ha' : a.1 = k'
        · rw [show decide (a.1 = k') = true from by simp [ha']]
        · rw [show decide (a.1 = k') = false from by simp [ha']]
          exact ih
  · rw [if_neg h]
    rw [find?_append_or]
    simp only [List.find?_cons, List.find?_nil]
    rw [show decide ((k, v).1 = k') = false from by simp [Ne.symm hk]]
    cases m.find? (fun kv => decide (kv.1 = k')) <;> rfl

theorem mdGet_mdPop_same (m : Metadata) (k : String) :
    mdGet (mdPop m k) k = none := by
  unfold mdGet mdPop
  have : (m.filter (fun kv => kv.1 ≠ k)).find? (fun kv => kv.1 = k) = none := by
    rw [List.find?_eq_none]
    intro x hx
    rw [List.mem_filter] at hx
    simpa using hx.2
  rw [this]
  rfl

theorem mdGet_mdPop_ne (m : Metadata) (k k' : String) (hk : k' ≠ k) :
    mdGet (mdPop m k) k' = mdGet m k' := by
  unfold mdGet mdPop
  rw [find?_filter_of_imp]
  intro x hx
  have : x.1 = k' := by simpa using hx
  simp [this, hk]

theorem parse_format (m : Metadata) : parseMetadata (formatMetadata m) = m := by
  unfold parseMetadata formatMetadata
  by_cases h : m.isEmpty
  · rw [if_pos h]
    rw [List.isEmpty_iff] at h
    simp [h]
  · rw [if_neg h]

/-! ## Shape lemmas: each lifecycle operation as a closed-form state update -/

/-- Metadata written to the mission row by `block_mission`. -/
def blockMeta (row : MissionRow) (ts reason : String) (needs : Option (List String)) :
    Metadata :=
  let md := mdSet (mdSet (parseMetadata row.metadata)
    "blocked_at" (MVal.str ts)) "blocked_reason" (MVal.str reason)
  match needs with
  | some needList =>
    if needList.isEmpty then mdPop md "blocked_needs"
    else mdSet md "blocked_needs" (MVal.strList needList)
  | none => mdPop md "blocked_needs"

/-- Session event written by `block_mission`. -/
def blockEvent (mission_id agent summary reason : String) (needs : Option (List String))
    (ts : String) (next_hint : Option String) : SessionEvent :=
  { ts := ts, agent := agent, mission := mission_id, action := "blocked"
    status := "blocked", summary := summary, next_hint := next_hint
    needs := some (needs.getD []), reason := some reason }

/-- Project document persisted by `block_mission`. -/
def blockProjectDoc (sizeKbOf : CtxDoc → Int) (st : MStore)
    (mission_id agent summary ts : String) : CtxDoc :=
  updateContextHealth sizeKbOf
    (touchWorkingMemory (loadContext st "project_context") mission_id ts agent summary
      "blocked" none) ts true

/-- Master document persisted by `block_mission`. -/
def blockMasterDoc (sizeKbOf : CtxDoc → Int) (st : MStore)
    (mission_id agent summary reason : String) (needs : Option (List String))
    (ts : String) : CtxDoc :=
  let master := touchWorkingMemory (loadContext st "master_context") mission_id ts agent
    summary "blocked" none
  let master :=
    { master with
      next_session_context :=
        recordBlocker master.next_session_context mission_id ts summary reason needs }
  updateContextHealth sizeKbOf master ts true

/-- Closed form of a successful `block_mission` call. -/
theorem blockMission_eq (canon : CtxDoc → String) (hash : String → String)
    (sizeKbOf : CtxDoc → Int) (st : MStore)
    (mission_id agent summary reason : String) (needs : Option (List String))
    (ts : String) (next_hint : Option String) (dbNow : String) (row : MissionRow)
    (hrow : st.missions.find? (fun m => m.id = mission_id) = some row) :
    blockMission canon hash sizeKbOf st mission_id agent summary reason needs ts next_hint
        dbNow =
      (persistContexts canon hash
        { st with
          missions := st.missions.map (fun m =>
            if m.id = mission_id then
              blockRowUpdate reason (blockMeta row ts reason needs) m
            else m)
          events := st.events ++ [blockEvent mission_id agent summary reason needs ts next_hint] }
        (blockProjectDoc sizeKbOf st mission_id agent summary ts)
        (blockMasterDoc sizeKbOf st mission_id agent summary reason needs ts)
        mission_id dbNow,
      Except.ok (blockEvent mission_id agent summary reason needs ts next_hint)) := by
  unfold blockMission transactionRun
  rw [hrow]
  rfl

/-- Metadata written to the mission row by `start_mission`. -/
def startMeta (row : MissionRow) (ts : String) : Metadata :=
  mdSet (parseMetadata row.metadata) "started_at" (MVal.str ts)

/-- Session event written by `start_mission`. -/
def startEvent (mission_id agent summary ts : String) : SessionEvent :=
  { ts := ts, agent := agent, mission := mission_id, action := "start"
    status := "in_progress", summary := summary }

/-- Project document persisted by `start_mission`. -/
def startProjectDoc (sizeKbOf : CtxDoc → Int) (st : MStore)
    (mission_id agent summary ts : String) : CtxDoc :=
  updateContextHealth sizeKbOf
    (touchWorkingMemory (loadContext st "project_context") mission_id ts agent summary
      "start" none) ts true

/-- Master document persisted by `start_mission`. -/
def startMasterDoc (sizeKbOf : CtxDoc → Int) (st : MStore)
    (mission_id agent summary ts : String) : CtxDoc :=
  let master := touchWorkingMemory (loadContext st "master_context") mission_id ts agent
    summary "start" none
  let master :=
    { master with
      next_session_context := removeBlocker master.next_session_context mission_id }
  updateContextHealth sizeKbOf master ts true

/-- Closed form of a successful `start_mission` call. -/
theorem startMission_eq (canon : CtxDoc → String) (hash : String → String)
    (sizeKbOf : CtxDoc → Int) (st : MStore)
    (mission_id agent summary ts dbNow : String) (row : MissionRow)
    (hrow : st.missions.find? (fun m => m.id = mission_id) = some row) :
    startMission canon hash sizeKbOf st mission_id agent summary ts dbNow =
      (persistContexts canon hash
        { st with
          missions := st.missions.map (fun m =>
            if m.id = mission_id then startRowUpdate (startMeta row ts) m else m)
          events := st.events ++ [startEvent mission_id agent summary ts] }
        (startProjectDoc sizeKbOf st mission_id agent summary ts)
        (startMasterDoc sizeKbOf st mission_id agent summary ts)
        mission_id dbNow,
      Except.ok (startEvent mission_id agent summary ts)) := by
  unfold startMission transactionRun
  rw [hrow]
  rfl

/-- Metadata written to the completed mission row by `complete_mission`. -/
def completeMeta (row : MissionRow) (ts : String) : Metadata :=
  mdSet (parseMetadata row.metadata) "completed_at" (MVal.str ts)

/-- Missions table after the `Completed` update of `complete_mission`, before
queue promotion. -/
def completedMissions (st : MStore) (mission_id notes ts : String) (row : MissionRow) :
    List MissionRow :=
  st.missions.map (fun m =>
    if m.id = mission_id then completeRowUpdate notes ts (completeMeta row ts) m else m)

/-- Missions table and promoted id after the optional queue promotion of
`complete_mission`. -/
def completePromoted (st : MStore) (mission_id notes ts : String) (row : MissionRow)
    (promote_next immediate : Bool) : List MissionRow × Option String :=
  if promote_next then
    promoteNextQueued (completedMissions st mission_id notes ts row) immediate
      (if immediate then some ts else none)
  else (completedMissions st mission_id notes ts row, none)

/-- Hint carried by the `complete` event: synthesised when a mission was
promoted and the caller supplied no truthy hint. -/
def completeHint (next_hint : Option String) (next_mission_id : Option String)
    (immediate : Bool) : Option String :=
  match next_mission_id with
  | some nid =>
    if nid ≠ "" ∧ ¬ optStrTruthy next_hint then
      some (nid ++ " is now " ++ (if immediate then "In Progress" else "Current"))
    else next_hint
  | none => next_hint

/-- Session event written by `complete_mission`. -/
def completeEvent (mission_id agent summary : String) (hint : Option String)
    (ts : String) : SessionEvent :=
  { ts := ts, agent := agent, mission := mission_id, action := "complete"
    status := "completed", summary := summary, next_hint := hint }

/-- Project document persisted by `complete_mission`. -/
def completeProjectDoc (sizeKbOf : CtxDoc → Int) (st : MStore)
    (mission_id agent summary ts : String) (next_mission_id : Option String)
    (immediate : Bool) : CtxDoc :=
  updateContextHealth sizeKbOf
    (touchWorkingMemory (loadContext st "project_context") mission_id ts agent summary
      "complete" (if immediate then next_mission_id else none)) ts true

/-- Master document persisted by `complete_mission`. -/
def completeMasterDoc (sizeKbOf : CtxDoc → Int) (st : MStore)
    (mission_id agent summary ts : String) (next_mission_id : Option String)
    (immediate : Bool) : CtxDoc :=
  let master := touchWorkingMemory (loadContext st "master_context") mission_id ts agent
    summary "complete" (if immediate then next_mission_id else none)
  let ns := removeBlocker master.next_session_context mission_id
  let ns :=
    match next_mission_id with
    | some nid => if nid = "" then ns else addResumeNote ns ("Pick up " ++ nid)
    | none => ns
  let master := { master with next_session_context := ns }
  updateContextHealth sizeKbOf master ts true

/-- Closed form of a successful `complete_mission` call. -/
theorem completeMission_eq (canon : CtxDoc → String) (hash : String → String)
    (sizeKbOf : CtxDoc → Int) (st : MStore)
    (mission_id agent summary notes ts : String) (next_hint : Option String)
    (promote_next immediate : Bool) (dbNow : String) (row : MissionRow)
    (hrow : st.missions.find? (fun m => m.id = mission_id) = some row) :
    completeMission canon hash sizeKbOf st mission_id agent summary notes ts next_hint
        promote_next immediate dbNow =
      (persistContexts canon hash
        { st with
          missions := (completePromoted st mission_id notes ts row promote_next immediate).1
          events := st.events ++
            [completeEvent mission_id agent summary
              (completeHint next_hint
                (completePromoted st mission_id notes ts row promote_next immediate).2
                immediate) ts] }
        (completeProjectDoc sizeKbOf st mission_id agent summary ts
          (completePromoted st mission_id notes ts row promote_next immediate).2 immediate)
        (completeMasterDoc sizeKbOf st mission_id agent summary ts
          (completePromoted st mission_id notes ts row promote_next immediate).2 immediate)
        mission_id dbNow,
      Except.ok
        (completeEvent mission_id agent summary
          (completeHint next_hint
            (completePromoted st mission_id notes ts row promote_next immediate).2 immediate)
          ts,
        (completePromoted st mission_id notes ts row promote_next immediate).2)) := by
  unfold completeMission transactionRun
  rw [hrow]
  rfl

/-- The `UPDATE ... WHERE id` map of a lifecycle operation never changes ids. -/
theorem upd_id_preserved (mid : String) (f : MissionRow → MissionRow)
    (hf : ∀ m, (f m).id = m.id) (m : MissionRow) :
    ((fun m => if m.id = mid then f m else m) m).id = m.id := by
  by_cases h : m.id = mid <;> simp [h, hf]

/-- Queue promotion does not touch rows of a mission id that is never Queued
in the table it runs on. -/
theorem promote_preserves_other (l : List MissionRow) (immediate : Bool)
    (sa : Option String) (mid : String)
    (hall : ∀ m ∈ l, m.id = mid → m.status ≠ "Queued") :
    ((promoteNextQueued l immediate sa).1).find? (fun m => m.id = mid) =
      l.find? (fun m => m.id = mid) := by
  unfold promoteNextQueued
  cases hq : l.find? (fun m => m.status = "Queued") with
  | none => rfl
  | some q =>
    dsimp only
    rw [find?_id_map_update l
      (fun m => if m.id = q.id then
        promoteRowUpdate (if immediate then "In Progress" else "Current")
          (match sa with
            | some s =>
              if immediate ∧ s ≠ "" then
                mdSet (parseMetadata q.metadata) "started_at" (MVal.str s)
              else mdPop (parseMetadata q.metadata) "started_at"
            | none => mdPop (parseMetadata q.metadata) "started_at") m
        else m)
      (upd_id_preserved q.id _ (fun m => rfl)) mid]
    cases hr : l.find? (fun m => m.id = mid) with
    | none => rfl
    | some r0 =>
      have hr0id : r0.id = mid := by simpa using List.find?_some hr
      have hqs : q.status = "Queued" := by simpa using List.find?_some hq
      have hqid : q.id ≠ mid := fun h => hall q (List.mem_of_find?_eq_some hq) h hqs
      have hne : ¬ (r0.id = q.id) := by
        rw [hr0id]
        exact fun h => hqid h.symm
      simp [hne]

/-- Missions-table projection of a successful `block_mission`. -/
theorem blockMission_missions (canon : CtxDoc → String) (hash : String → String)
    (sizeKbOf : CtxDoc → Int) (st : MStore)
    (mission_id agent summary reason : String) (needs : Option (List String))
    (ts : String) (next_hint : Option String) (dbNow : String) (row : MissionRow)
    (hrow : st.missions.find? (fun m => m.id = mission_id) = some row) :
    (blockMission canon hash sizeKbOf st mission_id agent summary reason needs ts next_hint
        dbNow).1.missions =
      st.missions.map (fun m =>
        if m.id = mission_id then blockRowUpdate reason (blockMeta row ts reason needs) m
        else m) := by
  rw [blockMission_eq canon hash sizeKbOf st mission_id agent summary reason needs ts
    next_hint dbNow row hrow]
  rfl

/-- Master-document projection of a successful `block_mission`. -/
theorem blockMission_masterDoc (canon : CtxDoc → String) (hash : String → String)
    (sizeKbOf : CtxDoc → Int) (st : MStore)
    (mission_id agent summary reason : String) (needs : Option (List String))
    (ts : String) (next_hint : Option String) (dbNow : String) (row : MissionRow)
    (hrow : st.missions.find? (fun m => m.id = mission_id) = some row) :
    persistedDoc (blockMission canon hash sizeKbOf st mission_id agent summary reason needs
        ts next_hint dbNow).1 "master_context" =
      some (blockMasterDoc sizeKbOf st mission_id agent summary reason needs ts) := by
  rw [blockMission_eq canon hash sizeKbOf st mission_id agent summary reason needs ts
    next_hint dbNow row hrow]
  exact persistedDoc_master canon hash _ _ _ mission_id dbNow

/-- Project-document projection of a successful `block_mission`. -/
theorem blockMission_projectDoc (canon : CtxDoc → String) (hash : String → String)
    (sizeKbOf : CtxDoc → Int) (st : MStore)
    (mission_id agent summary reason : String) (needs : Option (List String))
    (ts : String) (next_hint : Option String) (dbNow : String) (row : MissionRow)
    (hrow : st.missions.find? (fun m => m.id = mission_id) = some row) :
    persistedDoc (blockMission canon hash sizeKbOf st mission_id agent summary reason needs
        ts next_hint dbNow).1 "project_context" =
      some (blockProjectDoc sizeKbOf st mission_id agent summary ts) := by
  rw [blockMission_eq canon hash sizeKbOf st mission_id agent summary reason needs ts
    next_hint dbNow row hrow]
  exact persistedDoc_project canon hash _ _ _ mission_id dbNow

/-- Missions-table projection of a successful `start_mission`. -/
theorem startMission_missions (canon : CtxDoc → String) (hash : String → String)
    (sizeKbOf : CtxDoc → Int) (st : MStore)
    (mission_id agent summary ts dbNow : String) (row : MissionRow)
    (hrow : st.missions.find? (fun m => m.id = mission_id) = some row) :
    (startMission canon hash sizeKbOf st mission_id agent summary ts dbNow).1.missions =
      st.missions.map (fun m =>
        if m.id = mission_id then startRowUpdate (startMeta row ts) m else m) := by
  rw [startMission_eq canon hash sizeKbOf st mission_id agent summary ts dbNow row hrow]
  rfl

/-- Master-document projection of a successful `start_mission`. -/
theorem startMission_masterDoc (canon : CtxDoc → String) (hash : String → String)
    (sizeKbOf : CtxDoc → Int) (st : MStore)
    (mission_id agent summary ts dbNow : String) (row : MissionRow)
    (hrow : st.missions.find? (fun m => m.id = mission_id) = some row) :
    persistedDoc (startMission canon hash sizeKbOf st mission_id agent summary ts dbNow).1
        "master_context" =
      some (startMasterDoc sizeKbOf st mission_id agent summary ts) := by
  rw [startMission_eq canon hash sizeKbOf st mission_id agent summary ts dbNow row hrow]
  exact persistedDoc_master canon hash _ _ _ mission_id dbNow

/-- Project-document projection of a successful `start_mission`. -/
theorem startMission_projectDoc (canon : CtxDoc → String) (hash : String → String)
    (sizeKbOf : CtxDoc → Int) (st : MStore)
    (mission_id agent summary ts dbNow : String) (row : MissionRow)
    (hrow : st.missions.find? (fun m => m.id = mission_id) = some row) :
    persistedDoc (startMission canon hash sizeKbOf st mission_id agent summary ts dbNow).1
        "project_context" =
      some (startProjectDoc sizeKbOf st mission_id agent summary ts) := by
  rw [startMission_eq canon hash sizeKbOf st mission_id agent summary ts dbNow row hrow]
  exact persistedDoc_project canon hash _ _ _ mission_id dbNow

/-- Missions-table projection of a successful `complete_mission`. -/
theorem completeMission_missions (canon : CtxDoc → String) (hash : String → String)
    (sizeKbOf : CtxDoc → Int) (st : MStore)
    (mission_id agent summary notes ts : String) (next_hint : Option String)
    (promote_next immediate : Bool) (dbNow : String) (row : MissionRow)
    (hrow : st.missions.find? (fun m => m.id = mission_id) = some row) :
    (completeMission canon hash sizeKbOf st mission_id agent summary notes ts next_hint
        promote_next immediate dbNow).1.missions =
      (completePromoted st mission_id notes ts row promote_next immediate).1 := by
  rw [completeMission_eq canon hash sizeKbOf st mission_id agent summary notes ts next_hint
    promote_next immediate dbNow row hrow]
  rfl

/-- Result-value projection of a successful `complete_mission`. -/
theorem completeMission_result (canon : CtxDoc → String) (hash : String → String)
    (sizeKbOf : CtxDoc → Int) (st : MStore)
    (mission_id agent summary notes ts : String) (next_hint : Option String)
    (promote_next immediate : Bool) (dbNow : String) (row : MissionRow)
    (hrow : st.missions.find? (fun m => m.id = mission_id) = some row) :
    (completeMission canon hash sizeKbOf st mission_id agent summary notes ts next_hint
        promote_next immediate dbNow).2 =
      Except.ok
        (completeEvent mission_id agent summary
          (completeHint next_hint
            (completePromoted st mission_id notes ts row promote_next immediate).2 immediate)
          ts,
        (completePromoted st mission_id notes ts row promote_next immediate).2) := by
  rw [completeMission_eq canon hash sizeKbOf st mission_id agent summary notes ts next_hint
    promote_next immediate dbNow row hrow]

/-- Master-document projection of a successful `complete_mission`. -/
theorem completeMission_masterDoc (canon : CtxDoc → String) (hash : String → String)
    (sizeKbOf : CtxDoc → Int) (st : MStore)
    (mission_id agent summary notes ts : String) (next_hint : Option String)
    (promote_next immediate : Bool) (dbNow : String) (row : MissionRow)
    (hrow : st.missions.find? (fun m => m.id = mission_id) = some row) :
    persistedDoc (completeMission canon hash sizeKbOf st mission_id agent summary notes ts
        next_hint promote_next immediate dbNow).1 "master_context" =
      some (completeMasterDoc sizeKbOf st mission_id agent summary ts
        (completePromoted st mission_id notes ts row promote_next immediate).2 immediate) := by
  rw [completeMission_eq canon hash sizeKbOf st mission_id agent summary notes ts next_hint
    promote_next immediate dbNow row hrow]
  exact persistedDoc_master canon hash _ _ _ mission_id dbNow

/-- Project-document projection of a successful `complete_mission`. -/
theorem completeMission_projectDoc (canon : CtxDoc → String) (hash : String → String)
    (sizeKbOf : CtxDoc → Int) (st : MStore)
    (mission_id agent summary notes ts : String) (next_hint : Option String)
    (promote_next immediate : Bool) (dbNow : String) (row : MissionRow)
    (hrow : st.missions.find? (fun m => m.id = mission_id) = some row) :
    persistedDoc (completeMission canon hash sizeKbOf st mission_id agent summary notes ts
        next_hint promote_next immediate dbNow).1 "project_context" =
      some (completeProjectDoc sizeKbOf st mission_id agent summary ts
        (completePromoted st mission_id notes ts row promote_next immediate).2 immediate) := by
  rw [completeMission_eq canon hash sizeKbOf st mission_id agent summary notes ts next_hint
    promote_next immediate dbNow row hrow]
  exact persistedDoc_project canon hash _ _ _ mission_id dbNow

/-- After the `Completed` update, the Queued rows are precisely the Queued
rows whose id differs from the completed mission's. -/
theorem find?_completed_queued (l : List MissionRow) (mid notes ts : String)
    (md : Metadata) :
    (l.map (fun m => if m.id = mid then completeRowUpdate notes ts md m else m)).find?
        (fun m => m.status = "Queued") =
      l.find? (fun m => m.id ≠ mid ∧ m.status = "Queued") := by
  induction l with
  | nil => rfl
  | cons a t ih =>
    by_cases ha : a.id = mid
    · rw [List.map_cons, if_pos ha, List.find?_cons, List.find?_cons]
      have h1 : decide ((completeRowUpdate notes ts md a).status = "Queued") = false := rfl
      have h2 : decide (a.id ≠ mid ∧ a.status = "Queued") = false := by simp [ha]
      rw [h1, h2]
      exact ih
    · rw [List.map_cons, if_neg ha, List.find?_cons, List.find?_cons]
      by_cases hs : a.status = "Queued"
      · rw [show decide (a.status = "Queued") = true from by simp [hs],
          show decide (a.id ≠ mid ∧ a.status = "Queued") = true from by simp [ha, hs]]
      · rw [show decide (a.status = "Queued") = false from by simp [hs],
          show decide (a.id ≠ mid ∧ a.status = "Queued") = false from by simp [hs]]
        exact ih

/-- Queue promotion when an oldest Queued mission exists: it is promoted, its
id is returned, and its stored row carries the new status and the
stamped-or-cleared `started_at` derived from the selected row's metadata. -/
theorem promote_find_self (l : List MissionRow) (immediate : Bool) (sa : Option String)
    (q : MissionRow) (hq : l.find? (fun m => m.status = "Queued") = some q) :
    (promoteNextQueued l immediate sa).2 = some q.id ∧
    (∃ r0, l.find? (fun m => m.id = q.id) = some r0 ∧
      (promoteNextQueued l immediate sa).1.find? (fun m => m.id = q.id) =
        some (promoteRowUpdate (if immediate then "In Progress" else "Current")
          (match sa with
            | some s =>
              if immediate ∧ s ≠ "" then
                mdSet (parseMetadata q.metadata) "started_at" (MVal.str s)
              else mdPop (parseMetadata q.metadata) "started_at"
            | none => mdPop (parseMetadata q.metadata) "started_at") r0)) := by
  unfold promoteNextQueued
  rw [hq]
  dsimp only
  refine ⟨rfl, ?_⟩
  have hqmem := List.mem_of_find?_eq_some hq
  have hsome : (l.find? (fun m => m.id = q.id)).isSome := by
    rw [List.find?_isSome]
    exact ⟨q, hqmem, by simp⟩
  cases hr0 : l.find? (fun m => m.id = q.id) with
  | none => rw [hr0] at hsome; simp at hsome
  | some r0 =>
    refine ⟨r0, rfl, ?_⟩
    rw [find?_id_map_update l
      (fun m => if m.id = q.id then
        promoteRowUpdate (if immediate then "In Progress" else "Current")
          (match sa with
            | some s =>
              if immediate ∧ s ≠ "" then
                mdSet (parseMetadata q.metadata) "started_at" (MVal.str s)
              else mdPop (parseMetadata q.metadata) "started_at"
            | none => mdPop (parseMetadata q.metadata) "started_at") m
        else m)
      (upd_id_preserved q.id _ (fun m => rfl)) q.id, hr0]
    have hr0id : r0.id = q.id := by simpa using List.find?_some hr0
    simp [hr0id]

/-- The completed mission's stored row after a successful `complete_mission`:
status `Completed`, `completed_at` and `notes` stamped, metadata updated. -/
theorem completeMission_completed_row (canon : CtxDoc → String) (hash : String → String)
    (sizeKbOf : CtxDoc → Int) (st : MStore)
    (mission_id agent summary notes ts : String) (next_hint : Option String)
    (promote_next immediate : Bool) (dbNow : String) (row : MissionRow)
    (hrow : st.missions.find? (fun m => m.id = mission_id) = some row) :
    missionRow (completeMission canon hash sizeKbOf st mission_id agent summary notes ts
        next_hint promote_next immediate dbNow).1 mission_id =
      some (completeRowUpdate notes ts (completeMeta row ts) row) := by
  unfold missionRow
  rw [completeMission_missions canon hash sizeKbOf st mission_id agent summary notes ts
    next_hint promote_next immediate dbNow row hrow]
  have hall : ∀ m ∈ completedMissions st mission_id notes ts row,
      m.id = mission_id → m.status ≠ "Queued" := by
    intro m hm hid
    unfold completedMissions at hm
    rw [List.mem_map] at hm
    obtain ⟨m0, hm0, hmap⟩ := hm
    by_cases h0 : m0.id = mission_id
    · rw [← hmap, if_pos h0]
      intro hcon
      have hcs : (completeRowUpdate notes ts (completeMeta row ts) m0).status =
        "Completed" := rfl
      rw [hcs] at hcon
      exact absurd hcon (by decide)
    · rw [← hmap, if_neg h0] at hid ⊢
      exact absurd hid h0
  have hfindCompleted : (completedMissions st mission_id notes ts row).find?
      (fun m => m.id = mission_id) =
      some (completeRowUpdate notes ts (completeMeta row ts) row) := by
    unfold completedMissions
    rw [find?_id_map_update st.missions
      (fun m => if m.id = mission_id then
        completeRowUpdate notes ts (completeMeta row ts) m else m)
      (upd_id_preserved mission_id _ (fun m => rfl)) mission_id, hrow]
    have hrid : row.id = mission_id := by simpa using List.find?_some hrow
    simp [hrid]
  unfold completePromoted
  by_cases hp : promote_next
  · rw [if_pos hp, promote_preserves_other _ _ _ _ hall, hfindCompleted]
  · rw [if_neg hp, hfindCompleted]

/-- Claim C4 counterexample: from a store holding the single mission `"M"`
(Queued, no metadata), running `block_mission` and then `start_mission`
leaves the mission row with status `In Progress` while `blocked_at` and
`blocked_reason` are still present in its stored metadata; and running
`complete_mission` followed by `start_mission` leaves status `In Progress`
with a non-null `completed_at`.  Both outcomes contradict the claimed
invariant (blocked fields present only while Blocked; `completed_at`
non-null iff Completed). -/
theorem C4_counterexample :
    (missionRow
        (startMission (fun _ => "") id (fun _ => 0)
          (blockMission (fun _ => "") id (fun _ => 0)
            { missions := [{ id := "M", status := "Queued" }] }
            "M" "agent" "sum" "r" none "t1" none "t1").1
          "M" "agent" "sum2" "t2" "t2").1 "M").map
        (fun r => (r.status, mdGet (parseMetadata r.metadata) "blocked_at",
          mdGet (parseMetadata r.metadata) "blocked_reason")) =
      some ("In Progress", some (MVal.str "t1"), some (MVal.str "r")) ∧
    (missionRow
        (startMission (fun _ => "") id (fun _ => 0)
          (completeMission (fun _ => "") id (fun _ => 0)
            { missions := [{ id := "M", status := "Queued" }] }
            "M" "agent" "sum" "notes" "t1" none true false "t1").1
          "M" "agent" "sum2" "t2" "t2").1 "M").map
        (fun r => (r.status, r.completed_at)) =
      some ("In Progress", some "t1") := by
  constructor
  · decide
  · decide

/-- Claim C4 amended (one theorem): `complete_mission` sets
`status = Completed` and a non-null `completed_at`; `block_mission` sets
`status = Blocked`, nulls `completed_at` and stamps
`blocked_at`/`blocked_reason` (and `blocked_needs` exactly when `needs` is
non-empty); but transitions away from Blocked do NOT clear the `blocked_*`
metadata: `start_mission` only sets `status = In Progress` and
`metadata.started_at`, leaving every other metadata key (including
`blocked_at`, `blocked_reason`, `blocked_needs`) and the `completed_at`
column exactly as they were. -/
theorem C4_per_op_fields (canon : CtxDoc → String) (hash : String → String)
    (sizeKbOf : CtxDoc → Int) (st : MStore)
    (mission_id agent summary notes reason ts dbNow : String)
    (needs : Option (List String)) (next_hint : Option String)
    (promote_next immediate : Bool) (row : MissionRow)
    (hrow : st.missions.find? (fun m => m.id = mission_id) = some row) :
    (∃ r, missionRow (blockMission canon hash sizeKbOf st mission_id agent summary reason
        needs ts next_hint dbNow).1 mission_id = some r ∧
      r.status = "Blocked" ∧ r.completed_at = none ∧ r.notes = some reason ∧
      mdGet (parseMetadata r.metadata) "blocked_at" = some (MVal.str ts) ∧
      mdGet (parseMetadata r.metadata) "blocked_reason" = some (MVal.str reason) ∧
      (∀ needList, needs = some needList → needList ≠ [] →
        mdGet (parseMetadata r.metadata) "blocked_needs" = some (MVal.strList needList)) ∧
      ((needs = none ∨ needs = some []) →
        mdGet (parseMetadata r.metadata) "blocked_needs" = none)) ∧
    (∃ r, missionRow (completeMission canon hash sizeKbOf st mission_id agent summary notes
        ts next_hint promote_next immediate dbNow).1 mission_id = some r ∧
      r.status = "Completed" ∧ r.completed_at = some ts ∧
      mdGet (parseMetadata r.metadata) "completed_at" = some (MVal.str ts)) ∧
    (∃ r, missionRow (startMission canon hash sizeKbOf st mission_id agent summary ts
        dbNow).1 mission_id = some r ∧
      r.status = "In Progress" ∧ r.completed_at = row.completed_at ∧
      mdGet (parseMetadata r.metadata) "started_at" = some (MVal.str ts) ∧
      (∀ k, k ≠ "started_at" →
        mdGet (parseMetadata r.metadata) k = mdGet (parseMetadata row.metadata) k)) := by
  refine ⟨?_, ?_, ?_⟩
  · -- block_mission
    unfold missionRow
    rw [blockMission_missions canon hash sizeKbOf st mission_id agent summary reason needs
      ts next_hint dbNow row hrow]
    rw [find?_id_map_update st.missions
      (fun m => if m.id = mission_id then
        blockRowUpdate reason (blockMeta row ts reason needs) m else m)
      (upd_id_preserved mission_id _ (fun m => rfl)) mission_id, hrow]
    have hrid : row.id = mission_id := by simpa using List.find?_some hrow
    have hmd : (blockRowUpdate reason (blockMeta row ts reason needs) row).metadata =
      formatMetadata (blockMeta row ts reason needs) := rfl
    refine ⟨blockRowUpdate reason (blockMeta row ts reason needs) row,
      by simp [hrid], ?_, ?_, ?_, ?_, ?_, ?_, ?_⟩
    · rfl
    · rfl
    · rfl
    · rw [hmd, parse_format]
      unfold blockMeta
      cases needs with
      | none =>
        rw [mdGet_mdPop_ne _ _ _ (by decide), mdGet_mdSet_ne _ _ _ _ (by decide),
          mdGet_mdSet_same]
      | some needList =>
        dsimp only
        by_cases hemp : needList.isEmpty
        · rw [if_pos hemp, mdGet_mdPop_ne _ _ _ (by decide),
            mdGet_mdSet_ne _ _ _ _ (by decide), mdGet_mdSet_same]
        · rw [if_neg hemp, mdGet_mdSet_ne _ _ _ _ (by decide),
            mdGet_mdSet_ne _ _ _ _ (by decide), mdGet_mdSet_same]
    · rw [hmd, parse_format]
      unfold blockMeta
      cases needs with
      | none => rw [mdGet_mdPop_ne _ _ _ (by decide), mdGet_mdSet_same]
      | some needList =>
        dsimp only
        by_cases hemp : needList.isEmpty
        · rw [if_pos hemp, mdGet_mdPop_ne _ _ _ (by decide), mdGet_mdSet_same]
        · rw [if_neg hemp, mdGet_mdSet_ne _ _ _ _ (by decide), mdGet_mdSet_same]
    · intro needList hneeds hne
      subst hneeds
      rw [hmd, parse_format]
      unfold blockMeta
      dsimp only
      rw [if_neg (by simpa [List.isEmpty_iff] using hne), mdGet_mdSet_same]
    · intro hcase
      rcases hcase with h | h
      · subst h
        rw [hmd, parse_format]
        unfold blockMeta
        exact mdGet_mdPop_same _ _
      · subst h
        rw [hmd, parse_format]
        unfold blockMeta
        dsimp only
        rw [if_pos List.isEmpty_nil]
        exact mdGet_mdPop_same _ _
  · -- complete_mission
    refine ⟨completeRowUpdate notes ts (completeMeta row ts) row,
      completeMission_completed_row canon hash sizeKbOf st mission_id agent summary notes
        ts next_hint promote_next immediate dbNow row hrow, rfl, rfl, ?_⟩
    have hmd : (completeRowUpdate notes ts (completeMeta row ts) row).metadata =
      formatMetadata (completeMeta row ts) := rfl
    rw [hmd, parse_format]
    unfold completeMeta
    exact mdGet_mdSet_same _ _ _
  · -- start_mission
    unfold missionRow
    rw [startMission_missions canon hash sizeKbOf st mission_id agent summary ts dbNow row
      hrow]
    rw [find?_id_map_update st.missions
      (fun m => if m.id = mission_id then startRowUpdate (startMeta row ts) m else m)
      (upd_id_preserved mission_id _ (fun m => rfl)) mission_id, hrow]
    have hrid : row.id = mission_id := by simpa using List.find?_some hrow
    have hmd : (startRowUpdate (startMeta row ts) row).metadata =
      formatMetadata (startMeta row ts) := rfl
    refine ⟨startRowUpdate (startMeta row ts) row, by simp [hrid], rfl, rfl, ?_, ?_⟩
    · rw [hmd, parse_format]
      unfold startMeta
      exact mdGet_mdSet_same _ _ _
    · intro k hk
      rw [hmd, parse_format]
      unfold startMeta
      exact mdGet_mdSet_ne _ _ _ _ hk

/-- Witness for the amended C4 at a concrete input: the store holding mission
`"M"` with a `needs` list of one item. -/
theorem C4_per_op_fields_witness :
    ((MStore.missions { missions := [{ id := "M", status := "Queued" }] }).find?
      (fun m => m.id = "M") = some { id := "M", status := "Queued" }) ∧
    ((∃ r, missionRow (blockMission (fun _ => "") id (fun _ => 0)
        { missions := [{ id := "M", status := "Queued" }] } "M" "agent" "sum" "r"
        (some ["k"]) "t1" none "t1").1 "M" = some r ∧
      r.status = "Blocked" ∧ r.completed_at = none ∧ r.notes = some "r" ∧
      mdGet (parseMetadata r.metadata) "blocked_at" = some (MVal.str "t1") ∧
      mdGet (parseMetadata r.metadata) "blocked_reason" = some (MVal.str "r") ∧
      (∀ needList, (some ["k"] : Option (List String)) = some needList → needList ≠ [] →
        mdGet (parseMetadata r.metadata) "blocked_needs" = some (MVal.strList needList)) ∧
      (((some ["k"] : Option (List String)) = none ∨
          (some ["k"] : Option (List String)) = some []) →
        mdGet (parseMetadata r.metadata) "blocked_needs" = none)) ∧
    (∃ r, missionRow (completeMission (fun _ => "") id (fun _ => 0)
        { missions := [{ id := "M", status := "Queued" }] } "M" "agent" "sum" "notes" "t1"
        none true false "t1").1 "M" = some r ∧
      r.status = "Completed" ∧ r.completed_at = some "t1" ∧
      mdGet (parseMetadata r.metadata) "completed_at" = some (MVal.str "t1")) ∧
    (∃ r, missionRow (startMission (fun _ => "") id (fun _ => 0)
        { missions := [{ id := "M", status := "Queued" }] } "M" "agent" "sum" "t1"
        "t1").1 "M" = some r ∧
      r.status = "In Progress" ∧
      r.completed_at = MissionRow.completed_at { id := "M", status := "Queued" } ∧
      mdGet (parseMetadata r.metadata) "started_at" = some (MVal.str "t1") ∧
      (∀ k, k ≠ "started_at" →
        mdGet (parseMetadata r.metadata) k =
          mdGet (parseMetadata (MissionRow.metadata { id := "M", status := "Queued" })) k))) :=
  ⟨by decide,
    C4_per_op_fields (fun _ => "") id (fun _ => 0)
      { missions := [{ id := "M", status := "Queued" }] }
      "M" "agent" "sum" "notes" "r" "t1" "t1" (some ["k"]) none true false
      { id := "M", status := "Queued" } (by decide)⟩

/-- Session-history value after one `_touch_working_memory`: the dict entries
of the old list, the new entry appended, truncated to the newest 50 (the
`drop` form is the identity when the list is short enough). -/
def newHistory (doc : CtxDoc) (entry : HistEntry) : List HistEntry :=
  let full := dictEntries doc.working_memory.session_history ++ [entry]
  full.drop (full.length - 50)

/-- The truncated history never exceeds 50 entries. -/
theorem newHistory_le (doc : CtxDoc) (entry : HistEntry) :
    (newHistory doc entry).length ≤ 50 := by
  unfold newHistory
  dsimp only
  rw [List.length_drop]
  omega

/-- `_touch_working_memory` stores exactly the truncated history: the oldest
entries are dropped, the newest 50 (new entry last) are kept. -/
theorem touch_session_history (doc : CtxDoc) (mid ts agent summary action : String)
    (nm : Option String) :
    (touchWorkingMemory doc mid ts agent summary action nm).working_memory.session_history =
      (newHistory doc
        { mission := mid, agent := agent, summary := summary, action := action, ts := ts
          }).map HistItem.dict := by
  unfold touchWorkingMemory newHistory
  dsimp only
  split_ifs <;>
    first
      | rfl
      | (rw [Nat.sub_eq_zero_of_le (by omega)]
         rw [List.drop_zero])

/-- `_update_context_health` leaves `working_memory` untouched. -/
theorem updateContextHealth_wm (sizeKbOf : CtxDoc → Int) (doc : CtxDoc) (ts : String)
    (b : Bool) :
    (updateContextHealth sizeKbOf doc ts b).working_memory = doc.working_memory := rfl

/-- Claim C3 (one theorem): `complete_mission` with `promote_next=true`, when
some mission other than the completed one is Queued, promotes the Queued
mission with the smallest insertion order (rowid): its stored status becomes
`Current`, or `In Progress` with `metadata.started_at` stamped to the
transition timestamp when `immediate=true` (and `started_at` cleared when
not immediate); the result carries that mission's id as the promoted id; and
when the caller supplied no truthy `next_hint`, the session event's hint is
synthesised as `"<promoted id> is now <new status>"`.  The completed mission
itself is left with status `Completed`.  (The concrete M1/M2 scenario of the
claim is the witness theorem.) -/
theorem C3_complete_promotes_oldest_queued (canon : CtxDoc → String)
    (hash : String → String) (sizeKbOf : CtxDoc → Int) (st : MStore)
    (mission_id agent summary notes ts dbNow : String) (next_hint : Option String)
    (immediate : Bool) (row q : MissionRow)
    (hrow : st.missions.find? (fun m => m.id = mission_id) = some row)
    (hq : st.missions.find? (fun m => m.id ≠ mission_id ∧ m.status = "Queued") = some q)
    (hqid : q.id ≠ "") (hts : ts ≠ "") :
    (∃ ev, (completeMission canon hash sizeKbOf st mission_id agent summary notes ts
        next_hint true immediate dbNow).2 = Except.ok (ev, some q.id) ∧
      (¬ optStrTruthy next_hint →
        ev.next_hint =
          some (q.id ++ " is now " ++ (if immediate then "In Progress" else "Current")))) ∧
    (∃ r, missionRow (completeMission canon hash sizeKbOf st mission_id agent summary notes
        ts next_hint true immediate dbNow).1 q.id = some r ∧
      r.status = (if immediate then "In Progress" else "Current") ∧
      (immediate = true →
        mdGet (parseMetadata r.metadata) "started_at" = some (MVal.str ts)) ∧
      (immediate = false → mdGet (parseMetadata r.metadata) "started_at" = none)) ∧
    (∃ r, missionRow (completeMission canon hash sizeKbOf st mission_id agent summary notes
        ts next_hint true immediate dbNow).1 mission_id = some r ∧
      r.status = "Completed") := by
  have hq1 : (completedMissions st mission_id notes ts row).find?
      (fun m => m.status = "Queued") = some q := by
    unfold completedMissions
    rw [find?_completed_queued, hq]
  have hpromote := promote_find_self (completedMissions st mission_id notes ts row)
    immediate (if immediate then some ts else none) q hq1
  obtain ⟨hpid, r0, hr0, hfr⟩ := hpromote
  have hcp2 : (completePromoted st mission_id notes ts row true immediate).2 =
      some q.id := hpid
  refine ⟨?_, ?_, ?_⟩
  · refine ⟨completeEvent mission_id agent summary
      (completeHint next_hint
        (completePromoted st mission_id notes ts row true immediate).2 immediate) ts,
      ?_, ?_⟩
    · rw [completeMission_result canon hash sizeKbOf st mission_id agent summary notes ts
        next_hint true immediate dbNow row hrow, hcp2]
    · intro hhint
      have hev : (completeEvent mission_id agent summary
          (completeHint next_hint
            (completePromoted st mission_id notes ts row true immediate).2 immediate)
          ts).next_hint =
          completeHint next_hint
            (completePromoted st mission_id notes ts row true immediate).2 immediate := rfl
      rw [hev, hcp2]
      unfold completeHint
      dsimp only
      rw [if_pos ⟨hqid, hhint⟩]
  · refine ⟨promoteRowUpdate (if immediate then "In Progress" else "Current")
      (match (if immediate then some ts else none) with
        | some s =>
          if immediate ∧ s ≠ "" then
            mdSet (parseMetadata q.metadata) "started_at" (MVal.str s)
          else mdPop (parseMetadata q.metadata) "started_at"
        | none => mdPop (parseMetadata q.metadata) "started_at") r0, ?_, rfl, ?_, ?_⟩
    · unfold missionRow
      rw [completeMission_missions canon hash sizeKbOf st mission_id agent summary notes ts
        next_hint true immediate dbNow row hrow]
      exact hfr
    · intro him
      subst him
      show mdGet (parseMetadata (promoteRowUpdate "In Progress"
          (if (true = true ∧ ts ≠ "") then
            mdSet (parseMetadata q.metadata) "started_at" (MVal.str ts)
          else mdPop (parseMetadata q.metadata) "started_at") r0).metadata) "started_at" =
        some (MVal.str ts)
      rw [if_pos (show true = true ∧ ts ≠ "" from ⟨rfl, hts⟩)]
      show mdGet (parseMetadata (formatMetadata
        (mdSet (parseMetadata q.metadata) "started_at" (MVal.str ts)))) "started_at" =
        some (MVal.str ts)
      rw [parse_format]
      exact mdGet_mdSet_same _ _ _
    · intro him
      subst him
      show mdGet (parseMetadata (formatMetadata
        (mdPop (parseMetadata q.metadata) "started_at"))) "started_at" = none
      rw [parse_format]
      exact mdGet_mdPop_same _ _
  · exact ⟨completeRowUpdate notes ts (completeMeta row ts) row,
      completeMission_completed_row canon hash sizeKbOf st mission_id agent summary notes
        ts next_hint true immediate dbNow row hrow, rfl⟩

/-- Witness for C3 at the claim's own scenario: `M1` and `M2` both Queued,
`complete(M1, promote_next=true, immediate=false)` — `M1` ends Completed,
`M2` ends Current, the promoted id is `M2` and the synthesised hint is
`"M2 is now Current"`. -/
theorem C3_complete_promotes_oldest_queued_witness :
    ((MStore.missions
        { missions := [{ id := "M1", status := "Queued" },
                       { id := "M2", status := "Queued" }] }).find?
        (fun m => m.id = "M1") = some { id := "M1", status := "Queued" } ∧
      (MStore.missions
        { missions := [{ id := "M1", status := "Queued" },
                       { id := "M2", status := "Queued" }] }).find?
        (fun m => m.id ≠ "M1" ∧ m.status = "Queued") =
        some { id := "M2", status := "Queued" } ∧
      MissionRow.id { id := "M2", status := "Queued" } ≠ "" ∧ ("t1" : String) ≠ "") ∧
    ((∃ ev, (completeMission (fun _ => "") id (fun _ => 0)
        { missions := [{ id := "M1", status := "Queued" },
                       { id := "M2", status := "Queued" }] }
        "M1" "agent" "sum" "notes" "t1" none true false "t1").2 =
          Except.ok (ev, some (MissionRow.id { id := "M2", status := "Queued" })) ∧
      (¬ optStrTruthy none →
        ev.next_hint =
          some (MissionRow.id { id := "M2", status := "Queued" } ++ " is now " ++
            (if false then "In Progress" else "Current")))) ∧
    (∃ r, missionRow (completeMission (fun _ => "") id (fun _ => 0)
        { missions := [{ id := "M1", status := "Queued" },
                       { id := "M2", status := "Queued" }] }
        "M1" "agent" "sum" "notes" "t1" none true false "t1").1
          (MissionRow.id { id := "M2", status := "Queued" }) = some r ∧
      r.status = (if false then "In Progress" else "Current") ∧
      (false = true →
        mdGet (parseMetadata r.metadata) "started_at" = some (MVal.str "t1")) ∧
      (false = false → mdGet (parseMetadata r.metadata) "started_at" = none)) ∧
    (∃ r, missionRow (completeMission (fun _ => "") id (fun _ => 0)
        { missions := [{ id := "M1", status := "Queued" },
                       { id := "M2", status := "Queued" }] }
        "M1" "agent" "sum" "notes" "t1" none true false "t1").1 "M1" = some r ∧
      r.status = "Completed")) :=
  ⟨⟨by decide, by decide, by decide, by decide⟩,
    C3_complete_promotes_oldest_queued (fun _ => "") id (fun _ => 0)
      { missions := [{ id := "M1", status := "Queued" },
                     { id := "M2", status := "Queued" }] }
      "M1" "agent" "sum" "notes" "t1" "t1" none false
      { id := "M1", status := "Queued" } { id := "M2", status := "Queued" }
      (by decide) (by decide) (by decide) (by decide)⟩

/-- Claim C5 (one theorem): after any lifecycle transition (start, complete
or block), each persisted context document's
`working_memory.session_history` equals the previous document's dict entries
with the new entry appended and only the newest 50 kept (oldest dropped from
the front, newest last), so its length never exceeds 50.  Since this holds
for every pre-state, it holds after any number of transitions. -/
theorem C5_session_history_cap (canon : CtxDoc → String) (hash : String → String)
    (sizeKbOf : CtxDoc → Int) (st : MStore)
    (mission_id agent summary notes reason ts dbNow : String)
    (needs : Option (List String)) (next_hint : Option String)
    (promote_next immediate : Bool) (row : MissionRow)
    (hrow : st.missions.find? (fun m => m.id = mission_id) = some row) :
    (∃ d, persistedDoc (startMission canon hash sizeKbOf st mission_id agent summary ts
        dbNow).1 "project_context" = some d ∧
      d.working_memory.session_history =
        (newHistory (loadContext st "project_context")
          { mission := mission_id, agent := agent, summary := summary, action := "start"
            ts := ts }).map HistItem.dict ∧
      d.working_memory.session_history.length ≤ 50) ∧
    (∃ d, persistedDoc (startMission canon hash sizeKbOf st mission_id agent summary ts
        dbNow).1 "master_context" = some d ∧
      d.working_memory.session_history =
        (newHistory (loadContext st "master_context")
          { mission := mission_id, agent := agent, summary := summary, action := "start"
            ts := ts }).map HistItem.dict ∧
      d.working_memory.session_history.length ≤ 50) ∧
    (∃ d, persistedDoc (completeMission canon hash sizeKbOf st mission_id agent summary
        notes ts next_hint promote_next immediate dbNow).1 "project_context" = some d ∧
      d.working_memory.session_history =
        (newHistory (loadContext st "project_context")
          { mission := mission_id, agent := agent, summary := summary, action := "complete"
            ts := ts }).map HistItem.dict ∧
      d.working_memory.session_history.length ≤ 50) ∧
    (∃ d, persistedDoc (completeMission canon hash sizeKbOf st mission_id agent summary
        notes ts next_hint promote_next immediate dbNow).1 "master_context" = some d ∧
      d.working_memory.session_history =
        (newHistory (loadContext st "master_context")
          { mission := mission_id, agent := agent, summary := summary, action := "complete"
            ts := ts }).map HistItem.dict ∧
      d.working_memory.session_history.length ≤ 50) ∧
    (∃ d, persistedDoc (blockMission canon hash sizeKbOf st mission_id agent summary reason
        needs ts next_hint dbNow).1 "project_context" = some d ∧
      d.working_memory.session_history =
        (newHistory (loadContext st "project_context")
          { mission := mission_id, agent := agent, summary := summary, action := "blocked"
            ts := ts }).map HistItem.dict ∧
      d.working_memory.session_history.length ≤ 50) ∧
    (∃ d, persistedDoc (blockMission canon hash sizeKbOf st mission_id agent summary reason
        needs ts next_hint dbNow).1 "master_context" = some d ∧
      d.working_memory.session_history =
        (newHistory (loadContext st "master_context")
          { mission := mission_id, agent := agent, summary := summary, action := "blocked"
            ts := ts }).map HistItem.dict ∧
      d.working_memory.session_history.length ≤ 50) := by
  refine ⟨?_, ?_, ?_, ?_, ?_, ?_⟩
  · have he : (startProjectDoc sizeKbOf st mission_id agent summary ts).working_memory.session_history =
        (newHistory (loadContext st "project_context")
          { mission := mission_id, agent := agent, summary := summary, action := "start"
            ts := ts }).map HistItem.dict :=
      touch_session_history (loadContext st "project_context") mission_id ts agent summary
        "start" none
    refine ⟨_, startMission_projectDoc canon hash sizeKbOf st mission_id agent summary ts
      dbNow row hrow, he, ?_⟩
    rw [he, List.length_map]
    exact newHistory_le _ _
  · have he : (startMasterDoc sizeKbOf st mission_id agent summary ts).working_memory.session_history =
        (newHistory (loadContext st "master_context")
          { mission := mission_id, agent := agent, summary := summary, action := "start"
            ts := ts }).map HistItem.dict :=
      touch_session_history (loadContext st "master_context") mission_id ts agent summary
        "start" none
    refine ⟨_, startMission_masterDoc canon hash sizeKbOf st mission_id agent summary ts
      dbNow row hrow, he, ?_⟩
    rw [he, List.length_map]
    exact newHistory_le _ _
  · have he : (completeProjectDoc sizeKbOf st mission_id agent summary ts
        (completePromoted st mission_id notes ts row promote_next immediate).2
        immediate).working_memory.session_history =
        (newHistory (loadContext st "project_context")
          { mission := mission_id, agent := agent, summary := summary, action := "complete"
            ts := ts }).map HistItem.dict :=
      touch_session_history (loadContext st "project_context") mission_id ts agent summary
        "complete" _
    refine ⟨_, completeMission_projectDoc canon hash sizeKbOf st mission_id agent summary
      notes ts next_hint promote_next immediate dbNow row hrow, he, ?_⟩
    rw [he, List.length_map]
    exact newHistory_le _ _
  · have he : (completeMasterDoc sizeKbOf st mission_id agent summary ts
        (completePromoted st mission_id notes ts row promote_next immediate).2
        immediate).working_memory.session_history =
        (newHistory (loadContext st "master_context")
          { mission := mission_id, agent := agent, summary := summary, action := "complete"
            ts := ts }).map HistItem.dict :=
      touch_session_history (loadContext st "master_context") mission_id ts agent summary
        "complete" _
    refine ⟨_, completeMission_masterDoc canon hash sizeKbOf st mission_id agent summary
      notes ts next_hint promote_next immediate dbNow row hrow, he, ?_⟩
    rw [he, List.length_map]
    exact newHistory_le _ _
  · have he : (blockProjectDoc sizeKbOf st mission_id agent summary ts).working_memory.session_history =
        (newHistory (loadContext st "project_context")
          { mission := mission_id, agent := agent, summary := summary, action := "blocked"
            ts := ts }).map HistItem.dict :=
      touch_session_history (loadContext st "project_context") mission_id ts agent summary
        "blocked" none
    refine ⟨_, blockMission_projectDoc canon hash sizeKbOf st mission_id agent summary
      reason needs ts next_hint dbNow row hrow, he, ?_⟩
    rw [he, List.length_map]
    exact newHistory_le _ _
  · have he : (blockMasterDoc sizeKbOf st mission_id agent summary reason needs
        ts).working_memory.session_history =
        (newHistory (loadContext st "master_context")
          { mission := mission_id, agent := agent, summary := summary, action := "blocked"
            ts := ts }).map HistItem.dict :=
      touch_session_history (loadContext st "master_context") mission_id ts agent summary
        "blocked" none
    refine ⟨_, blockMission_masterDoc canon hash sizeKbOf st mission_id agent summary
      reason needs ts next_hint dbNow row hrow, he, ?_⟩
    rw [he, List.length_map]
    exact newHistory_le _ _

/-- Witness for C5 at a concrete input: the one-mission store, all three
operations applied to mission `"M"`. -/
theorem C5_session_history_cap_witness :
    ((MStore.missions { missions := [{ id := "M", status := "Queued" }] }).find?
      (fun m => m.id = "M") = some { id := "M", status := "Queued" }) ∧
    ((∃ d, persistedDoc (startMission (fun _ => "") id (fun _ => 0)
        { missions := [{ id := "M", status := "Queued" }] } "M" "agent" "sum" "t1"
        "t1").1 "project_context" = some d ∧
      d.working_memory.session_history =
        (newHistory (loadContext { missions := [{ id := "M", status := "Queued" }] }
          "project_context")
          { mission := "M", agent := "agent", summary := "sum", action := "start"
            ts := "t1" }).map HistItem.dict ∧
      d.working_memory.session_history.length ≤ 50) ∧
    (∃ d, persistedDoc (startMission (fun _ => "") id (fun _ => 0)
        { missions := [{ id := "M", status := "Queued" }] } "M" "agent" "sum" "t1"
        "t1").1 "master_context" = some d ∧
      d.working_memory.session_history =
        (newHistory (loadContext { missions := [{ id := "M", status := "Queued" }] }
          "master_context")
          { mission := "M", agent := "agent", summary := "sum", action := "start"
            ts := "t1" }).map HistItem.dict ∧
      d.working_memory.session_history.length ≤ 50) ∧
    (∃ d, persistedDoc (completeMission (fun _ => "") id (fun _ => 0)
        { missions := [{ id := "M", status := "Queued" }] } "M" "agent" "sum" "notes" "t1"
        none true false "t1").1 "project_context" = some d ∧
      d.working_memory.session_history =
        (newHistory (loadContext { missions := [{ id := "M", status := "Queued" }] }
          "project_context")
          { mission := "M", agent := "agent", summary := "sum", action := "complete"
            ts := "t1" }).map HistItem.dict ∧
      d.working_memory.session_history.length ≤ 50) ∧
    (∃ d, persistedDoc (completeMission (fun _ => "") id (fun _ => 0)
        { missions := [{ id := "M", status := "Queued" }] } "M" "agent" "sum" "notes" "t1"
        none true false "t1").1 "master_context" = some d ∧
      d.working_memory.session_history =
        (newHistory (loadContext { missions := [{ id := "M", status := "Queued" }] }
          "master_context")
          { mission := "M", agent := "agent", summary := "sum", action := "complete"
            ts := "t1" }).map HistItem.dict ∧
      d.working_memory.session_history.length ≤ 50) ∧
    (∃ d, persistedDoc (blockMission (fun _ => "") id (fun _ => 0)
        { missions := [{ id := "M", status := "Queued" }] } "M" "agent" "sum" "r" none "t1"
        none "t1").1 "project_context" = some d ∧
      d.working_memory.session_history =
        (newHistory (loadContext { missions := [{ id := "M", status := "Queued" }] }
          "project_context")
          { mission := "M", agent := "agent", summary := "sum", action := "blocked"
            ts := "t1" }).map HistItem.dict ∧
      d.working_memory.session_history.length ≤ 50) ∧
    (∃ d, persistedDoc (blockMission (fun _ => "") id (fun _ => 0)
        { missions := [{ id := "M", status := "Queued" }] } "M" "agent" "sum" "r" none "t1"
        none "t1").1 "master_context" = some d ∧
      d.working_memory.session_history =
        (newHistory (loadContext { missions := [{ id := "M", status := "Queued" }] }
          "master_context")
          { mission := "M", agent := "agent", summary := "sum", action := "blocked"
            ts := "t1" }).map HistItem.dict ∧
      d.working_memory.session_history.length ≤ 50)) :=
  ⟨by decide,
    C5_session_history_cap (fun _ => "") id (fun _ => 0)
      { missions := [{ id := "M", status := "Queued" }] }
      "M" "agent" "sum" "notes" "r" "t1" "t1" none none true false
      { id := "M", status := "Queued" } (by decide)⟩

/-- Blocker list left by `_remove_blocker`: exactly the entries whose mission
differs (the popped-key and kept-key cases agree once read back with the
empty default). -/
theorem removeBlocker_blockers (ns : NextSession) (mid : String) :
    ((removeBlocker ns mid).blockers.getD []) =
      (ns.blockers.getD []).filter (fun b => b.mission ≠ mid) := by
  unfold removeBlocker
  dsimp only
  by_cases h : ((ns.blockers.getD []).filter (fun b => b.mission ≠ mid)).isEmpty
  · rw [if_pos h]
    rw [List.isEmpty_iff] at h
    rw [h]
    rfl
  · rw [if_neg h]
    rfl

/-- Blocker list written by `_record_blocker`. -/
theorem recordBlocker_blockers (ns : NextSession) (mid ts summary reason : String)
    (needs : Option (List String)) :
    (recordBlocker ns mid ts summary reason needs).blockers =
      some ((ns.blockers.getD []).filter (fun b => b.mission ≠ mid) ++
        [{ mission := mid, recorded_at := ts, summary := summary, reason := reason
           needs := needs.getD [] }]) := rfl

/-- `_touch_working_memory` leaves `next_session_context` untouched. -/
theorem touch_ns (doc : CtxDoc) (mid ts agent summary action : String)
    (nm : Option String) :
    (touchWorkingMemory doc mid ts agent summary action nm).next_session_context =
      doc.next_session_context := rfl

/-- `blocked_missions` after one `_touch_working_memory`: the mission is
added (deduplicated) on a block, and its first occurrence removed on any
other action. -/
theorem touch_blocked_missions (doc : CtxDoc) (mid ts agent summary action : String)
    (nm : Option String) :
    (touchWorkingMemory doc mid ts agent summary action nm).working_memory.blocked_missions =
      (if action = "blocked" then
        (if mid ∈ doc.working_memory.blocked_missions then
          doc.working_memory.blocked_missions
        else doc.working_memory.blocked_missions ++ [mid])
      else
        (if mid ∈ doc.working_memory.blocked_missions then
          doc.working_memory.blocked_missions.erase mid
        else doc.working_memory.blocked_missions)) := by
  unfold touchWorkingMemory
  dsimp only
  split_ifs <;> rfl

/-- The `next_session_context` of the master document persisted by
`block_mission`. -/
theorem blockMasterDoc_ns (sizeKbOf : CtxDoc → Int) (st : MStore)
    (mission_id agent summary reason : String) (needs : Option (List String))
    (ts : String) :
    (blockMasterDoc sizeKbOf st mission_id agent summary reason needs
        ts).next_session_context =
      recordBlocker (loadContext st "master_context").next_session_context mission_id ts
        summary reason needs := rfl

/-- The `next_session_context` of the master document persisted by
`start_mission`. -/
theorem startMasterDoc_ns (sizeKbOf : CtxDoc → Int) (st : MStore)
    (mission_id agent summary ts : String) :
    (startMasterDoc sizeKbOf st mission_id agent summary ts).next_session_context =
      removeBlocker (loadContext st "master_context").next_session_context mission_id :=
  rfl

/-- The blockers of the master document persisted by `complete_mission` (the
resume-note step never touches the blockers list). -/
theorem completeMasterDoc_blockers (sizeKbOf : CtxDoc → Int) (st : MStore)
    (mission_id agent summary ts : String) (nid : Option String) (immediate : Bool) :
    (completeMasterDoc sizeKbOf st mission_id agent summary ts nid
        immediate).next_session_context.blockers =
      (removeBlocker
        (loadContext st "master_context").next_session_context mission_id).blockers := by
  unfold completeMasterDoc
  cases nid with
  | none => rfl
  | some n =>
    dsimp only
    by_cases h : n = ""
    · rw [if_pos h]
      rfl
    · rw [if_neg h]
      rfl

/-- A filter never keeps an entry for the filtered-out mission id. -/
theorem not_mem_filtered_missions (bs : List Blocker) (mid : String) :
    mid ∉ ((bs.filter (fun b => b.mission ≠ mid)).map (fun b => b.mission)) := by
  intro h
  rw [List.mem_map] at h
  obtain ⟨b, hb, hbm⟩ := h
  rw [List.mem_filter] at hb
  exact absurd hbm (by simpa using hb.2)

/-- Filtering preserves distinctness of the mission ids. -/
theorem nodup_filter_missions (bs : List Blocker) (p : Blocker → Bool)
    (h : ((bs.map (fun b => b.mission)).Nodup)) :
    (((bs.filter p).map (fun b => b.mission)).Nodup) :=
  ((bs.filter_sublist).map (fun b => b.mission)).nodup h

/-- Claim C6 (one theorem): at most one blocker entry per mission id exists
in the persisted master context.  `block_mission` replaces (rather than
duplicates) the entry for the blocked mission — afterwards the entries for
that mission are exactly the single fresh one — and preserves distinctness
of blocker mission ids; `start_mission` and `complete_mission` preserve it
too.  Moreover, for the claim's scenario, `block_mission(M)` followed by
`start_mission(M)` leaves the persisted master context with no blocker entry
for `M` and with `M` absent from `working_memory.blocked_missions`. -/
theorem C6_blocker_uniqueness (canon : CtxDoc → String) (hash : String → String)
    (sizeKbOf : CtxDoc → Int) (st : MStore)
    (mission_id agent summary notes reason ts dbNow agent2 summary2 ts2 dbNow2 : String)
    (needs : Option (List String)) (next_hint : Option String)
    (promote_next immediate : Bool) (row : MissionRow)
    (hrow : st.missions.find? (fun m => m.id = mission_id) = some row)
    (hnodup : (((loadContext st "master_context").next_session_context.blockers.getD
      []).map (fun b => b.mission)).Nodup)
    (hb0 : (loadContext st "master_context").working_memory.blocked_missions.Nodup) :
    (∃ d, persistedDoc (blockMission canon hash sizeKbOf st mission_id agent summary reason
        needs ts next_hint dbNow).1 "master_context" = some d ∧
      (((d.next_session_context.blockers.getD []).map (fun b => b.mission)).Nodup) ∧
      (d.next_session_context.blockers.getD []).filter (fun b => b.mission = mission_id) =
        [{ mission := mission_id, recorded_at := ts, summary := summary, reason := reason
           needs := needs.getD [] }]) ∧
    (∃ d, persistedDoc (startMission canon hash sizeKbOf st mission_id agent summary ts
        dbNow).1 "master_context" = some d ∧
      (((d.next_session_context.blockers.getD []).map (fun b => b.mission)).Nodup)) ∧
    (∃ d, persistedDoc (completeMission canon hash sizeKbOf st mission_id agent summary
        notes ts next_hint promote_next immediate dbNow).1 "master_context" = some d ∧
      (((d.next_session_context.blockers.getD []).map (fun b => b.mission)).Nodup)) ∧
    (∃ d, persistedDoc (startMission canon hash sizeKbOf
        (blockMission canon hash sizeKbOf st mission_id agent summary reason needs ts
          next_hint dbNow).1
        mission_id agent2 summary2 ts2 dbNow2).1 "master_context" = some d ∧
      (∀ b ∈ d.next_session_context.blockers.getD [], b.mission ≠ mission_id) ∧
      mission_id ∉ d.working_memory.blocked_missions) := by
  have hfiltNodup := nodup_filter_missions
    ((loadContext st "master_context").next_session_context.blockers.getD [])
    (fun b => b.mission ≠ mission_id) hnodup
  refine ⟨?_, ?_, ?_, ?_⟩
  · refine ⟨_, blockMission_masterDoc canon hash sizeKbOf st mission_id agent summary
      reason needs ts next_hint dbNow row hrow, ?_, ?_⟩
    · rw [blockMasterDoc_ns, recordBlocker_blockers]
      rw [Option.getD_some, List.map_append]
      rw [List.nodup_append]
      refine ⟨hfiltNodup, by simp, ?_⟩
      intro a ha hb
      rw [List.mem_map] at ha
      obtain ⟨ba, hba, hbam⟩ := ha
      rw [List.mem_filter] at hba
      have hamid : a = mission_id := by simpa using hb
      rw [hamid] at hbam
      exact (show ba.mission ≠ mission_id by simpa using hba.2) hbam
    · rw [blockMasterDoc_ns, recordBlocker_blockers, Option.getD_some, List.filter_append]
      have h1 : (((loadContext st "master_context").next_session_context.blockers.getD
          []).filter (fun b => b.mission ≠ mission_id)).filter
          (fun b => b.mission = mission_id) = [] := by
        rw [List.filter_eq_nil_iff]
        intro b hb
        rw [List.mem_filter] at hb
        simpa using hb.2
      rw [h1]
      simp
  · refine ⟨_, startMission_masterDoc canon hash sizeKbOf st mission_id agent summary ts
      dbNow row hrow, ?_⟩
    rw [startMasterDoc_ns, removeBlocker_blockers]
    exact hfiltNodup
  · refine ⟨_, completeMission_masterDoc canon hash sizeKbOf st mission_id agent summary
      notes ts next_hint promote_next immediate dbNow row hrow, ?_⟩
    rw [completeMasterDoc_blockers, removeBlocker_blockers]
    exact hfiltNodup
  · -- scenario: block M then start M
    have hrow2 : (blockMission canon hash sizeKbOf st mission_id agent summary reason needs
        ts next_hint dbNow).1.missions.find? (fun m => m.id = mission_id) =
        some (blockRowUpdate reason (blockMeta row ts reason needs) row) := by
      rw [blockMission_missions canon hash sizeKbOf st mission_id agent summary reason
        needs ts next_hint dbNow row hrow]
      rw [find?_id_map_update st.missions
        (fun m => if m.id = mission_id then
          blockRowUpdate reason (blockMeta row ts reason needs) m else m)
        (upd_id_preserved mission_id _ (fun m => rfl)) mission_id, hrow]
      have hrid : row.id = mission_id := by simpa using List.find?_some hrow
      simp [hrid]
    set s1 := (blockMission canon hash sizeKbOf st mission_id agent summary reason needs ts
      next_hint dbNow).1 with hs1
    have hload : loadContext s1 "master_context" =
        blockMasterDoc sizeKbOf st mission_id agent summary reason needs ts := by
      unfold loadContext
      have := blockMission_masterDoc canon hash sizeKbOf st mission_id agent summary reason
        needs ts next_hint dbNow row hrow
      unfold persistedDoc at this
      rw [← hs1] at this
      rw [this]
      rfl
    refine ⟨_, startMission_masterDoc canon hash sizeKbOf s1 mission_id agent2 summary2 ts2
      dbNow2 _ hrow2, ?_, ?_⟩
    · rw [startMasterDoc_ns, removeBlocker_blockers]
      intro b hb
      rw [List.mem_filter] at hb
      simpa using hb.2
    · have hwm : (startMasterDoc sizeKbOf s1 mission_id agent2 summary2
          ts2).working_memory.blocked_missions =
          (touchWorkingMemory (loadContext s1 "master_context") mission_id ts2 agent2
            summary2 "start" none).working_memory.blocked_missions := rfl
      rw [hwm, touch_blocked_missions, if_neg (by decide)]
      rw [hload]
      have hb1mem : mission_id ∈
          (blockMasterDoc sizeKbOf st mission_id agent summary reason needs
            ts).working_memory.blocked_missions := by
        have hwm2 : (blockMasterDoc sizeKbOf st mission_id agent summary reason needs
            ts).working_memory.blocked_missions =
            (touchWorkingMemory (loadContext st "master_context") mission_id ts agent
              summary "blocked" none).working_memory.blocked_missions := rfl
        rw [hwm2, touch_blocked_missions, if_pos rfl]
        by_cases hm : mission_id ∈ (loadContext st "master_context").working_memory.blocked_missions
        · rw [if_pos hm]
          exact hm
        · rw [if_neg hm]
          simp
      have hb1nodup : (blockMasterDoc sizeKbOf st mission_id agent summary reason needs
          ts).working_memory.blocked_missions.Nodup := by
        have hwm2 : (blockMasterDoc sizeKbOf st mission_id agent summary reason needs
            ts).working_memory.blocked_missions =
            (touchWorkingMemory (loadContext st "master_context") mission_id ts agent
              summary "blocked" none).working_memory.blocked_missions := rfl
        rw [hwm2, touch_blocked_missions, if_pos rfl]
        by_cases hm : mission_id ∈ (loadContext st "master_context").working_memory.blocked_missions
        · rw [if_pos hm]
          exact hb0
        · rw [if_neg hm]
          rw [List.nodup_append]
          refine ⟨hb0, by simp, ?_⟩
          intro x hx hx2
          rw [List.mem_singleton] at hx2
          rw [hx2] at hx
          exact hm hx
      rw [if_pos hb1mem]
      exact hb1nodup.not_mem_erase

/-- Witness for C6 at a concrete input: the one-mission store with empty
context documents, blocking and then starting mission `"M"`. -/
theorem C6_blocker_uniqueness_witness :
    ((MStore.missions { missions := [{ id := "M", status := "Queued" }] }).find?
        (fun m => m.id = "M") = some { id := "M", status := "Queued" } ∧
      (((loadContext { missions := [{ id := "M", status := "Queued" }] }
        "master_context").next_session_context.blockers.getD []).map
          (fun b => b.mission)).Nodup ∧
      (loadContext { missions := [{ id := "M", status := "Queued" }] }
        "master_context").working_memory.blocked_missions.Nodup) ∧
    ((∃ d, persistedDoc (blockMission (fun _ => "") id (fun _ => 0)
        { missions := [{ id := "M", status := "Queued" }] } "M" "agent" "sum" "r" none "t1"
        none "t1").1 "master_context" = some d ∧
      (((d.next_session_context.blockers.getD []).map (fun b => b.mission)).Nodup) ∧
      (d.next_session_context.blockers.getD []).filter (fun b => b.mission = "M") =
        [{ mission := "M", recorded_at := "t1", summary := "sum", reason := "r"
           needs := (none : Option (List String)).getD [] }]) ∧
    (∃ d, persistedDoc (startMission (fun _ => "") id (fun _ => 0)
        { missions := [{ id := "M", status := "Queued" }] } "M" "agent" "sum" "t1"
        "t1").1 "master_context" = some d ∧
      (((d.next_session_context.blockers.getD []).map (fun b => b.mission)).Nodup)) ∧
    (∃ d, persistedDoc (completeMission (fun _ => "") id (fun _ => 0)
        { missions := [{ id := "M", status := "Queued" }] } "M" "agent" "sum" "notes" "t1"
        none true false "t1").1 "master_context" = some d ∧
      (((d.next_session_context.blockers.getD []).map (fun b => b.mission)).Nodup)) ∧
    (∃ d, persistedDoc (startMission (fun _ => "") id (fun _ => 0)
        (blockMission (fun _ => "") id (fun _ => 0)
          { missions := [{ id := "M", status := "Queued" }] } "M" "agent" "sum" "r" none
          "t1" none "t1").1
        "M" "agent2" "sum2" "t2" "t2").1 "master_context" = some d ∧
      (∀ b ∈ d.next_session_context.blockers.getD [], b.mission ≠ "M") ∧
      "M" ∉ d.working_memory.blocked_missions)) :=
  ⟨⟨by decide, by decide, by decide⟩,
    C6_blocker_uniqueness (fun _ => "") id (fun _ => 0)
      { missions := [{ id := "M", status := "Queued" }] }
      "M" "agent" "sum" "notes" "r" "t1" "t1" "agent2" "sum2" "t2" "t2" none none true
      false { id := "M", status := "Queued" } (by decide) (by decide) (by decide)⟩

/-- Reminder list left by `_remove_blocker`: every item whose JSON
serialisation contains the mission id as a substring is removed. -/
theorem removeBlocker_reminders (ns : NextSession) (mid : String) :
    ((removeBlocker ns mid).important_reminders.getD []) =
      (ns.important_reminders.getD []).filter
        (fun item => ¬ containsSub mid (jsonDumpStr item)) := by
  unfold removeBlocker
  dsimp only
  cases hi : ns.important_reminders with
  | none => rfl
  | some xs =>
    dsimp only
    by_cases h : (xs.filter (fun item => ¬ containsSub mid (jsonDumpStr item))).isEmpty
    · rw [if_pos h]
      rw [List.isEmpty_iff] at h
      rw [Option.getD_some, h]
      rfl
    · rw [if_neg h]
      rfl

/-- Resume-note list left by `_remove_blocker`: same substring filter. -/
theorem removeBlocker_resume (ns : NextSession) (mid : String) :
    ((removeBlocker ns mid).when_we_resume.getD []) =
      (ns.when_we_resume.getD []).filter
        (fun item => ¬ containsSub mid (jsonDumpStr item)) := by
  unfold removeBlocker
  dsimp only
  cases hi : ns.when_we_resume with
  | none => rfl
  | some xs =>
    dsimp only
    by_cases h : (xs.filter (fun item => ¬ containsSub mid (jsonDumpStr item))).isEmpty
    · rw [if_pos h]
      rw [List.isEmpty_iff] at h
      rw [Option.getD_some, h]
      rfl
    · rw [if_neg h]
      rfl

/-- The reminders of the master document persisted by `complete_mission`
(the resume-note step never touches the reminders). -/
theorem completeMasterDoc_reminders (sizeKbOf : CtxDoc → Int) (st : MStore)
    (mission_id agent summary ts : String) (nid : Option String) (immediate : Bool) :
    (completeMasterDoc sizeKbOf st mission_id agent summary ts nid
        immediate).next_session_context.important_reminders =
      (removeBlocker (loadContext st "master_context").next_session_context
        mission_id).important_reminders := by
  unfold completeMasterDoc
  cases nid with
  | none => rfl
  | some n =>
    dsimp only
    by_cases h : n = ""
    · rw [if_pos h]
      rfl
    · rw [if_neg h]
      rfl

/-- The reminder recorded for a blocked mission `"M10"` serialises to a JSON
string that contains `"M1"` as a substring, whatever the reason text. -/
theorem containsSub_M1_of_M10 (r : String) :
    containsSub "M1" (jsonDumpStr ("M10: " ++ r)) = true := by
  unfold containsSub jsonDumpStr
  rw [decide_eq_true_iff]
  have hdata : ("M10: " ++ r).data = 'M' :: '1' :: '0' :: ':' :: ' ' :: r.data := by
    rw [String.data_append]
    rfl
  rw [hdata]
  rw [List.map_cons, List.map_cons, List.map_cons, List.map_cons, List.map_cons]
  rw [show escapeChar 'M' = ['M'] from rfl, show escapeChar '1' = ['1'] from rfl,
    show escapeChar '0' = ['0'] from rfl, show escapeChar ':' = [':'] from rfl,
    show escapeChar ' ' = [' '] from rfl]
  rw [List.flatten_cons, List.flatten_cons, List.flatten_cons, List.flatten_cons,
    List.flatten_cons]
  exact ⟨['"'],
    '0' :: ':' :: ' ' :: ((r.data.map escapeChar).flatten ++ ['"']), by simp⟩

/-- Claim C10 (one theorem): the reminder/resume-note cleanup of
`_remove_blocker` (run by `start_mission` and `complete_mission`) matches by
substring of the serialised item, not by mission identity — the persisted
master context keeps exactly the items whose JSON serialisation does NOT
contain the transitioned mission id — while blocker entries are removed only
on an exact match of their `mission` field.  Consequently, after
`block("M10", reason)` followed by `start("M1")`, the reminder
`"M10: <reason>"` is gone from the persisted master context even though
`M10`'s blocker entry is still present. -/
theorem C10_substring_cleanup (canon : CtxDoc → String) (hash : String → String)
    (sizeKbOf : CtxDoc → Int) (st : MStore)
    (mission_id agent summary notes reason ts dbNow agent2 summary2 ts2 dbNow2 : String)
    (needs : Option (List String)) (next_hint : Option String)
    (promote_next immediate : Bool) (row rowA rowB : MissionRow)
    (hrow : st.missions.find? (fun m => m.id = mission_id) = some row)
    (hrowB : st.missions.find? (fun m => m.id = "M10") = some rowB)
    (hrowA : st.missions.find? (fun m => m.id = "M1") = some rowA) :
    (∃ d, persistedDoc (startMission canon hash sizeKbOf st mission_id agent summary ts
        dbNow).1 "master_context" = some d ∧
      d.next_session_context.important_reminders.getD [] =
        ((loadContext st "master_context").next_session_context.important_reminders.getD
          []).filter (fun item => ¬ containsSub mission_id (jsonDumpStr item)) ∧
      d.next_session_context.when_we_resume.getD [] =
        ((loadContext st "master_context").next_session_context.when_we_resume.getD
          []).filter (fun item => ¬ containsSub mission_id (jsonDumpStr item)) ∧
      d.next_session_context.blockers.getD [] =
        ((loadContext st "master_context").next_session_context.blockers.getD []).filter
          (fun b => b.mission ≠ mission_id)) ∧
    (∃ d, persistedDoc (completeMission canon hash sizeKbOf st mission_id agent summary
        notes ts next_hint promote_next immediate dbNow).1 "master_context" = some d ∧
      d.next_session_context.important_reminders.getD [] =
        ((loadContext st "master_context").next_session_context.important_reminders.getD
          []).filter (fun item => ¬ containsSub mission_id (jsonDumpStr item)) ∧
      d.next_session_context.blockers.getD [] =
        ((loadContext st "master_context").next_session_context.blockers.getD []).filter
          (fun b => b.mission ≠ mission_id)) ∧
    (∃ d, persistedDoc (startMission canon hash sizeKbOf
        (blockMission canon hash sizeKbOf st "M10" agent summary reason needs ts next_hint
          dbNow).1
        "M1" agent2 summary2 ts2 dbNow2).1 "master_context" = some d ∧
      ("M10: " ++ reason) ∉ d.next_session_context.important_reminders.getD [] ∧
      (∃ b ∈ d.next_session_context.blockers.getD [], b.mission = "M10")) := by
  refine ⟨?_, ?_, ?_⟩
  · refine ⟨_, startMission_masterDoc canon hash sizeKbOf st mission_id agent summary ts
      dbNow row hrow, ?_, ?_, ?_⟩
    · rw [show (startMasterDoc sizeKbOf st mission_id agent summary
          ts).next_session_context =
        removeBlocker (loadContext st "master_context").next_session_context mission_id
        from rfl]
      exact removeBlocker_reminders _ _
    · rw [show (startMasterDoc sizeKbOf st mission_id agent summary
          ts).next_session_context =
        removeBlocker (loadContext st "master_context").next_session_context mission_id
        from rfl]
      exact removeBlocker_resume _ _
    · rw [show (startMasterDoc sizeKbOf st mission_id agent summary
          ts).next_session_context =
        removeBlocker (loadContext st "master_context").next_session_context mission_id
        from rfl]
      exact removeBlocker_blockers _ _
  · refine ⟨_, completeMission_masterDoc canon hash sizeKbOf st mission_id agent summary
      notes ts next_hint promote_next immediate dbNow row hrow, ?_, ?_⟩
    · rw [completeMasterDoc_reminders]
      exact removeBlocker_reminders _ _
    · rw [completeMasterDoc_blockers]
      exact removeBlocker_blockers _ _
  · -- scenario
    have hrow2 : (blockMission canon hash sizeKbOf st "M10" agent summary reason needs ts
        next_hint dbNow).1.missions.find? (fun m => m.id = "M1") = some rowA := by
      rw [blockMission_missions canon hash sizeKbOf st "M10" agent summary reason needs ts
        next_hint dbNow rowB hrowB]
      rw [find?_id_map_update st.missions
        (fun m => if m.id = "M10" then
          blockRowUpdate reason (blockMeta rowB ts reason needs) m else m)
        (upd_id_preserved "M10" _ (fun m => rfl)) "M1", hrowA]
      have hAid : rowA.id = "M1" := by simpa using List.find?_some hrowA
      rw [show Option.map
        (fun m => if m.id = "M10" then
          blockRowUpdate reason (blockMeta rowB ts reason needs) m else m) (some rowA) =
        some (if rowA.id = "M10" then
          blockRowUpdate reason (blockMeta rowB ts reason needs) rowA else rowA) from rfl]
      rw [if_neg (by rw [hAid]; decide)]
    set s1 := (blockMission canon hash sizeKbOf st "M10" agent summary reason needs ts
      next_hint dbNow).1 with hs1
    have hload : loadContext s1 "master_context" =
        blockMasterDoc sizeKbOf st "M10" agent summary reason needs ts := by
      unfold loadContext
      have := blockMission_masterDoc canon hash sizeKbOf st "M10" agent summary reason
        needs ts next_hint dbNow rowB hrowB
      unfold persistedDoc at this
      rw [← hs1] at this
      rw [this]
      rfl
    refine ⟨_, startMission_masterDoc canon hash sizeKbOf s1 "M1" agent2 summary2 ts2
      dbNow2 rowA hrow2, ?_, ?_⟩
    · rw [show (startMasterDoc sizeKbOf s1 "M1" agent2 summary2
          ts2).next_session_context =
        removeBlocker (loadContext s1 "master_context").next_session_context "M1"
        from rfl]
      rw [removeBlocker_reminders]
      intro hmem
      rw [List.mem_filter] at hmem
      have := hmem.2
      rw [containsSub_M1_of_M10 reason] at this
      simp at this
    · rw [show (startMasterDoc sizeKbOf s1 "M1" agent2 summary2
          ts2).next_session_context =
        removeBlocker (loadContext s1 "master_context").next_session_context "M1"
        from rfl]
      rw [removeBlocker_blockers, hload]
      rw [show (blockMasterDoc sizeKbOf st "M10" agent summary reason needs
          ts).next_session_context =
        recordBlocker (loadContext st "master_context").next_session_context "M10" ts
          summary reason needs from rfl]
      rw [recordBlocker_blockers, Option.getD_some]
      refine ⟨⟨"M10", ts, summary, reason, needs.getD []⟩, ?_, rfl⟩
      rw [List.mem_filter]
      constructor
      · rw [List.mem_append]
        right
        simp
      · rw [show Blocker.mission ⟨"M10", ts, summary, reason, needs.getD []⟩ = "M10"
          from rfl]
        decide

/-- Witness for C10 at a concrete input: missions `"M1"` and `"M10"`, block
`"M10"` with reason `"waiting on API key"`, then start `"M1"`. -/
theorem C10_substring_cleanup_witness :
    ((MStore.missions
        { missions := [{ id := "M1", status := "Queued" },
                       { id := "M10", status := "Queued" }] }).find?
        (fun m => m.id = "M1") = some { id := "M1", status := "Queued" } ∧
      (MStore.missions
        { missions := [{ id := "M1", status := "Queued" },
                       { id := "M10", status := "Queued" }] }).find?
        (fun m => m.id = "M10") = some { id := "M10", status := "Queued" }) ∧
    (∃ d, persistedDoc (startMission (fun _ => "") id (fun _ => 0)
        (blockMission (fun _ => "") id (fun _ => 0)
          { missions := [{ id := "M1", status := "Queued" },
                         { id := "M10", status := "Queued" }] }
          "M10" "agent" "sum" "waiting on API key" none "t1" none "t1").1
        "M1" "agent2" "sum2" "t2" "t2").1 "master_context" = some d ∧
      ("M10: " ++ "waiting on API key") ∉
        d.next_session_context.important_reminders.getD [] ∧
      (∃ b ∈ d.next_session_context.blockers.getD [], b.mission = "M10")) :=
  ⟨⟨by decide, by decide⟩,
    (C10_substring_cleanup (fun _ => "") id (fun _ => 0)
      { missions := [{ id := "M1", status := "Queued" },
                     { id := "M10", status := "Queued" }] }
      "M1" "agent" "sum" "notes" "waiting on API key" "t1" "t1" "agent2" "sum2" "t2" "t2"
      none none true false
      { id := "M1", status := "Queued" } { id := "M1", status := "Queued" }
      { id := "M10", status := "Queued" }
      (by decide) (by decide) (by decide)).2.2⟩

/-- Claim C9 (one theorem): each lifecycle operation first checks that the
mission exists; a missing mission id makes the operation return the
not-found error with the store exactly unchanged (no mission row change, no
session event, no context or snapshot write).  The shared transactional
envelope (`SQLiteClient.transaction`) commits the body's state on success
and, on any raised error, rolls back so the observable state equals the
state before the call, re-raising the error — partial application is never
observable. -/
theorem C9_not_found_and_rollback (canon : CtxDoc → String) (hash : String → String)
    (sizeKbOf : CtxDoc → Int) (st : MStore)
    (mission_id agent summary notes reason ts dbNow : String)
    (needs : Option (List String)) (next_hint : Option String)
    (promote_next immediate : Bool)
    (hmissing : st.missions.find? (fun m => m.id = mission_id) = none) :
    startMission canon hash sizeKbOf st mission_id agent summary ts dbNow =
      (st, Except.error ("Mission " ++ mission_id ++ " not found in database")) ∧
    completeMission canon hash sizeKbOf st mission_id agent summary notes ts next_hint
        promote_next immediate dbNow =
      (st, Except.error ("Mission " ++ mission_id ++ " not found in database")) ∧
    blockMission canon hash sizeKbOf st mission_id agent summary reason needs ts next_hint
        dbNow =
      (st, Except.error ("Mission " ++ mission_id ++ " not found in database")) ∧
    (∀ (σ ε ρ : Type) (s : σ) (body : σ → Except ε (σ × ρ)) (e : ε),
      body s = Except.error e → transactionRun s body = (s, Except.error e)) ∧
    (∀ (σ ε ρ : Type) (s : σ) (body : σ → Except ε (σ × ρ)) (s' : σ) (r : ρ),
      body s = Except.ok (s', r) → transactionRun s body = (s', Except.ok r)) := by
  refine ⟨?_, ?_, ?_, ?_, ?_⟩
  · unfold startMission
    rw [hmissing]
  · unfold completeMission
    rw [hmissing]
  · unfold blockMission
    rw [hmissing]
  · intro σ ε ρ s body e h
    unfold transactionRun
    rw [h]
  · intro σ ε ρ s body s' r h
    unfold transactionRun
    rw [h]

/-- Witness for C9 at a concrete input: a store holding only mission `"A"`,
operated on with the unknown mission id `"B"`. -/
theorem C9_not_found_and_rollback_witness :
    ((MStore.missions
        { missions := [{ id := "A", status := "Queued" }] }).find?
        (fun m => m.id = "B") = none) ∧
    (startMission (fun _ => "") id (fun _ => 0)
        { missions := [{ id := "A", status := "Queued" }] } "B" "agent" "sum" "t1" "t1" =
      ({ missions := [{ id := "A", status := "Queued" }] },
        Except.error ("Mission " ++ "B" ++ " not found in database")) ∧
      completeMission (fun _ => "") id (fun _ => 0)
          { missions := [{ id := "A", status := "Queued" }] } "B" "agent" "sum" "notes" "t1"
          none true false "t1" =
        ({ missions := [{ id := "A", status := "Queued" }] },
          Except.error ("Mission " ++ "B" ++ " not found in database")) ∧
      blockMission (fun _ => "") id (fun _ => 0)
          { missions := [{ id := "A", status := "Queued" }] } "B" "agent" "sum" "reason" none
          "t1" none "t1" =
        ({ missions := [{ id := "A", status := "Queued" }] },
          Except.error ("Mission " ++ "B" ++ " not found in database")) ∧
      (∀ (σ ε ρ : Type) (s : σ) (body : σ → Except ε (σ × ρ)) (e : ε),
        body s = Except.error e → transactionRun s body = (s, Except.error e)) ∧
      (∀ (σ ε ρ : Type) (s : σ) (body : σ → Except ε (σ × ρ)) (s' : σ) (r : ρ),
        body s = Except.ok (s', r) → transactionRun s body = (s', Except.ok r))) :=
  ⟨by decide,
    C9_not_found_and_rollback (fun _ => "") id (fun _ => 0)
      { missions := [{ id := "A", status := "Queued" }] }
      "B" "agent" "sum" "notes" "reason" "t1" "t1" none none true false (by decide)⟩


/-! ## Cluster C: offline merge engine (`src/scripts/migrate_cmos_memory.py`)

### Session merge (`_merge_sessions`, `_parse_timestamp`) — claim C7

A session event is a JSON object; the merge reads the keys `session_id`,
`timestamp`, `ts`, `type`, `status`, `summary` and `__raw__`, and treats all
values it compares as strings-or-absent (`Option String`).  Remaining keys are
carried opaquely in `rest`.  Two machine-level primitives are abstracted as
parameters, exactly as `canon`/`hash` were for the snapshot layer:

* `parseIso : String → Option Nat` stands for `datetime.fromisoformat` after
  the `Z → +00:00` rewrite, composed with the order embedding of `datetime`
  into `Nat` that sends `datetime.min` (the value used for missing and
  unparseable timestamps) to `0`, the least element;
* `serialise : SEntry → String` stands for
  `json.dumps({k: v for k, v in payload.items() if k != "__raw__"})`; it is
  applied to the entry with its `__raw__` field erased, so it cannot depend
  on the old `__raw__` value, mirroring the comprehension's filter.

Python's `sorted` is a stable sort by key; because the sort key built in
`_merge_sessions` ends with the per-entry insertion index, keys are pairwise
distinct and every correct sort returns the same list, so the model may use
`List.insertionSort` (which evaluates inside the kernel).  One totalisation:
Python's tuple comparison raises `TypeError` when one `session_id` is `None`
and the other a string (the program would crash); the model orders `none`
before every `some`, which is the only divergence and is never exercised by
a run that terminates. -/

/-- One session event, as read by `_merge_sessions`.  `typ` is the JSON key
`"type"`, `raw` the key `"__raw__"`, and `rest` carries all remaining keys
opaquely. -/
structure SEntry where
  session_id : Option String := none
  timestamp : Option String := none
  ts : Option String := none
  typ : Option String := none
  status : Option String := none
  summary : Option String := none
  raw : Option String := none
  rest : String := ""
deriving DecidableEq

/-- Python `a or b` on two optional strings (`entry.get("timestamp") or
entry.get("ts")`): `a` wins iff it is present and non-empty. -/
def orOpt (a b : Option String) : Option String :=
  match a with
  | some s => if s = "" then b else some s
  | none => b

/-- The dedup key built in `_merge_sessions`:
`(session_id, timestamp or ts, type or status, summary)`. -/
def sessionKey (e : SEntry) :
    Option String × Option String × Option String × Option String :=
  (e.session_id, orOpt e.timestamp e.ts, orOpt e.typ e.status, e.summary)

/-- One step of the dedup loop: the entry is appended iff its key is not
already present in the accumulated `combined` dict. -/
def dedupStep (acc : List SEntry) (e : SEntry) : List SEntry :=
  if acc.any (fun x => decide (sessionKey x = sessionKey e)) then acc
  else acc ++ [e]

/-- The `combined` dict of `_merge_sessions`, in insertion order (which is the
order of the stored `order` counter): the loop visits `new_entries` first,
then `old_entries`, keeping the first occurrence of every key. -/
def dedupEntries (new_entries old_entries : List SEntry) : List SEntry :=
  (new_entries ++ old_entries).foldl dedupStep []

/-- `_parse_timestamp` on a string-or-absent value, with datetimes embedded
into `Nat` (order-preserving, `datetime.min ↦ 0`): `None` and blank strings
map to `datetime.min`; a trailing `Z` is rewritten to `+00:00`; an
unparseable string also maps to `datetime.min`. -/
def parseTimestamp (parseIso : String → Option Nat) : Option String → Nat
  | none => 0
  | some s =>
    let candidate := s.trim
    if candidate = "" then 0
    else
      let candidate :=
        if candidate.endsWith "Z" then candidate.dropRight 1 ++ "+00:00"
        else candidate
      (parseIso candidate).getD 0

/-- The timestamp component of the sort key:
`_parse_timestamp(payload.get("timestamp") or payload.get("ts"))`. -/
def entryTs (parseIso : String → Option Nat) (e : SEntry) : Nat :=
  parseTimestamp parseIso (orOpt e.timestamp e.ts)

/-- Strict order on optional strings used when Python compares two
`session_id` values inside a sort-key tuple.  `none` is placed before every
string; Python would raise `TypeError` on such a mixed comparison, so this
totalisation only fills in cases where the source program crashes. -/
def sidLt : Option String → Option String → Bool
  | none, some _ => true
  | none, none => false
  | some _, none => false
  | some a, some b => strLt a b

/-- Comparison of the tails `(session_id, order_index)` of two sort keys,
reached when the parsed timestamps tie. -/
def tieLe (a b : Option String × Nat) : Bool :=
  if sidLt a.1 b.1 then true
  else if sidLt b.1 a.1 then false
  else a.2 ≤ b.2

/-- Tuple comparison of the sort keys
`(_parse_timestamp(ts), payload.get("session_id"), index)` of two indexed
entries, as Python's `sorted(..., key=sort_key)` compares them. -/
def mergeLe (parseIso : String → Option Nat) (a b : Nat × SEntry) : Bool :=
  if entryTs parseIso a.2 < entryTs parseIso b.2 then true
  else if entryTs parseIso b.2 < entryTs parseIso a.2 then false
  else tieLe (a.2.session_id, a.1) (b.2.session_id, b.1)

/-- The `sorted_entries` list of `_merge_sessions`: the deduplicated entries,
paired with their insertion index (`List.enum`), sorted by `mergeLe`. -/
def sortedPairs (parseIso : String → Option Nat)
    (old_entries new_entries : List SEntry) : List (Nat × SEntry) :=
  List.insertionSort (fun a b => mergeLe parseIso a b = true)
    ((dedupEntries new_entries old_entries).enum)

/-- The entry with its `__raw__` key removed, as in the dict comprehension
`{k: v for k, v in payload.items() if k != "__raw__"}`. -/
def eraseRaw (e : SEntry) : SEntry := { e with raw := none }

/-- The final per-entry rewrite of `_merge_sessions`:
`payload["__raw__"] = json.dumps(payload minus "__raw__")`. -/
def rewriteRaw (serialise : SEntry → String) (e : SEntry) : SEntry :=
  { e with raw := some (serialise (eraseRaw e)) }

/-- `_merge_sessions(old_entries, new_entries)`. -/
def mergeSessions (serialise : SEntry → String)
    (parseIso : String → Option Nat)
    (old_entries new_entries : List SEntry) : List SEntry :=
  (sortedPairs parseIso old_entries new_entries).map
    (fun p => rewriteRaw serialise p.2)

/-- Lexicographic strict order on full dedup keys, component-wise by `sidLt`.
Used only by `mergeSessionsSpecTiebreak` below. -/
def keyLt (k l : Option String × Option String × Option String × Option String) :
    Bool :=
  if sidLt k.1 l.1 then true
  else if sidLt l.1 k.1 then false
  else if sidLt k.2.1 l.2.1 then true
  else if sidLt l.2.1 k.2.1 then false
  else if sidLt k.2.2.1 l.2.2.1 then true
  else if sidLt l.2.2.1 k.2.2.1 then false
  else sidLt k.2.2.2 l.2.2.2

/-- Worded from the SPEC, not from the source (for comparison only): the
spec's sort order, "sorted by parsed timestamp ascending ... with
composite-key as a stable tiebreaker": timestamp first, then the full dedup
key, then insertion order (stability). -/
def specTieLe (parseIso : String → Option Nat) (a b : Nat × SEntry) : Bool :=
  if entryTs parseIso a.2 < entryTs parseIso b.2 then true
  else if entryTs parseIso b.2 < entryTs parseIso a.2 then false
  else if keyLt (sessionKey a.2) (sessionKey b.2) then true
  else if keyLt (sessionKey b.2) (sessionKey a.2) then false
  else a.1 ≤ b.1

/-- Worded from the SPEC, not from the source (for comparison only): the
session merge as the spec describes it, with the composite key as the
tiebreaker among equal timestamps. -/
def mergeSessionsSpecTiebreak (serialise : SEntry → String)
    (parseIso : String → Option Nat)
    (old_entries new_entries : List SEntry) : List SEntry :=
  (List.insertionSort (fun a b => specTieLe parseIso a b = true)
      ((dedupEntries new_entries old_entries).enum)).map
    (fun p => rewriteRaw serialise p.2)

/-- `charListLt` is transitive. -/
theorem charListLt_trans : ∀ {a b c : List Char},
    charListLt a b = true → charListLt b c = true → charListLt a c = true := by
  intro a
  induction a with
  | nil =>
    intro b c h1 h2
    cases b with
    | nil => simp [charListLt] at h1
    | cons d ds =>
      cases c with
      | nil => simp [charListLt] at h2
      | cons e es => simp [charListLt]
  | cons x xs ih =>
    intro b c h1 h2
    cases b with
    | nil => simp [charListLt] at h1
    | cons d ds =>
      cases c with
      | nil => simp [charListLt] at h2
      | cons e es =>
        simp only [charListLt] at h1 h2 ⊢
        rcases lt_trichotomy x d with hxd | hxd | hxd
        · rcases lt_trichotomy d e with hde | hde | hde
          · rw [if_pos (lt_trans hxd hde)]
          · subst hde
            rw [if_pos hxd]
          · rw [if_neg (lt_asymm hde), if_pos hde] at h2
            exact absurd h2 (by decide)
        · subst hxd
          rw [if_neg (lt_irrefl x), if_neg (lt_irrefl x)] at h1
          rcases lt_trichotomy x e with hxe | hxe | hxe
          · rw [if_pos hxe]
          · subst hxe
            rw [if_neg (lt_irrefl x), if_neg (lt_irrefl x)] at h2 ⊢
            exact ih h1 h2
          · rw [if_neg (lt_asymm hxe), if_pos hxe] at h2
            exact absurd h2 (by decide)
        · rw [if_neg (lt_asymm hxd), if_pos hxd] at h1
          exact absurd h1 (by decide)

/-- `charListLt` is irreflexive. -/
theorem charListLt_irrefl : ∀ (a : List Char), charListLt a a = false := by
  intro a
  induction a with
  | nil => rfl
  | cons x xs ih =>
    simp only [charListLt]
    rw [if_neg (lt_irrefl x), if_neg (lt_irrefl x)]
    exact ih

/-- Lists that are each not below the other under `charListLt` are equal. -/
theorem charListLt_conn : ∀ {a b : List Char},
    charListLt a b = false → charListLt b a = false → a = b := by
  intro a
  induction a with
  | nil =>
    intro b h1 h2
    cases b with
    | nil => rfl
    | cons d ds => simp [charListLt] at h1
  | cons x xs ih =>
    intro b h1 h2
    cases b with
    | nil => simp [charListLt] at h2
    | cons d ds =>
      simp only [charListLt] at h1 h2
      rcases lt_trichotomy x d with hxd | hxd | hxd
      · rw [if_pos hxd] at h1
        exact absurd h1 (by decide)
      · subst hxd
        rw [if_neg (lt_irrefl x), if_neg (lt_irrefl x)] at h1 h2
        exact congrArg (List.cons x) (ih h1 h2)
      · rw [if_neg (lt_asymm hxd), if_pos hxd] at h2
        exact absurd h2 (by decide)

/-- `strLt` is transitive. -/
theorem strLt_trans {a b c : String} (h1 : strLt a b = true)
    (h2 : strLt b c = true) : strLt a c = true :=
  charListLt_trans h1 h2

/-- `strLt` is irreflexive. -/
theorem strLt_irrefl (a : String) : strLt a a = false :=
  charListLt_irrefl a.data

/-- Strings that are each not below the other under `strLt` are equal. -/
theorem strLt_conn {a b : String} (h1 : strLt a b = false)
    (h2 : strLt b a = false) : a = b := by
  cases a with
  | mk la =>
    cases b with
    | mk lb => exact congrArg String.mk (charListLt_conn h1 h2)

/-- `sidLt` is transitive. -/
theorem sidLt_trans : ∀ {a b c : Option String},
    sidLt a b = true → sidLt b c = true → sidLt a c = true := by
  intro a b c h1 h2
  cases a <;> cases b <;> cases c <;>
    simp only [sidLt] at h1 h2 ⊢ <;>
    first
      | rfl
      | exact absurd h1 (by decide)
      | exact absurd h2 (by decide)
      | exact strLt_trans h1 h2

/-- `sidLt` is irreflexive. -/
theorem sidLt_irrefl : ∀ (a : Option String), sidLt a a = false := by
  intro a
  cases a with
  | none => rfl
  | some s => exact strLt_irrefl s

/-- Optional strings that are each not below the other under `sidLt` are
equal. -/
theorem sidLt_conn : ∀ {a b : Option String},
    sidLt a b = false → sidLt b a = false → a = b := by
  intro a b h1 h2
  cases a <;> cases b <;>
    simp only [sidLt] at h1 h2 <;>
    first
      | rfl
      | exact absurd h1 (by decide)
      | exact absurd h2 (by decide)
      | exact congrArg some (strLt_conn h1 h2)

/-- `tieLe` is transitive. -/
theorem tieLe_trans : ∀ (a b c : Option String × Nat),
    tieLe a b = true → tieLe b c = true → tieLe a c = true := by
  intro a b c h1 h2
  simp only [tieLe] at h1 h2 ⊢
  by_cases hab : sidLt a.1 b.1 = true
  · by_cases hbc : sidLt b.1 c.1 = true
    · rw [if_pos (sidLt_trans hab hbc)]
    · by_cases hcb : sidLt c.1 b.1 = true
      · rw [if_neg hbc, if_pos hcb] at h2
        exact absurd h2 (by decide)
      · have hbceq : b.1 = c.1 :=
          sidLt_conn (by rwa [Bool.not_eq_true] at hbc)
            (by rwa [Bool.not_eq_true] at hcb)
        rw [← hbceq, if_pos hab]
  · by_cases hba : sidLt b.1 a.1 = true
    · rw [if_neg hab, if_pos hba] at h1
      exact absurd h1 (by decide)
    · have habeq : a.1 = b.1 :=
        sidLt_conn (by rwa [Bool.not_eq_true] at hab)
          (by rwa [Bool.not_eq_true] at hba)
      rw [if_neg hab, if_neg hba] at h1
      by_cases hbc : sidLt b.1 c.1 = true
      · rw [habeq, if_pos hbc]
      · by_cases hcb : sidLt c.1 b.1 = true
        · rw [if_neg hbc, if_pos hcb] at h2
          exact absurd h2 (by decide)
        · rw [if_neg hbc, if_neg hcb] at h2
          rw [habeq, if_neg hbc, if_neg hcb]
          exact decide_eq_true
            (Nat.le_trans (of_decide_eq_true h1) (of_decide_eq_true h2))

/-- `tieLe` is total. -/
theorem tieLe_total : ∀ (a b : Option String × Nat),
    tieLe a b = true ∨ tieLe b a = true := by
  intro a b
  simp only [tieLe]
  by_cases hab : sidLt a.1 b.1 = true
  · exact Or.inl (by rw [if_pos hab])
  · by_cases hba : sidLt b.1 a.1 = true
    · exact Or.inr (by rw [if_pos hba])
    · rcases Nat.le_total a.2 b.2 with h | h
      · exact Or.inl (by rw [if_neg hab, if_neg hba]; exact decide_eq_true h)
      · exact Or.inr (by rw [if_neg hba, if_neg hab]; exact decide_eq_true h)

/-- `mergeLe` is transitive. -/
theorem mergeLe_trans (parseIso : String → Option Nat) :
    ∀ (a b c : Nat × SEntry), mergeLe parseIso a b = true →
      mergeLe parseIso b c = true → mergeLe parseIso a c = true := by
  intro a b c h1 h2
  simp only [mergeLe] at h1 h2 ⊢
  rcases Nat.lt_trichotomy (entryTs parseIso a.2) (entryTs parseIso b.2) with
    hab | hab | hab
  · rcases Nat.lt_trichotomy (entryTs parseIso b.2) (entryTs parseIso c.2) with
      hbc | hbc | hbc
    · rw [if_pos (Nat.lt_trans hab hbc)]
    · rw [← hbc, if_pos hab]
    · rw [if_neg (Nat.lt_asymm hbc), if_pos hbc] at h2
      exact absurd h2 (by decide)
  · rw [if_neg (by omega), if_neg (by omega)] at h1
    rcases Nat.lt_trichotomy (entryTs parseIso b.2) (entryTs parseIso c.2) with
      hbc | hbc | hbc
    · rw [hab, if_pos hbc]
    · rw [if_neg (by omega), if_neg (by omega)] at h2
      rw [if_neg (by omega), if_neg (by omega)]
      exact tieLe_trans _ _ _ h1 h2
    · rw [if_neg (Nat.lt_asymm hbc), if_pos hbc] at h2
      exact absurd h2 (by decide)
  · rw [if_neg (Nat.lt_asymm hab), if_pos hab] at h1
    exact absurd h1 (by decide)

/-- `mergeLe` is total. -/
theorem mergeLe_total (parseIso : String → Option Nat) :
    ∀ (a b : Nat × SEntry),
      mergeLe parseIso a b = true ∨ mergeLe parseIso b a = true := by
  intro a b
  simp only [mergeLe]
  rcases Nat.lt_trichotomy (entryTs parseIso a.2) (entryTs parseIso b.2) with
    hab | hab | hab
  · exact Or.inl (by rw [if_pos hab])
  · rcases tieLe_total (a.2.session_id, a.1) (b.2.session_id, b.1) with h | h
    · refine Or.inl ?_
      rw [if_neg (by omega), if_neg (by omega)]
      exact h
    · refine Or.inr ?_
      rw [if_neg (by omega), if_neg (by omega)]
      exact h
  · exact Or.inr (by rw [if_pos hab])

/-- The order on entries observable from a sorted output (ignoring the
insertion index): strictly earlier parsed timestamp, or equal timestamps and
`session_id` not later. -/
def obsLe (parseIso : String → Option Nat) (a b : SEntry) : Prop :=
  entryTs parseIso a < entryTs parseIso b ∨
    (entryTs parseIso a = entryTs parseIso b ∧
      (sidLt a.session_id b.session_id = true ∨ a.session_id = b.session_id))

/-- An indexed pair below another under `mergeLe` is below it in the
observable order on the underlying entries. -/
theorem mergeLe_obs (parseIso : String → Option Nat) (x y : Nat × SEntry)
    (h : mergeLe parseIso x y = true) : obsLe parseIso x.2 y.2 := by
  simp only [mergeLe, tieLe] at h
  by_cases h1 : entryTs parseIso x.2 < entryTs parseIso y.2
  · exact Or.inl h1
  · rw [if_neg h1] at h
    by_cases h2 : entryTs parseIso y.2 < entryTs parseIso x.2
    · rw [if_pos h2] at h
      exact absurd h (by decide)
    · rw [if_neg h2] at h
      refine Or.inr ⟨by omega, ?_⟩
      by_cases h3 : sidLt x.2.session_id y.2.session_id = true
      · exact Or.inl h3
      · rw [if_neg h3] at h
        by_cases h4 : sidLt y.2.session_id x.2.session_id = true
        · rw [if_pos h4] at h
          exact absurd h (by decide)
        · exact Or.inr (sidLt_conn (by rwa [Bool.not_eq_true] at h3)
            (by rwa [Bool.not_eq_true] at h4))

/-- When both the parsed timestamps and the `session_id` fields tie,
`mergeLe` together with distinctness of the indices forces a strictly
smaller insertion index. -/
theorem mergeLe_tied_index (parseIso : String → Option Nat)
    (x y : Nat × SEntry) (h : mergeLe parseIso x y = true) (hne : x.1 ≠ y.1)
    (hts : entryTs parseIso x.2 = entryTs parseIso y.2)
    (hsid : x.2.session_id = y.2.session_id) : x.1 < y.1 := by
  simp only [mergeLe, tieLe] at h
  rw [if_neg (by omega), if_neg (by omega), hsid, if_neg (by
    rw [sidLt_irrefl]
    exact Bool.false_ne_true), if_neg (by
    rw [sidLt_irrefl]
    exact Bool.false_ne_true)] at h
  exact Nat.lt_of_le_of_ne (of_decide_eq_true h) hne

/-- One `dedupStep` preserves distinctness of the stored dedup keys. -/
theorem dedupStep_keys_nodup {acc : List SEntry} (e : SEntry)
    (h : (acc.map sessionKey).Nodup) :
    ((dedupStep acc e).map sessionKey).Nodup := by
  unfold dedupStep
  by_cases hany : acc.any (fun x => decide (sessionKey x = sessionKey e)) = true
  · rw [if_pos hany]
    exact h
  · rw [if_neg hany]
    rw [List.map_append]
    rw [List.nodup_append]
    refine ⟨h, by simp, ?_⟩
    intro k hk hk1
    have hke : k = sessionKey e := by simpa using hk1
    rcases List.mem_map.mp hk with ⟨x, hx, hkx⟩
    have hf : acc.any (fun x => decide (sessionKey x = sessionKey e)) = false :=
      by rwa [Bool.not_eq_true] at hany
    have := List.any_eq_false.mp hf x hx
    simp only [decide_eq_true_eq] at this
    exact this (hkx.trans hke)

/-- The dedup fold keeps the stored dedup keys pairwise distinct. -/
theorem dedup_keys_aux : ∀ (l acc : List SEntry),
    (acc.map sessionKey).Nodup →
    (((l.foldl dedupStep acc)).map sessionKey).Nodup := by
  intro l
  induction l with
  | nil => intro acc h; exact h
  | cons x xs ih =>
    intro acc h
    exact ih (dedupStep acc x) (dedupStep_keys_nodup x h)

/-- The dedup keys of `combined` are pairwise distinct. -/
theorem dedupEntries_keys_nodup (new_entries old_entries : List SEntry) :
    ((dedupEntries new_entries old_entries).map sessionKey).Nodup :=
  dedup_keys_aux (new_entries ++ old_entries) [] (by simp)

/-- Every entry produced by the dedup fold either was already in the
accumulator, or is the first occurrence of its key in the remaining input and
its key is absent from the accumulator. -/
theorem dedup_rep_aux : ∀ (l acc : List SEntry) (e : SEntry),
    e ∈ l.foldl dedupStep acc →
    e ∈ acc ∨
      (l.find? (fun x => decide (sessionKey x = sessionKey e)) = some e ∧
        ∀ a ∈ acc, sessionKey a ≠ sessionKey e) := by
  intro l
  induction l with
  | nil =>
    intro acc e h
    exact Or.inl h
  | cons x xs ih =>
    intro acc e h
    rcases ih (dedupStep acc x) e h with hmem | ⟨hfind, hnot⟩
    · unfold dedupStep at hmem
      by_cases hany : acc.any (fun y => decide (sessionKey y = sessionKey x)) = true
      · rw [if_pos hany] at hmem
        exact Or.inl hmem
      · rw [if_neg hany] at hmem
        rcases List.mem_append.mp hmem with h1 | h1
        · exact Or.inl h1
        · have hex : e = x := by simpa using h1
          subst hex
          refine Or.inr ⟨List.find?_cons_of_pos _ (by simp), ?_⟩
          intro a ha heq
          have hf : acc.any (fun y => decide (sessionKey y = sessionKey e)) = false :=
            by rwa [Bool.not_eq_true] at hany
          have := List.any_eq_false.mp hf a ha
          simp only [decide_eq_true_eq] at this
          exact this heq
    · refine Or.inr ⟨?_, ?_⟩
      · have hx : sessionKey x ≠ sessionKey e := by
          by_cases hany : acc.any (fun y => decide (sessionKey y = sessionKey x)) = true
          · rcases List.any_eq_true.mp hany with ⟨y, hy, hyx⟩
            have hya : y ∈ dedupStep acc x := by
              unfold dedupStep
              rw [if_pos hany]
              exact hy
            intro hxe
            exact hnot y hya (by
              rw [of_decide_eq_true hyx, hxe])
          · refine hnot x ?_
            unfold dedupStep
            rw [if_neg hany]
            exact List.mem_append_right _ (by simp)
        rw [List.find?_cons_of_neg _ (by simpa using hx)]
        exact hfind
      · intro a ha
        refine hnot a ?_
        unfold dedupStep
        by_cases hany : acc.any (fun y => decide (sessionKey y = sessionKey x)) = true
        · rw [if_pos hany]
          exact ha
        · rw [if_neg hany]
          exact List.mem_append_left _ ha

/-- Every entry of `combined` is the FIRST occurrence of its dedup key in
`new_entries ++ old_entries`: first occurrence wins, and the new list's
variant takes priority over the old list's. -/
theorem dedupEntries_rep (new_entries old_entries : List SEntry) (e : SEntry)
    (h : e ∈ dedupEntries new_entries old_entries) :
    (new_entries ++ old_entries).find?
      (fun x => decide (sessionKey x = sessionKey e)) = some e := by
  unfold dedupEntries at h
  rcases dedup_rep_aux (new_entries ++ old_entries) [] e h with h0 | ⟨hf, _⟩
  · exact absurd h0 (by simp)
  · exact hf

/-- Rewriting `__raw__` changes neither the timestamps nor the `session_id`,
so it preserves the observable order. -/
theorem obs_rewriteRaw (parseIso : String → Option Nat)
    (serialise : SEntry → String) {a b : SEntry}
    (h : obsLe parseIso a b) :
    obsLe parseIso (rewriteRaw serialise a) (rewriteRaw serialise b) := h

/-- C7 (counterexample to the claim as stated): two events with equal (absent)
timestamps and equal (absent) session ids but different summaries — so
different composite keys — are NOT ordered by the composite key.  The code
keeps their insertion order (summary `"b"` first), while the spec's
composite-key tiebreak would put summary `"a"` first, so the spec-worded
merge and the code's merge disagree on this input. -/
theorem C7_counterexample :
    ((mergeSessions (fun _ => "") (fun _ => none) []
        [{ summary := some "b" }, { summary := some "a" }]).map SEntry.summary =
      [some "b", some "a"]) ∧
    ((mergeSessionsSpecTiebreak (fun _ => "") (fun _ => none) []
        [{ summary := some "b" }, { summary := some "a" }]).map SEntry.summary =
      [some "a", some "b"]) ∧
    ¬(mergeSessions (fun _ => "") (fun _ => none) []
        [{ summary := some "b" }, { summary := some "a" }] =
      mergeSessionsSpecTiebreak (fun _ => "") (fun _ => none) []
        [{ summary := some "b" }, { summary := some "a" }]) := by
  decide

/-- C7 (amended): `_merge_sessions` deduplicates by the composite key with
first occurrence winning and the new list's entries taking priority (every
output entry is the raw-rewrite of the FIRST entry of `new ++ old` bearing
its key, and output keys are pairwise distinct), and the output is sorted by
parsed timestamp ascending — missing/unparseable timestamps first as the
minimum instant — with ties broken by the `session_id` field and then by
insertion order of the deduplicated set, NOT by the full composite key. -/
theorem C7_dedup_and_sort (serialise : SEntry → String)
    (parseIso : String → Option Nat)
    (old_entries new_entries : List SEntry) :
    ((mergeSessions serialise parseIso old_entries new_entries).map
        sessionKey).Nodup ∧
    (∀ e ∈ mergeSessions serialise parseIso old_entries new_entries,
      ∃ e0, (new_entries ++ old_entries).find?
          (fun x => decide (sessionKey x = sessionKey e)) = some e0 ∧
        e = rewriteRaw serialise e0) ∧
    (mergeSessions serialise parseIso old_entries new_entries).Pairwise
      (obsLe parseIso) ∧
    (sortedPairs parseIso old_entries new_entries).Pairwise
      (fun a b => entryTs parseIso a.2 = entryTs parseIso b.2 →
        a.2.session_id = b.2.session_id → a.1 < b.1) := by
  haveI : IsTotal (Nat × SEntry) (fun a b => mergeLe parseIso a b = true) :=
    ⟨mergeLe_total parseIso⟩
  haveI : IsTrans (Nat × SEntry) (fun a b => mergeLe parseIso a b = true) :=
    ⟨mergeLe_trans parseIso⟩
  have hsorted : (sortedPairs parseIso old_entries new_entries).Pairwise
      (fun a b => mergeLe parseIso a b = true) :=
    List.sorted_insertionSort _ _
  have hperm : (sortedPairs parseIso old_entries new_entries).Perm
      ((dedupEntries new_entries old_entries).enum) :=
    List.perm_insertionSort _ _
  have hfstnd : ((sortedPairs parseIso old_entries new_entries).map
      Prod.fst).Nodup := by
    refine (hperm.map Prod.fst).symm.nodup ?_
    rw [List.enum_map_fst]
    exact List.nodup_range _
  refine ⟨?_, ?_, ?_, ?_⟩
  · have h1 : (mergeSessions serialise parseIso old_entries new_entries).map
        sessionKey =
        (sortedPairs parseIso old_entries new_entries).map
          (fun p => sessionKey p.2) := by
      unfold mergeSessions
      rw [List.map_map]
      rfl
    rw [h1]
    have h2 : ((sortedPairs parseIso old_entries new_entries).map
        (fun p => sessionKey p.2)).Perm
        ((dedupEntries new_entries old_entries).map sessionKey) := by
      have h3 := hperm.map (fun p : Nat × SEntry => sessionKey p.2)
      rw [show (List.map (fun p : Nat × SEntry => sessionKey p.2)
            ((dedupEntries new_entries old_entries).enum)) =
          (dedupEntries new_entries old_entries).map sessionKey by
        rw [show (fun p : Nat × SEntry => sessionKey p.2) =
            (sessionKey ∘ Prod.snd) from rfl]
        rw [← List.map_map, List.enum_map_snd]] at h3
      exact h3
    exact h2.symm.nodup (dedupEntries_keys_nodup _ _)
  · intro e he
    obtain ⟨p, hp, hpe⟩ := List.mem_map.mp he
    have hpd : p.2 ∈ dedupEntries new_entries old_entries := by
      have h3 : p ∈ (dedupEntries new_entries old_entries).enum :=
        hperm.mem_iff.mp hp
      have h4 := List.mem_map_of_mem Prod.snd h3
      rwa [List.enum_map_snd] at h4
    subst hpe
    exact ⟨p.2, dedupEntries_rep new_entries old_entries p.2 hpd, rfl⟩
  · unfold mergeSessions
    exact List.Pairwise.map _
      (fun a b hab =>
        obs_rewriteRaw parseIso serialise (mergeLe_obs parseIso a b hab))
      hsorted
  · have hne : (sortedPairs parseIso old_entries new_entries).Pairwise
        (fun a b => a.1 ≠ b.1) :=
      List.pairwise_map.mp hfstnd
    exact (hsorted.and hne).imp
      (fun {a b} h hts hsid => mergeLe_tied_index parseIso a b h.1 h.2 hts hsid)

/-- Witness for the amended C7 at a concrete input: one new entry, empty old
list. -/
theorem C7_dedup_and_sort_witness :
    ((mergeSessions (fun _ => "") (fun _ => none) []
        [{ summary := some "a" }]).map sessionKey).Nodup ∧
    (∀ e ∈ mergeSessions (fun _ => "") (fun _ => none) []
        [{ summary := some "a" }],
      ∃ e0, ([({ summary := some "a" } : SEntry)] ++ []).find?
          (fun x => decide (sessionKey x = sessionKey e)) = some e0 ∧
        e = rewriteRaw (fun _ => "") e0) ∧
    (mergeSessions (fun _ => "") (fun _ => none) []
        [{ summary := some "a" }]).Pairwise (obsLe (fun _ => none)) ∧
    (sortedPairs (fun _ => none) [] [{ summary := some "a" }]).Pairwise
      (fun a b => entryTs (fun _ => none) a.2 = entryTs (fun _ => none) b.2 →
        a.2.session_id = b.2.session_id → a.1 < b.1) :=
  C7_dedup_and_sort (fun _ => "") (fun _ => none) [] [{ summary := some "a" }]

/-! ### Context merge (`_merge_project_context`, `_merge_master_context`,
`_should_replace`) — claim C8

JSON values are modelled by `JVal`; a JSON object is an association list in
insertion order (`JObj`), mirroring Python dict semantics: lookup takes the
first (only) binding, assignment updates in place, `setdefault` appends at
the end.  Python numbers are modelled by `Int` (the merge only ever compares
them with `0`, `None` and `""`, so the int/float distinction is
irrelevant), and `bool` is kept separate but compared as Python does
(`False == 0`, so a stored `False` counts as zero in `_should_replace`).
Paths on which the source raises (`.get`, item assignment or key iteration
on a non-dict, stamping markers into a non-dict `metadata`) return `none`.
One caveat: Python list-membership dedup (`item not in existing_items`)
equates `True == 1` across types; `jvalBeq` keeps booleans and numbers
distinct, which only matters for arrays that mix the two spellings of the
same value — no theorem below touches such an input. -/

inductive JVal where
  | null : JVal
  | b : Bool → JVal
  | i : Int → JVal
  | s : String → JVal
  | arr : List JVal → JVal
  | obj : List (String × JVal) → JVal

/-- A JSON object: fields in insertion order. -/
abbrev JObj := List (String × JVal)

mutual

/-- Python `==` on JSON values (up to the `True == 1` caveat above). -/
def jvalBeq : JVal → JVal → Bool
  | .null, .null => true
  | .b a, .b c => a == c
  | .i a, .i c => a == c
  | .s a, .s c => a == c
  | .arr a, .arr c => jvalBeqL a c
  | .obj a, .obj c => jvalBeqF a c
  | _, _ => false

/-- Elementwise `jvalBeq` on arrays. -/
def jvalBeqL : List JVal → List JVal → Bool
  | [], [] => true
  | x :: xs, y :: ys => jvalBeq x y && jvalBeqL xs ys
  | _, _ => false

/-- Fieldwise `jvalBeq` on objects. -/
def jvalBeqF : List (String × JVal) → List (String × JVal) → Bool
  | [], [] => true
  | (k1, v1) :: xs, (k2, v2) :: ys => k1 == k2 && jvalBeq v1 v2 && jvalBeqF xs ys
  | _, _ => false

end

/-- `d.get(k)`: the first binding of `k`, if any. -/
def jGet (fs : JObj) (k : String) : Option JVal :=
  (fs.find? (fun p => decide (p.1 = k))).map (fun p => p.2)

/-- `d.get(k)` collapsed to a value: Python returns `None` both for an
absent key and for a stored `None`, and the merge never distinguishes the
two. -/
def getOr (fs : JObj) (k : String) : JVal :=
  (jGet fs k).getD .null

/-- `k in d` on a dict. -/
def hasKey (fs : JObj) (k : String) : Bool :=
  (jGet fs k).isSome

/-- `d[k] = v`: replaces the first binding of `k` in place, appends when the
key is absent. -/
def jSet : JObj → String → JVal → JObj
  | [], k, v => [(k, v)]
  | (k', v') :: fs, k, v =>
    if k' = k then (k', v) :: fs else (k', v') :: jSet fs k v

/-- Python truthiness of a JSON value. -/
def truthy : JVal → Bool
  | .null => false
  | .b v => v
  | .i n => decide (n ≠ 0)
  | .s v => decide (v ≠ "")
  | .arr xs => !xs.isEmpty
  | .obj fs => !fs.isEmpty

/-- `not current.strip()`: the string has no non-whitespace character. -/
def strBlank (s : String) : Bool :=
  s.data.all (fun c => c.isWhitespace)

/-- `incoming in (None, "")`: Python `==` against `None` and `""`. -/
def isNullOrEmptyStr : JVal → Bool
  | .null => true
  | .s v => v == ""
  | _ => false

/-- `_should_replace(current, incoming)`.  The `isinstance` chain checks
`str`, then `list`/`dict`, then `int`/`float`; Python's `bool` is an `int`
subtype, so a stored boolean lands in the numeric branch where
`False == 0`. -/
def shouldReplace (current incoming : JVal) : Bool :=
  match incoming with
  | .null => false
  | _ =>
    match current with
    | .null => true
    | .s c => strBlank c && truthy incoming
    | .arr xs => xs.isEmpty && truthy incoming
    | .obj fs => fs.isEmpty && truthy incoming
    | .i n => (n == 0) && !(isNullOrEmptyStr incoming)
    | .b v => (v == false) && !(isNullOrEmptyStr incoming)

/-- One step of the list-union loop in `deep_merge`:
`if item not in existing_items: existing_items.append(item)`. -/
def arrExtend (acc : List JVal) (it : JVal) : List JVal :=
  if acc.any (fun x => jvalBeq x it) then acc else acc ++ [it]

mutual

/-- The `deep_merge(target, incoming)` loop of `_merge_master_context`:
processes the bindings of `incoming` in order, threading the mutated
`target`; `none` when the source would raise. -/
def deepMerge : JObj → JObj → Option JObj
  | target, [] => some target
  | target, (k, v) :: rest =>
    match mergeOne target k v with
    | none => none
    | some t' => deepMerge t' rest

/-- One iteration of `deep_merge` for the binding `(k, v)` of `incoming`:

* `v` a dict: when `target[k]` is a dict (possibly empty),
  `node or target.get(key, {})` leaves it in place and the merge recurses
  into it; when `k` is absent, a fresh `{}` is appended and populated; when
  `target[k]` is any non-dict, the recursive call receives a non-dict and
  raises (`none`);
* `v` a list: a falsy existing value (or absent key) is overwritten; an
  existing list is extended with the unseen items; a truthy non-list is
  left alone;
* `v` a scalar: `_should_replace` decides an in-place overwrite. -/
def mergeOne (target : JObj) (k : String) : JVal → Option JObj
  | .obj vfs =>
    match jGet target k with
    | some (.obj tfs) => (deepMerge tfs vfs).map (fun m => jSet target k (.obj m))
    | none => (deepMerge [] vfs).map (fun m => jSet target k (.obj m))
    | some _ => none
  | .arr vitems =>
    match jGet target k with
    | none => some (jSet target k (.arr vitems))
    | some existing =>
      if truthy existing = false then some (jSet target k (.arr vitems))
      else
        match existing with
        | .arr eitems => some (jSet target k (.arr (vitems.foldl arrExtend eitems)))
        | _ => some target
  | v => if shouldReplace (getOr target k) v then some (jSet target k v) else some target

end

mutual

/-- Dict keys are pairwise distinct at every nesting level reached through
object values — true of every document decoded from JSON, since Python
dicts cannot hold duplicate keys. -/
def recNodupF : List (String × JVal) → Bool
  | [] => true
  | (k, v) :: fs =>
    fs.all (fun p => !(decide (p.1 = k))) && recNodupV v && recNodupF fs

/-- Key distinctness inside one value: only object values constrain. -/
def recNodupV : JVal → Bool
  | .obj fs => recNodupF fs
  | _ => true

end

/-- The marker stamping shared by both merges:
`metadata = merged.setdefault("metadata", {})` followed by assigning
`migrated_at` and `source_version`; raises (`none`) when an existing
`metadata` value is not a dict. -/
def stampMarkers (m : JObj) (now : String) : Option JObj :=
  match jGet m "metadata" with
  | none =>
    some (m ++ [("metadata",
      .obj [("migrated_at", .s now), ("source_version", .s "cmos-v1")])])
  | some (.obj ms) =>
    some (jSet m "metadata"
      (.obj (jSet (jSet ms "migrated_at" (.s now)) "source_version"
        (.s "cmos-v1"))))
  | some _ => none

/-- `_merge_master_context(old, new)`, with `now` standing for
`datetime.utcnow().replace(tzinfo=timezone.utc).isoformat()`.
`deepcopy(new) if new else {}` is the identity on the functional model. -/
def mergeMasterContext (old new : JObj) (now : String) : Option JObj :=
  match deepMerge new old with
  | none => none
  | some m => stampMarkers m now

/-- Removes the two migration-marker fields from `metadata`, dropping the
`metadata` key entirely when nothing else is in it.  `stripMarkers B =
stripMarkers A` formalises "equal except for the marker fields". -/
def stripMarkers (fs : JObj) : JObj :=
  match jGet fs "metadata" with
  | some (.obj ms) =>
    if (ms.filter
        (fun p => !(p.1 == "migrated_at" || p.1 == "source_version"))).isEmpty then
      fs.filter (fun p => !(p.1 == "metadata"))
    else
      jSet fs "metadata"
        (.obj (ms.filter
          (fun p => !(p.1 == "migrated_at" || p.1 == "source_version"))))
  | _ => fs

/-- The top-level `metadata` key is absent or holds a dict (otherwise the
marker stamping raises). -/
def metaOk (fs : JObj) : Bool :=
  match jGet fs "metadata" with
  | none => true
  | some (.obj _) => true
  | some _ => false

/-- Membership `key in value` on a non-dict `technical_context` value:
substring test on a string, `==`-membership on a list, `TypeError`
(`none`) otherwise. -/
def nonDictHasKey : JVal → String → Option Bool
  | .s t, key => some (containsSub key t)
  | .arr xs, key => some (xs.any (fun x => jvalBeq x (.s key)))
  | _, _ => none

/-- The statement
`if old.get(key) and key not in technical_new: technical_new[key] = ...`
when `technical_new` is a non-dict `tn`: it survives (no state change) iff
the guard short-circuits or the membership test succeeds; a membership
`TypeError` or an item assignment on the non-dict raises (`none`). -/
def technicalSkip (tn : JVal) (old : JObj) (key : String) : Option Unit :=
  if truthy (getOr old key) then
    match nonDictHasKey tn key with
    | some true => some ()
    | _ => none
  else some ()

/-- `_merge_project_context(old, new)`, with `now` as in
`mergeMasterContext`.  Each `setdefault` of a scaffold key (`"project"`,
`"working_memory"`, `"technical_context"`, `"metadata"`) appends an empty
object when the key is absent; an existing non-dict value makes the
subsequent `.get` or item assignment raise (`none`), except for
`technical_context`, where the two guarded statements only touch the value
when their guard fires (`technicalSkip`). -/
def mergeProjectContext (old new : JObj) (now : String) : Option JObj :=
  let merged := new
  match jGet merged "project" with
  | some (.s _) => none
  | some (.b _) => none
  | some (.i _) => none
  | some (.arr _) => none
  | some .null => none
  | p0branch =>
    let p0 : JObj := match p0branch with
      | some (.obj fs) => fs
      | _ => []
    let merged1 : JObj := match p0branch with
      | some (.obj _) => merged
      | _ => merged ++ [("project", .obj [])]
    let p1 := if shouldReplace (getOr p0 "name") (getOr old "project_name") then
        jSet p0 "name" (getOr old "project_name") else p0
    let p2 := if shouldReplace (getOr p1 "version") (getOr old "version") then
        jSet p1 "version" (getOr old "version") else p1
    let p3 := if shouldReplace (getOr p2 "start_date") (getOr old "created") then
        jSet p2 "start_date" (getOr old "created") else p2
    let p4 := if shouldReplace (getOr p3 "status") (getOr old "status") then
        jSet p3 "status" (getOr old "status") else p3
    let merged2 := jSet merged1 "project" (.obj p4)
    let woldOpt : Option JObj := match jGet old "working_memory" with
      | none => some []
      | some (.obj w) => some w
      | some _ => none
    match woldOpt with
    | none => none
    | some wold =>
      match jGet merged2 "working_memory" with
      | some (.s _) => none
      | some (.b _) => none
      | some (.i _) => none
      | some (.arr _) => none
      | some .null => none
      | w0branch =>
        let wn0 : JObj := match w0branch with
          | some (.obj fs) => fs
          | _ => []
        let merged3 : JObj := match w0branch with
          | some (.obj _) => merged2
          | _ => merged2 ++ [("working_memory", .obj [])]
        let w1 := if shouldReplace (getOr wn0 "active_domain") (getOr wold "active_domain") then
            jSet wn0 "active_domain" (getOr wold "active_domain") else wn0
        let w2 := if shouldReplace (getOr w1 "session_count") (getOr wold "session_count") then
            jSet w1 "session_count" (getOr wold "session_count") else w1
        let w3 := if shouldReplace (getOr w2 "last_session") (getOr wold "last_session") then
            jSet w2 "last_session" (getOr wold "last_session") else w2
        let w4 := if shouldReplace (getOr w3 "active_mission") (getOr wold "active_mission") then
            jSet w3 "active_mission" (getOr wold "active_mission") else w3
        let w5 := if truthy (getOr wold "domains") then
            (if truthy (getOr w4 "domains") then w4
             else jSet w4 "domains" (getOr wold "domains"))
          else w4
        let w6 := if truthy (getOr old "domains") && !(truthy (getOr w5 "domains")) then
            jSet w5 "domains" (getOr old "domains") else w5
        let merged4 := jSet merged3 "working_memory" (.obj w6)
        let tstage : Option JObj := match jGet merged4 "technical_context" with
          | some (.obj t0) =>
            let t1 := if truthy (getOr old "mission_planning") && !(hasKey t0 "mission_planning") then
                jSet t0 "mission_planning" (getOr old "mission_planning") else t0
            let t2 := if truthy (getOr old "current_sprint") && !(hasKey t1 "current_sprint") then
                jSet t1 "current_sprint" (getOr old "current_sprint") else t1
            some (jSet merged4 "technical_context" (.obj t2))
          | none =>
            let t0 : JObj := []
            let merged4a := merged4 ++ [("technical_context", .obj [])]
            let t1 := if truthy (getOr old "mission_planning") && !(hasKey t0 "mission_planning") then
                jSet t0 "mission_planning" (getOr old "mission_planning") else t0
            let t2 := if truthy (getOr old "current_sprint") && !(hasKey t1 "current_sprint") then
                jSet t1 "current_sprint" (getOr old "current_sprint") else t1
            some (jSet merged4a "technical_context" (.obj t2))
          | some other =>
            match technicalSkip other old "mission_planning" with
            | none => none
            | some _ =>
              match technicalSkip other old "current_sprint" with
              | none => none
              | some _ => some merged4
        match tstage with
        | none => none
        | some merged5 =>
          let merged6 := if truthy (getOr old "ai_instructions") && !(hasKey merged5 "ai_instructions") then
              jSet merged5 "ai_instructions" (getOr old "ai_instructions") else merged5
          stampMarkers merged6 now

/-- C8 (counterexample to the claim as stated): merging the EMPTY project
document with itself is not the identity up to markers.
`_merge_project_context({}, {})` materialises the scaffold keys `project`,
`working_memory` and `technical_context` (all empty objects) in addition to
the metadata markers, so even after removing the marker fields the result
differs from the input. -/
theorem C8_counterexample :
    (mergeProjectContext [] [] "T" =
      some [("project", .obj []), ("working_memory", .obj []),
        ("technical_context", .obj []),
        ("metadata", .obj [("migrated_at", .s "T"),
          ("source_version", .s "cmos-v1")])]) ∧
    ((mergeProjectContext [] [] "T").map
        (fun B => (stripMarkers B).map Prod.fst) =
      some ["project", "working_memory", "technical_context"]) ∧
    ¬((mergeProjectContext [] [] "T").map
        (fun B => (stripMarkers B).map Prod.fst) =
      some ((stripMarkers []).map Prod.fst)) :=
  ⟨rfl, rfl, by decide⟩

/-- Overwriting a key with the value it already holds leaves the object
unchanged. -/
theorem jSet_self : ∀ {fs : JObj} {k : String} {v : JVal},
    jGet fs k = some v → jSet fs k v = fs := by
  intro fs
  induction fs with
  | nil =>
    intro k v h
    simp [jGet] at h
  | cons p rest ih =>
    intro k v h
    obtain ⟨k', v'⟩ := p
    by_cases hk : k' = k
    · subst hk
      unfold jGet at h
      rw [List.find?_cons_of_pos _ (by simp)] at h
      have hv : v' = v := by simpa using h
      rw [show jSet ((k', v') :: rest) k' v = (k', v) :: rest from by
        simp [jSet]]
      rw [hv]
    · have h' : jGet rest k = some v := by
        unfold jGet at h ⊢
        rw [List.find?_cons_of_neg _ (by simp [hk])] at h
        exact h
      rw [show jSet ((k', v') :: rest) k v = (k', v') :: jSet rest k v from by
        simp [jSet, hk]]
      rw [ih h']

/-- Lookup after assignment returns the assigned value. -/
theorem jGet_jSet_same : ∀ (fs : JObj) (k : String) (v : JVal),
    jGet (jSet fs k v) k = some v := by
  intro fs k v
  induction fs with
  | nil =>
    unfold jSet jGet
    rw [List.find?_cons_of_pos _ (by simp)]
    rfl
  | cons p rest ih =>
    obtain ⟨k', v'⟩ := p
    by_cases hk : k' = k
    · subst hk
      rw [show jSet ((k', v') :: rest) k' v = (k', v) :: rest from by
        simp [jSet]]
      unfold jGet
      rw [List.find?_cons_of_pos _ (by simp)]
      rfl
    · rw [show jSet ((k', v') :: rest) k v = (k', v') :: jSet rest k v from by
        simp [jSet, hk]]
      unfold jGet at ih ⊢
      rw [List.find?_cons_of_neg _ (by simp [hk])]
      exact ih

/-- Two successive assignments to the same key collapse to the second. -/
theorem jSet_jSet : ∀ (fs : JObj) (k : String) (v w : JVal),
    jSet (jSet fs k v) k w = jSet fs k w := by
  intro fs k v w
  induction fs with
  | nil => simp [jSet]
  | cons p rest ih =>
    obtain ⟨k', v'⟩ := p
    by_cases hk : k' = k
    · subst hk
      simp [jSet]
    · rw [show jSet ((k', v') :: rest) k v = (k', v') :: jSet rest k v from by
        simp [jSet, hk]]
      rw [show jSet ((k', v') :: jSet rest k v) k w =
          (k', v') :: jSet (jSet rest k v) k w from by simp [jSet, hk]]
      rw [show jSet ((k', v') :: rest) k w = (k', v') :: jSet rest k w from by
        simp [jSet, hk]]
      rw [ih]

/-- Assigning a key that the filter predicate rejects does not change the
filtered object. -/
theorem filter_jSet_pred_false : ∀ (fs : JObj) (k : String) (v : JVal)
    (pred : String × JVal → Bool), (∀ w, pred (k, w) = false) →
    (jSet fs k v).filter pred = fs.filter pred := by
  intro fs k v pred hpred
  induction fs with
  | nil =>
    unfold jSet
    rw [List.filter_cons]
    rw [hpred v]
    rfl
  | cons p rest ih =>
    obtain ⟨k', v'⟩ := p
    by_cases hk : k' = k
    · subst hk
      rw [show jSet ((k', v') :: rest) k' v = (k', v) :: rest from by
        simp [jSet]]
      rw [List.filter_cons, List.filter_cons, hpred v, hpred v']
      simp
    · rw [show jSet ((k', v') :: rest) k v = (k', v') :: jSet rest k v from by
        simp [jSet, hk]]
      rw [List.filter_cons, List.filter_cons, ih]

/-- Appending a binding for an absent key makes it the lookup result. -/
theorem jGet_append_absent {fs : JObj} {k : String} (v : JVal)
    (h : jGet fs k = none) : jGet (fs ++ [(k, v)]) k = some v := by
  unfold jGet at h ⊢
  have hfind : fs.find? (fun p => decide (p.1 = k)) = none := by
    cases hf : fs.find? (fun p => decide (p.1 = k)) with
    | none => rfl
    | some q => rw [hf] at h; simp at h
  rw [find?_append_or, hfind]
  rw [List.find?_cons_of_pos _ (by simp)]
  rfl

/-- A key absent from an object is rejected by no binding, so filtering on
"not that key" is the identity. -/
theorem filter_ne_key_of_absent {fs : JObj} {k : String}
    (h : jGet fs k = none) :
    fs.filter (fun p => !(p.1 == k)) = fs := by
  rw [List.filter_eq_self]
  intro p hp
  have hfind : fs.find? (fun q => decide (q.1 = k)) = none := by
    cases hf : fs.find? (fun q => decide (q.1 = k)) with
    | none => rfl
    | some q => unfold jGet at h; rw [hf] at h; simp at h
  have := List.find?_eq_none.mp hfind p hp
  simp only [decide_eq_true_eq] at this
  simp [this]

mutual

/-- `jvalBeq` is reflexive. -/
theorem jvalBeq_refl : ∀ (v : JVal), jvalBeq v v = true
  | .null => rfl
  | .b a => by simp [jvalBeq]
  | .i a => by simp [jvalBeq]
  | .s a => by simp [jvalBeq]
  | .arr xs => jvalBeqL_refl xs
  | .obj fs => jvalBeqF_refl fs

/-- `jvalBeqL` is reflexive. -/
theorem jvalBeqL_refl : ∀ (l : List JVal), jvalBeqL l l = true
  | [] => rfl
  | x :: xs => by
    show (jvalBeq x x && jvalBeqL xs xs) = true
    rw [jvalBeq_refl x, jvalBeqL_refl xs]
    rfl

/-- `jvalBeqF` is reflexive. -/
theorem jvalBeqF_refl : ∀ (l : List (String × JVal)), jvalBeqF l l = true
  | [] => rfl
  | (k, v) :: fs => by
    show (k == k && jvalBeq v v && jvalBeqF fs fs) = true
    rw [jvalBeq_refl v, jvalBeqF_refl fs]
    simp

end

/-- In an object with distinct keys, every binding is what lookup finds. -/
theorem jGet_mem_of_recNodup : ∀ {fs : JObj}, recNodupF fs = true →
    ∀ {p : String × JVal}, p ∈ fs → jGet fs p.1 = some p.2 := by
  intro fs
  induction fs with
  | nil =>
    intro _ p hp
    exact absurd hp (by simp)
  | cons q rest ih =>
    intro h p hp
    obtain ⟨k', v'⟩ := q
    have h' : (rest.all (fun p => !(decide (p.1 = k'))) = true ∧
        recNodupV v' = true) ∧ recNodupF rest = true := by
      simpa [recNodupF, Bool.and_eq_true] using h
    rcases List.mem_cons.mp hp with hph | hpt
    · subst hph
      unfold jGet
      rw [List.find?_cons_of_pos _ (by simp)]
      rfl
    · have hne : p.1 ≠ k' := by
        have := List.all_eq_true.mp h'.1.1 p hpt
        simpa using this
      unfold jGet
      rw [List.find?_cons_of_neg _ (by simp; exact fun he => hne (he.symm ▸ rfl))]
      exact ih h'.2 hpt

/-- In an object with recursively distinct keys, every value is itself
recursively well-keyed. -/
theorem recNodupF_mem_val : ∀ {fs : JObj}, recNodupF fs = true →
    ∀ {p : String × JVal}, p ∈ fs → recNodupV p.2 = true := by
  intro fs
  induction fs with
  | nil =>
    intro _ p hp
    exact absurd hp (by simp)
  | cons q rest ih =>
    intro h p hp
    obtain ⟨k', v'⟩ := q
    have h' : (rest.all (fun p => !(decide (p.1 = k'))) = true ∧
        recNodupV v' = true) ∧ recNodupF rest = true := by
      simpa [recNodupF, Bool.and_eq_true] using h
    rcases List.mem_cons.mp hp with hph | hpt
    · subst hph
      exact h'.1.2
    · exact ih h'.2 hpt

/-- Extending a list with items it already contains (up to Python `==`) is
the identity. -/
theorem foldl_arrExtend_self : ∀ (l acc : List JVal),
    (∀ it ∈ l, acc.any (fun x => jvalBeq x it) = true) →
    l.foldl arrExtend acc = acc := by
  intro l
  induction l with
  | nil => intro acc _; rfl
  | cons x xs ih =>
    intro acc h
    show xs.foldl arrExtend (arrExtend acc x) = acc
    rw [show arrExtend acc x = acc from by
      unfold arrExtend
      rw [if_pos (h x (List.mem_cons_self _ _))]]
    exact ih acc (fun it hit => h it (List.mem_cons_of_mem _ hit))

/-- The scalar branch of `deep_merge` maps a binding onto itself: whether or
not `_should_replace` fires, writing the value back leaves the object
unchanged. -/
theorem mergeOne_scalar_self (target : JObj) (k : String) (v : JVal)
    (hget : jGet target k = some v) :
    (if shouldReplace (getOr target k) v then some (jSet target k v)
     else some target) = some target := by
  by_cases hrep : shouldReplace (getOr target k) v = true
  · rw [if_pos hrep]
    exact congrArg some (jSet_self hget)
  · rw [if_neg hrep]

mutual

/-- Merging a (suffix of a) well-keyed object into an object that already
holds every listed binding changes nothing. -/
theorem deepMerge_self_aux : ∀ (target l : JObj),
    (∀ p ∈ l, jGet target p.1 = some p.2) →
    (∀ p ∈ l, recNodupV p.2 = true) →
    deepMerge target l = some target
  | _, [], _, _ => rfl
  | target, (k, v) :: rest, h1, h2 => by
    have hm : mergeOne target k v = some target :=
      mergeOne_self target k v (h1 (k, v) (List.mem_cons_self _ _))
        (h2 (k, v) (List.mem_cons_self _ _))
    show (match mergeOne target k v with
      | none => none
      | some t' => deepMerge t' rest) = some target
    rw [hm]
    exact deepMerge_self_aux target rest
      (fun p hp => h1 p (List.mem_cons_of_mem _ hp))
      (fun p hp => h2 p (List.mem_cons_of_mem _ hp))

/-- One `deep_merge` iteration of a binding onto an object that already
holds it is a no-op. -/
theorem mergeOne_self : ∀ (target : JObj) (k : String) (v : JVal),
    jGet target k = some v → recNodupV v = true →
    mergeOne target k v = some target
  | target, k, .obj vfs, hget, hv => by
    have hrec : deepMerge vfs vfs = some vfs :=
      deepMerge_self_aux vfs vfs
        (fun p hp => jGet_mem_of_recNodup hv hp)
        (fun p hp => recNodupF_mem_val hv hp)
    show (match jGet target k with
      | some (.obj tfs) =>
        (deepMerge tfs vfs).map (fun m => jSet target k (.obj m))
      | none => (deepMerge [] vfs).map (fun m => jSet target k (.obj m))
      | some _ => none) = some target
    rw [hget]
    show (deepMerge vfs vfs).map (fun m => jSet target k (.obj m)) =
      some target
    rw [hrec]
    exact congrArg some (jSet_self hget)
  | target, k, .arr vitems, hget, _ => by
    show (match jGet target k with
      | none => some (jSet target k (.arr vitems))
      | some existing =>
        if truthy existing = false then some (jSet target k (.arr vitems))
        else
          match existing with
          | .arr eitems =>
            some (jSet target k (.arr (vitems.foldl arrExtend eitems)))
          | _ => some target) = some target
    rw [hget]
    show (if truthy (.arr vitems) = false then
        some (jSet target k (.arr vitems))
      else some (jSet target k (.arr (vitems.foldl arrExtend vitems)))) =
      some target
    by_cases hemp : truthy (.arr vitems) = false
    · rw [if_pos hemp]
      exact congrArg some (jSet_self hget)
    · rw [if_neg hemp]
      rw [foldl_arrExtend_self vitems vitems
        (fun it hit => List.any_eq_true.mpr ⟨it, hit, jvalBeq_refl it⟩)]
      exact congrArg some (jSet_self hget)
  | target, k, .null, hget, _ => mergeOne_scalar_self target k .null hget
  | target, k, .b a, hget, _ => mergeOne_scalar_self target k (.b a) hget
  | target, k, .i n, hget, _ => mergeOne_scalar_self target k (.i n) hget
  | target, k, .s t, hget, _ => mergeOne_scalar_self target k (.s t) hget

end

/-- `stripMarkers` when the document has no `metadata` key. -/
theorem stripMarkers_none {fs : JObj} (h : jGet fs "metadata" = none) :
    stripMarkers fs = fs := by
  unfold stripMarkers
  rw [h]

/-- `stripMarkers` when the document holds an object under `metadata`. -/
theorem stripMarkers_obj {fs : JObj} {ms : List (String × JVal)}
    (h : jGet fs "metadata" = some (.obj ms)) :
    stripMarkers fs =
      (if (ms.filter
          (fun p => !(p.1 == "migrated_at" || p.1 == "source_version"))).isEmpty
      then fs.filter (fun p => !(p.1 == "metadata"))
      else jSet fs "metadata"
        (.obj (ms.filter
          (fun p => !(p.1 == "migrated_at" || p.1 == "source_version"))))) := by
  unfold stripMarkers
  rw [h]

/-- C8 (amended): the MASTER merge is idempotent up to the migration
markers.  For every document whose dict keys are pairwise distinct at every
nesting level and whose top-level `metadata` is absent or an object,
`_merge_master_context(A, A)` succeeds and its result differs from `A` only
in the `metadata.migrated_at` / `metadata.source_version` marker fields
(the `metadata` key itself being created when absent).  The PROJECT merge
does NOT satisfy this property — see the counterexample theorem. -/
theorem C8_master_idempotent (A : JObj) (ts : String)
    (h1 : recNodupF A = true) (h2 : metaOk A = true) :
    ∃ B, mergeMasterContext A A ts = some B ∧
      stripMarkers B = stripMarkers A := by
  have hdm : deepMerge A A = some A :=
    deepMerge_self_aux A A (fun p hp => jGet_mem_of_recNodup h1 hp)
      (fun p hp => recNodupF_mem_val h1 hp)
  have hmm : mergeMasterContext A A ts = stampMarkers A ts := by
    show (match deepMerge A A with
      | none => none
      | some m => stampMarkers m ts) = stampMarkers A ts
    rw [hdm]
  cases hJ : jGet A "metadata" with
  | none =>
    refine ⟨A ++ [("metadata", .obj [("migrated_at", .s ts),
      ("source_version", .s "cmos-v1")])], ?_, ?_⟩
    · rw [hmm]
      unfold stampMarkers
      rw [hJ]
    · rw [stripMarkers_none hJ, stripMarkers_obj (jGet_append_absent _ hJ)]
      rw [if_pos (by rfl)]
      rw [List.filter_append]
      rw [show List.filter (fun p => !(p.1 == "metadata"))
          [("metadata", JVal.obj [("migrated_at", .s ts),
            ("source_version", .s "cmos-v1")])] = [] from rfl]
      rw [List.append_nil]
      exact filter_ne_key_of_absent hJ
  | some jv =>
    cases jv with
    | obj ms =>
      refine ⟨jSet A "metadata" (.obj (jSet (jSet ms "migrated_at" (.s ts))
        "source_version" (.s "cmos-v1"))), ?_, ?_⟩
      · rw [hmm]
        unfold stampMarkers
        rw [hJ]
      · rw [stripMarkers_obj (jGet_jSet_same A "metadata" _),
          stripMarkers_obj hJ]
        have hfil : (jSet (jSet ms "migrated_at" (.s ts)) "source_version"
            (.s "cmos-v1")).filter
              (fun p => !(p.1 == "migrated_at" || p.1 == "source_version")) =
            ms.filter
              (fun p => !(p.1 == "migrated_at" || p.1 == "source_version")) := by
          rw [filter_jSet_pred_false _ _ _ _ (fun w => by simp)]
          rw [filter_jSet_pred_false _ _ _ _ (fun w => by simp)]
        rw [hfil]
        by_cases hemp : (ms.filter
            (fun p => !(p.1 == "migrated_at" ||
              p.1 == "source_version"))).isEmpty = true
        · rw [if_pos hemp, if_pos hemp]
          exact filter_jSet_pred_false _ _ _ _ (fun w => by simp)
        · rw [if_neg hemp, if_neg hemp]
          exact jSet_jSet _ _ _ _
    | null =>
      unfold metaOk at h2
      rw [hJ] at h2
      exact absurd h2 Bool.false_ne_true
    | b a =>
      unfold metaOk at h2
      rw [hJ] at h2
      exact absurd h2 Bool.false_ne_true
    | i n =>
      unfold metaOk at h2
      rw [hJ] at h2
      exact absurd h2 Bool.false_ne_true
    | s t =>
      unfold metaOk at h2
      rw [hJ] at h2
      exact absurd h2 Bool.false_ne_true
    | arr xs =>
      unfold metaOk at h2
      rw [hJ] at h2
      exact absurd h2 Bool.false_ne_true

/-- Witness for the amended C8 at a concrete document with a nested object,
an array, scalars and a metadata object carrying an unrelated field. -/
theorem C8_master_idempotent_witness :
    recNodupF [("project", .obj [("name", .s "x")]),
      ("tags", .arr [.s "a", .i 0]),
      ("metadata", .obj [("extra", .b true)])] = true ∧
    metaOk [("project", .obj [("name", .s "x")]),
      ("tags", .arr [.s "a", .i 0]),
      ("metadata", .obj [("extra", .b true)])] = true ∧
    ∃ B, mergeMasterContext
        [("project", .obj [("name", .s "x")]),
          ("tags", .arr [.s "a", .i 0]),
          ("metadata", .obj [("extra", .b true)])]
        [("project", .obj [("name", .s "x")]),
          ("tags", .arr [.s "a", .i 0]),
          ("metadata", .obj [("extra", .b true)])] "T" = some B ∧
      stripMarkers B = stripMarkers
        [("project", .obj [("name", .s "x")]),
          ("tags", .arr [.s "a", .i 0]),
          ("metadata", .obj [("extra", .b true)])] :=
  ⟨by decide, by decide,
    C8_master_idempotent
      [("project", .obj [("name", .s "x")]),
        ("tags", .arr [.s "a", .i 0]),
        ("metadata", .obj [("extra", .b true)])] "T" (by decide) (by decide)⟩

end Cmos
